import Mathlib

/-!
Inventory / ledger consistency of the tractor agency back end.

A shallow embedding of the Go services under `backend/internal/core/services`
and of the in-memory repositories of `backend/internal/adapters/repository/memory.go`.

Modelling conventions

* `float64` amounts are exact rationals (`Money`); rounding is not modelled.
* Go `int` (stock quantities, sale quantities) is a 64-bit two's complement
  integer: values are `Int`, and `+` / `-` on them go through `wrap64`.
* `int64` identities are `Int`; the counters `nextID` are not wrapped.
* A Go `map[int64]*T` is an association list of records keyed by their `ID`.
* `time.Now()` is read from a `Clock` argument.
* A repository is a record of functions over the whole persisted `World`, as the
  services only see the repository interfaces of `interfaces.go`.
-/

namespace POS

/-! ## Errors -/

/-- Error values of the services and repositories. The sentinels are the package
level `errors.New` variables; `new msg` is an `errors.New(msg)` built at a call site. -/
inductive Error where
  | ErrNotFound
  | ErrTractorNotFound
  | ErrAlreadySold
  | ErrInvalidData
  | ErrPartNotFound
  | ErrInsufficientStock
  | ErrServiceNotFound
  | ErrExpenseNotFound
  | new (msg : String)
  deriving DecidableEq

/-! ## Numbers -/

/-- Amounts (`float64` in the source), taken as exact rationals. -/
abbrev Money := ℚ

/-- Reduction of an integer to the 64-bit two's complement range. -/
def wrap64 (x : Int) : Int := (x + 2 ^ 63) % 2 ^ 64 - 2 ^ 63

/-- Go `int` addition. -/
def intAdd (a b : Int) : Int := wrap64 (a + b)

/-- Go `int` subtraction. -/
def intSub (a b : Int) : Int := wrap64 (a - b)

/-- Values of the Go type `int`. -/
def isInt (x : Int) : Prop := -(2 ^ 63) ≤ x ∧ x < 2 ^ 63

instance (x : Int) : Decidable (isInt x) := by unfold isInt; infer_instance

/-- Decimal rendering of `strconv.Itoa`. -/
def Itoa (n : Int) : String := toString n

/-- Readings of `time.Now()`: `date` in the layout `2006-01-02`, `stamp` in the
layout `2006-01-02 15:04:05`. -/
structure Clock where
  date : String
  stamp : String
  deriving DecidableEq

/-! ## models.go -/

abbrev TractorStatus := String

def StatusInStock : TractorStatus := "in_stock"
def StatusSold : TractorStatus := "sold"

abbrev TractorType := String

structure Tractor where
  ID : Int
  Brand : String
  Model : String
  Year : Int
  Type_ : TractorType
  ChassisNumber : String
  EngineNumber : String
  PurchasePrice : Money
  SalePrice : Money
  Status : TractorStatus
  SupplierName : String
  PurchaseDate : String
  SaleDate : String
  CustomerName : String
  Notes : String
  ExchangeTractorID : Option Int
  deriving DecidableEq

structure SparePart where
  ID : Int
  Name : String
  PartNumber : String
  Category : String
  StockQuantity : Int
  UnitPrice : Money
  MinStock : Int
  CreatedAt : String
  UpdatedAt : String
  deriving DecidableEq

structure ServiceRecord where
  ID : Int
  TractorID : Option Int
  CustomerName : String
  Description : String
  LaborCost : Money
  PartsCost : Money
  TotalCost : Money
  PartsUsed : String
  ServiceDate : String
  Status : String
  deriving DecidableEq

abbrev ExpenseCategory := String

structure Expense where
  ID : Int
  Category : ExpenseCategory
  Amount : Money
  Description : String
  Recipient : String
  Date : String
  CreatedBy : Int
  CreatedAt : String
  deriving DecidableEq

abbrev TransactionType := String

def TransactionSale : TransactionType := "sale"
def TransactionPurchase : TransactionType := "purchase"

structure Transaction where
  ID : Int
  Type_ : TransactionType
  EntityType : String
  EntityID : Int
  Amount : Money
  PartyName : String
  Date : String
  Description : String
  deriving DecidableEq

/-! ## Go maps keyed by the record identity -/

/-- Records stored under their identity. -/
class Keyed (α : Type) where
  key : α → Int

instance : Keyed Tractor := ⟨Tractor.ID⟩
instance : Keyed SparePart := ⟨SparePart.ID⟩
instance : Keyed ServiceRecord := ⟨ServiceRecord.ID⟩
instance : Keyed Expense := ⟨Expense.ID⟩
instance : Keyed Transaction := ⟨Transaction.ID⟩

/-- Map read `m[k]`. -/
def mapGet {α : Type} [Keyed α] (m : List α) (k : Int) : Option α :=
  m.find? (fun x => Keyed.key x == k)

/-- Map write `m[key v] = v`: the entry stored under the key is replaced, a new
key adds an entry. -/
def mapSet {α : Type} [Keyed α] (m : List α) (v : α) : List α :=
  if m.any (fun x => Keyed.key x == Keyed.key v) then
    m.map (fun x => if Keyed.key x == Keyed.key v then v else x)
  else m ++ [v]

/-- Map removal `delete(m, k)`. -/
def mapDelete {α : Type} [Keyed α] (m : List α) (k : Int) : List α :=
  m.filter (fun x => Keyed.key x != k)

/-- In-place change of the record stored under `k` (a write through the stored
pointer). -/
def mapModify {α : Type} [Keyed α] (m : List α) (k : Int) (f : α → α) : List α :=
  m.map (fun x => if Keyed.key x == k then f x else x)

/-- State of one in-memory repository: its map and its `nextID` counter. -/
structure Store (α : Type) where
  items : List α
  nextID : Int
  deriving DecidableEq

/-- A repository as its constructor `NewMemory...Repository` returns it. -/
def Store.new {α : Type} : Store α := { items := [], nextID := 1 }

/-- Every stored key is below the counter (holds of every store grown from `Store.new`). -/
def Store.WF {α : Type} [Keyed α] (s : Store α) : Prop :=
  ∀ x ∈ s.items, Keyed.key x < s.nextID

instance {α : Type} [Keyed α] (s : Store α) : Decidable s.WF := by
  unfold Store.WF; infer_instance

/-- The persisted state: one store per entity collection. -/
structure World where
  tractors : Store Tractor
  parts : Store SparePart
  services : Store ServiceRecord
  expenses : Store Expense
  transactions : Store Transaction
  deriving DecidableEq

/-! ## interfaces.go -/

/-- Interface `TractorRepository` (the methods the services call). -/
structure TractorRepository where
  GetByID : World → Int → Except Error Tractor
  Create : World → Tractor → Except Error (World × Tractor)
  Update : World → Tractor → Except Error World
  Delete : World → Int → Except Error World
  List : World → Option TractorStatus → Except Error (List Tractor)

/-- Interface `SparePartRepository`. -/
structure SparePartRepository where
  GetByID : World → Int → Except Error SparePart
  Create : World → SparePart → Except Error (World × SparePart)
  Update : World → SparePart → Except Error World
  Delete : World → Int → Except Error World
  GetLowStock : World → Except Error (List SparePart)
  UpdateStock : World → Int → Int → Except Error World
  List : World → Except Error (List SparePart)

/-- Interface `ServiceRepository`. -/
structure ServiceRepository where
  GetByID : World → Int → Except Error ServiceRecord
  Create : World → ServiceRecord → Except Error (World × ServiceRecord)
  Update : World → ServiceRecord → Except Error World
  Delete : World → Int → Except Error World
  List : World → String → String → Except Error (List ServiceRecord)

/-- Interface `ExpenseRepository`. -/
structure ExpenseRepository where
  GetByID : World → Int → Except Error Expense
  Create : World → Expense → Except Error (World × Expense)
  Update : World → Expense → Except Error World
  Delete : World → Int → Except Error World
  List : World → Option ExpenseCategory → String → String → Except Error (List Expense)
  GetTotalByCategory : World → ExpenseCategory → String → String → Except Error Money

/-- Interface `TransactionRepository`. -/
structure TransactionRepository where
  Create : World → Transaction → Except Error (World × Transaction)
  List : World → Option TransactionType → String → String → Except Error (List Transaction)
  GetTotalByType : World → TransactionType → String → String → Except Error Money

/-! ## memory.go

`Create` returns, next to the new state, the record as the caller's pointer holds
it after the call (identity assigned). Listings follow the order of the store. -/

/-- The date filter `(startDate == "" || d >= startDate) && (endDate == "" || d <= endDate)`. -/
def inRange (d startDate endDate : String) : Bool :=
  (startDate == "" || decide (startDate ≤ d)) && (endDate == "" || decide (d ≤ endDate))

def MemoryTractorRepository : TractorRepository where
  GetByID w id :=
    match mapGet w.tractors.items id with
    | some t => .ok t
    | none => .error .ErrNotFound
  Create w tractor :=
    let t := { tractor with ID := w.tractors.nextID }
    .ok ({ w with tractors := { items := mapSet w.tractors.items t,
                                nextID := w.tractors.nextID + 1 } }, t)
  Update w tractor :=
    match mapGet w.tractors.items tractor.ID with
    | none => .error .ErrNotFound
    | some _ => .ok { w with tractors := { w.tractors with items := mapSet w.tractors.items tractor } }
  Delete w id :=
    match mapGet w.tractors.items id with
    | none => .error .ErrNotFound
    | some _ => .ok { w with tractors := { w.tractors with items := mapDelete w.tractors.items id } }
  List w status :=
    .ok (w.tractors.items.filter (fun t =>
      match status with
      | none => true
      | some st => t.Status == st))

def MemorySparePartRepository (clk : Clock) : SparePartRepository where
  GetByID w id :=
    match mapGet w.parts.items id with
    | some p => .ok p
    | none => .error .ErrNotFound
  Create w part :=
    let p := { part with ID := w.parts.nextID, CreatedAt := clk.stamp, UpdatedAt := clk.stamp }
    .ok ({ w with parts := { items := mapSet w.parts.items p,
                             nextID := w.parts.nextID + 1 } }, p)
  Update w part :=
    match mapGet w.parts.items part.ID with
    | none => .error .ErrNotFound
    | some _ =>
      let p := { part with UpdatedAt := clk.stamp }
      .ok { w with parts := { w.parts with items := mapSet w.parts.items p } }
  Delete w id :=
    match mapGet w.parts.items id with
    | none => .error .ErrNotFound
    | some _ => .ok { w with parts := { w.parts with items := mapDelete w.parts.items id } }
  List w := .ok w.parts.items
  GetLowStock w := .ok (w.parts.items.filter (fun p => decide (p.StockQuantity ≤ p.MinStock)))
  UpdateStock w id quantity :=
    match mapGet w.parts.items id with
    | some _ =>
      let items := mapModify w.parts.items id
        (fun part => { part with StockQuantity := quantity, UpdatedAt := clk.stamp })
      .ok { w with parts := { w.parts with items := items } }
    | none => .error .ErrNotFound

def MemoryTransactionRepository (clk : Clock) : TransactionRepository where
  Create w tx :=
    let t := { tx with ID := w.transactions.nextID,
                       Date := if tx.Date = "" then clk.date else tx.Date }
    .ok ({ w with transactions := { items := mapSet w.transactions.items t,
                                    nextID := w.transactions.nextID + 1 } }, t)
  List w txType startDate endDate :=
    .ok (w.transactions.items.filter (fun t =>
      (match txType with
       | none => true
       | some ty => t.Type_ == ty) && inRange t.Date startDate endDate))
  GetTotalByType w txType startDate endDate :=
    .ok ((w.transactions.items.filter (fun t =>
      t.Type_ == txType && inRange t.Date startDate endDate)).foldl (fun total t => total + t.Amount) 0)

def MemoryExpenseRepository : ExpenseRepository where
  GetByID w id :=
    match mapGet w.expenses.items id with
    | some e => .ok e
    | none => .error .ErrNotFound
  Create w expense :=
    let e := { expense with ID := w.expenses.nextID }
    .ok ({ w with expenses := { items := mapSet w.expenses.items e,
                                nextID := w.expenses.nextID + 1 } }, e)
  Update w expense :=
    match mapGet w.expenses.items expense.ID with
    | none => .error .ErrNotFound
    | some _ => .ok { w with expenses := { w.expenses with items := mapSet w.expenses.items expense } }
  Delete w id :=
    match mapGet w.expenses.items id with
    | none => .error .ErrNotFound
    | some _ => .ok { w with expenses := { w.expenses with items := mapDelete w.expenses.items id } }
  List w category startDate endDate :=
    .ok (w.expenses.items.filter (fun e =>
      (match category with
       | none => true
       | some c => e.Category == c) && inRange e.Date startDate endDate))
  GetTotalByCategory w category startDate endDate :=
    .ok ((w.expenses.items.filter (fun e =>
      e.Category == category && inRange e.Date startDate endDate)).foldl (fun total e => total + e.Amount) 0)

/-- The in-memory service repository. `memory.go` gives it no `Delete`; the
`Delete` the interface asks for is an argument. -/
def MemoryServiceRepository (Delete : World → Int → Except Error World) : ServiceRepository where
  GetByID w id :=
    match mapGet w.services.items id with
    | some svc => .ok svc
    | none => .error .ErrNotFound
  Create w service :=
    let svc := { service with ID := w.services.nextID }
    .ok ({ w with services := { items := mapSet w.services.items svc,
                                nextID := w.services.nextID + 1 } }, svc)
  Update w service :=
    match mapGet w.services.items service.ID with
    | none => .error .ErrNotFound
    | some _ => .ok { w with services := { w.services with items := mapSet w.services.items service } }
  Delete := Delete
  List w startDate endDate :=
    .ok (w.services.items.filter (fun svc => inRange svc.ServiceDate startDate endDate))

/-! ## postgres.go

Only `PostgresTractorRepository.Delete` is read here: its three statements on the
rows of the logical store. A failure of the database connection is not modelled. -/

/-- The statements `UPDATE tractors SET exchange_tractor_id = NULL WHERE
exchange_tractor_id = $1`, `UPDATE service_records SET tractor_id = NULL WHERE
tractor_id = $1` and `DELETE FROM tractors WHERE id = $1`, in this order. -/
def PostgresTractorRepository_Delete (w : World) (id : Int) : Except Error World :=
  let tractors1 := w.tractors.items.map (fun t =>
    if t.ExchangeTractorID = some id then { t with ExchangeTractorID := none } else t)
  let services1 := w.services.items.map (fun svc =>
    if svc.TractorID = some id then { svc with TractorID := none } else svc)
  .ok { w with
        tractors := { w.tractors with items := tractors1.filter (fun t => t.ID != id) }
        services := { w.services with items := services1 } }

/-! ## parts_service.go -/

structure SparePartService where
  partRepo : SparePartRepository
  transactionRepo : TransactionRepository

/-- Method `UpdateStock`: the returned error (`none` is `nil`) and the state left behind. -/
def SparePartService.UpdateStock (s : SparePartService) (w : World)
    (partID : Int) (quantityChange : Int) : Option Error × World :=
  match s.partRepo.GetByID w partID with
  | .error _ => (some .ErrPartNotFound, w)
  | .ok part =>
    let newQuantity := intAdd part.StockQuantity quantityChange
    if newQuantity < 0 then (some .ErrInsufficientStock, w)
    else
      match s.partRepo.UpdateStock w partID newQuantity with
      | .error e => (some e, w)
      | .ok w1 => (none, w1)

/-- Method `SellPart`. -/
def SparePartService.SellPart (s : SparePartService) (clk : Clock) (w : World)
    (partID : Int) (quantity : Int) (customerName : String) : Option Error × World :=
  match s.partRepo.GetByID w partID with
  | .error _ => (some .ErrPartNotFound, w)
  | .ok part =>
    if part.StockQuantity < quantity then (some .ErrInsufficientStock, w)
    else
      match s.partRepo.UpdateStock w partID (intSub part.StockQuantity quantity) with
      | .error e => (some e, w)
      | .ok w1 =>
        let tx : Transaction :=
          { ID := 0
            Type_ := TransactionSale
            EntityType := "part"
            EntityID := partID
            Amount := part.UnitPrice * (quantity : Money)
            PartyName := customerName
            Date := clk.date
            Description := part.Name ++ " x" ++ Itoa quantity }
        match s.transactionRepo.Create w1 tx with
        | .error e => (some e, w1)
        | .ok (w2, _) => (none, w2)

/-- Method `AddPart`. -/
def SparePartService.AddPart (s : SparePartService) (w : World) (part : SparePart) :
    Option Error × World :=
  if part.Name = "" ∨ part.PartNumber = "" then (some .ErrInvalidData, w)
  else
    match s.partRepo.Create w part with
    | .error e => (some e, w)
    | .ok (w1, _) => (none, w1)

/-- Method `GetLowStockParts`. -/
def SparePartService.GetLowStockParts (s : SparePartService) (w : World) :
    Except Error (List SparePart) :=
  s.partRepo.GetLowStock w

/-- The parts service over the in-memory repositories. -/
def memSparePartService (clk : Clock) : SparePartService :=
  { partRepo := MemorySparePartRepository clk
    transactionRepo := MemoryTransactionRepository clk }

/-! ## tractor_service.go -/

structure TractorService where
  tractorRepo : TractorRepository
  transactionRepo : TransactionRepository

structure SellTractorResult where
  Message : String
  ProfitLoss : Money
  ExchangeID : Option Int
  deriving DecidableEq

/-- Method `SellTractor`: the returned pair of result and error, and the state left
behind. `exchangeTractor` is `none` for a nil pointer. -/
def TractorService.SellTractor (s : TractorService) (clk : Clock) (w : World)
    (tractorID : Int) (salePrice : Money) (customerName : String) (isExchange : Bool)
    (exchangeTractor : Option Tractor) : Except Error SellTractorResult × World :=
  match s.tractorRepo.GetByID w tractorID with
  | .error _ => (.error .ErrTractorNotFound, w)
  | .ok loaded =>
    if loaded.Status = StatusSold then (.error .ErrAlreadySold, w)
    else
      let tractor : Tractor :=
        { loaded with Status := StatusSold, SalePrice := salePrice,
                      CustomerName := customerName, SaleDate := clk.date }
      match s.tractorRepo.Update w tractor with
      | .error e => (.error e, w)
      | .ok w1 =>
        let tx : Transaction :=
          { ID := 0
            Type_ := TransactionSale
            EntityType := "tractor"
            EntityID := tractor.ID
            Amount := salePrice
            PartyName := customerName
            Date := tractor.SaleDate
            Description := tractor.Brand ++ " " ++ tractor.Model ++ " sale" }
        match s.transactionRepo.Create w1 tx with
        | .error e => (.error e, w1)
        | .ok (w2, _) =>
          let result : SellTractorResult :=
            { Message := "tractor sold successfully"
              ProfitLoss := salePrice - tractor.PurchasePrice
              ExchangeID := none }
          match isExchange, exchangeTractor with
          | true, some payload =>
            let incoming : Tractor :=
              { payload with
                  Status := StatusInStock
                  PurchaseDate := clk.date
                  SupplierName := if payload.SupplierName = "" then customerName
                                  else payload.SupplierName }
            match s.tractorRepo.Create w2 incoming with
            | .error e => (.error e, w2)
            | .ok (w3, exchanged) =>
              let tractor2 : Tractor := { tractor with ExchangeTractorID := some exchanged.ID }
              match s.tractorRepo.Update w3 tractor2 with
              | .error e => (.error e, w3)
              | .ok w4 =>
                let exchangeTx : Transaction :=
                  { ID := 0
                    Type_ := TransactionPurchase
                    EntityType := "tractor"
                    EntityID := exchanged.ID
                    Amount := exchanged.PurchasePrice
                    PartyName := customerName
                    Date := exchanged.PurchaseDate
                    Description := exchanged.Brand ++ " " ++ exchanged.Model ++ " exchange purchase" }
                match s.transactionRepo.Create w4 exchangeTx with
                | .error e => (.error e, w4)
                | .ok (w5, _) =>
                  (.ok { result with
                           ProfitLoss := salePrice - tractor2.PurchasePrice - exchanged.PurchasePrice
                           ExchangeID := some exchanged.ID
                           Message := "tractor sold with exchange successfully" }, w5)
          | _, _ => (.ok result, w2)

/-- Method `AddTractor`. -/
def TractorService.AddTractor (s : TractorService) (clk : Clock) (w : World)
    (tractor : Tractor) : Option Error × World :=
  if tractor.Brand = "" ∨ tractor.Model = "" then (some .ErrInvalidData, w)
  else
    let incoming : Tractor :=
      { tractor with Status := StatusInStock, PurchaseDate := clk.date }
    match s.tractorRepo.Create w incoming with
    | .error e => (some e, w)
    | .ok (w1, created) =>
      let tx : Transaction :=
        { ID := 0
          Type_ := TransactionPurchase
          EntityType := "tractor"
          EntityID := created.ID
          Amount := created.PurchasePrice
          PartyName := created.SupplierName
          Date := created.PurchaseDate
          Description := created.Brand ++ " " ++ created.Model ++ " purchase" }
      match s.transactionRepo.Create w1 tx with
      | .error e => (some e, w1)
      | .ok (w2, _) => (none, w2)

/-- Method `UpdateTractor`. -/
def TractorService.UpdateTractor (s : TractorService) (w : World) (tractor : Tractor) :
    Option Error × World :=
  match s.tractorRepo.Update w tractor with
  | .error e => (some e, w)
  | .ok w1 => (none, w1)

/-- Method `DeleteTractor`. -/
def TractorService.DeleteTractor (s : TractorService) (w : World) (id : Int) :
    Option Error × World :=
  match s.tractorRepo.Delete w id with
  | .error e => (some e, w)
  | .ok w1 => (none, w1)

/-- The tractor service over the in-memory repositories. -/
def memTractorService (clk : Clock) : TractorService :=
  { tractorRepo := MemoryTractorRepository
    transactionRepo := MemoryTransactionRepository clk }

/-- The tractor service over the in-memory repositories, with `create` in the place of
`MemoryTractorRepository.Create` (a `Create` that may fail). -/
def memTractorServiceWith (clk : Clock)
    (create : World → Tractor → Except Error (World × Tractor)) : TractorService :=
  { tractorRepo := { MemoryTractorRepository with Create := create }
    transactionRepo := MemoryTransactionRepository clk }

/-! ## service_record_service.go -/

structure ServiceRecordService where
  serviceRepo : ServiceRepository
  partRepo : SparePartRepository
  transactionRepo : TransactionRepository

structure PartUsage where
  PartID : Int
  Name : String
  Quantity : Int
  UnitPrice : Money
  deriving DecidableEq

/-- The loop `for _, partUsage := range partsUsed` of `CreateServiceRecord`, from
the running `calculatedPartsCost`: either the error the method returns from inside
the loop or the final sum, and the state left behind. -/
def ServiceRecordService.consumeParts (s : ServiceRecordService) (w : World)
    (calculatedPartsCost : Money) : List PartUsage → Except Error Money × World
  | [] => (.ok calculatedPartsCost, w)
  | partUsage :: rest =>
    let cost := calculatedPartsCost + partUsage.UnitPrice * (partUsage.Quantity : Money)
    match s.partRepo.GetByID w partUsage.PartID with
    | .error _ => (.error (.new ("part not found: " ++ partUsage.Name)), w)
    | .ok part =>
      if part.StockQuantity < partUsage.Quantity then
        (.error (.new ("insufficient stock for part: " ++ partUsage.Name)), w)
      else
        match s.partRepo.UpdateStock w partUsage.PartID
            (intSub part.StockQuantity partUsage.Quantity) with
        | .error e => (.error e, w)
        | .ok w1 => s.consumeParts w1 cost rest

/-- Method `CreateServiceRecord`. `unmarshal` is `json.Unmarshal` into a
`[]PartUsage`: `some l` when it returns no error. -/
def ServiceRecordService.CreateServiceRecord (s : ServiceRecordService)
    (unmarshal : String → Option (List PartUsage)) (clk : Clock) (w : World)
    (record : ServiceRecord) : Option Error × World :=
  if record.CustomerName = "" ∨ record.Description = "" then (some .ErrInvalidData, w)
  else
    let parsed : Option (List PartUsage) :=
      if record.PartsUsed ≠ "" then unmarshal record.PartsUsed else none
    let consumed : Except Error ServiceRecord × World :=
      match parsed with
      | some partsUsed =>
        match s.consumeParts w 0 partsUsed with
        | (.error e, w1) => (.error e, w1)
        | (.ok calculatedPartsCost, w1) =>
          if record.PartsCost = 0 ∨ calculatedPartsCost > 0 then
            (.ok { record with PartsCost := calculatedPartsCost }, w1)
          else (.ok record, w1)
      | none => (.ok record, w)
    match consumed with
    | (.error e, w1) => (some e, w1)
    | (.ok record1, w1) =>
      let record2 : ServiceRecord :=
        { record1 with TotalCost := record1.LaborCost + record1.PartsCost, Status := "completed" }
      let record3 : ServiceRecord :=
        if record2.ServiceDate = "" then { record2 with ServiceDate := clk.date } else record2
      match s.serviceRepo.Create w1 record3 with
      | .error e => (some e, w1)
      | .ok (w2, created) =>
        let tx : Transaction :=
          { ID := 0
            Type_ := TransactionSale
            EntityType := "service"
            EntityID := created.ID
            Amount := created.TotalCost
            PartyName := created.CustomerName
            Date := created.ServiceDate
            Description := "Service: " ++ created.Description }
        match s.transactionRepo.Create w2 tx with
        | .error e => (some e, w2)
        | .ok (w3, _) => (none, w3)

/-- The loop of `UpdateServiceRecord` over the decoded parts-used list: the
final `calculatedPartsCost`, starting from `0.0`. -/
def calculatedPartsCost (partsUsed : List PartUsage) : Money :=
  partsUsed.foldl
    (fun cost partUsage => cost + partUsage.UnitPrice * (partUsage.Quantity : Money)) 0

/-- Method `UpdateServiceRecord`. -/
def ServiceRecordService.UpdateServiceRecord (s : ServiceRecordService)
    (unmarshal : String → Option (List PartUsage)) (w : World)
    (record : ServiceRecord) : Option Error × World :=
  let parsed : Option (List PartUsage) :=
    if record.PartsUsed ≠ "" then unmarshal record.PartsUsed else none
  let record1 : ServiceRecord :=
    match parsed with
    | some partsUsed =>
      if record.PartsCost = 0 ∨ calculatedPartsCost partsUsed > 0 then
        { record with PartsCost := calculatedPartsCost partsUsed }
      else record
    | none => record
  let record2 : ServiceRecord :=
    { record1 with TotalCost := record1.LaborCost + record1.PartsCost }
  match s.serviceRepo.Update w record2 with
  | .error e => (some e, w)
  | .ok w1 => (none, w1)

/-- Method `DeleteServiceRecord`. -/
def ServiceRecordService.DeleteServiceRecord (s : ServiceRecordService) (w : World)
    (id : Int) : Option Error × World :=
  match s.serviceRepo.Delete w id with
  | .error e => (some e, w)
  | .ok w1 => (none, w1)

/-- The service-record service over the in-memory repositories. -/
def memServiceRecordService (clk : Clock) (Delete : World → Int → Except Error World) :
    ServiceRecordService :=
  { serviceRepo := MemoryServiceRepository Delete
    partRepo := MemorySparePartRepository clk
    transactionRepo := MemoryTransactionRepository clk }

/-! ## expense_service.go -/

def ExpenseSalary : ExpenseCategory := "salary"
def ExpenseRent : ExpenseCategory := "rent"
def ExpenseBill : ExpenseCategory := "bill"
def ExpenseMisc : ExpenseCategory := "misc"

/-- A Go `map[string]float64`, as the list of its key and value pairs. -/
abbrev FloatMap := List (String × Money)

/-- Map write `m[k] = v`. -/
def FloatMap.set (m : FloatMap) (k : String) (v : Money) : FloatMap :=
  if m.any (fun p => p.1 == k) then m.map (fun p => if p.1 == k then (k, v) else p)
  else m ++ [(k, v)]

/-- Map read `m[k]`, `none` for a key that is not in the map. -/
def FloatMap.get (m : FloatMap) (k : String) : Option Money :=
  (m.find? (fun p => p.1 == k)).map Prod.snd

structure ExpenseService where
  expenseRepo : ExpenseRepository
  transactionRepo : TransactionRepository

/-- Method `AddExpense`. -/
def ExpenseService.AddExpense (s : ExpenseService) (clk : Clock) (w : World)
    (expense : Expense) (userID : Int) : Option Error × World :=
  if expense.Amount ≤ 0 then (some .ErrInvalidData, w)
  else
    let expense1 : Expense := { expense with CreatedBy := userID, CreatedAt := clk.stamp }
    let expense2 : Expense :=
      if expense1.Date = "" then { expense1 with Date := clk.date } else expense1
    match s.expenseRepo.Create w expense2 with
    | .error e => (some e, w)
    | .ok (w1, _) => (none, w1)

/-- Method `DeleteExpense`. -/
def ExpenseService.DeleteExpense (s : ExpenseService) (w : World) (id : Int) :
    Option Error × World :=
  match s.expenseRepo.Delete w id with
  | .error e => (some e, w)
  | .ok w1 => (none, w1)

/-- Method `UpdateExpense`. -/
def ExpenseService.UpdateExpense (s : ExpenseService) (clk : Clock) (w : World)
    (expense : Expense) : Option Error × World :=
  match s.expenseRepo.Update w { expense with Date := clk.date } with
  | .error e => (some e, w)
  | .ok w1 => (none, w1)

/-- The loop `for _, cat := range categories` of `GetExpenseSummary`, from the
`summary` built so far. -/
def ExpenseService.summaryLoop (s : ExpenseService) (w : World) (startDate endDate : String) :
    List ExpenseCategory → FloatMap → Except Error FloatMap
  | [], summary => .ok summary
  | cat :: rest, summary =>
    match s.expenseRepo.GetTotalByCategory w cat startDate endDate with
    | .error e => .error e
    | .ok total => s.summaryLoop w startDate endDate rest (summary.set cat total)

/-- Method `GetExpenseSummary`. -/
def ExpenseService.GetExpenseSummary (s : ExpenseService) (w : World)
    (startDate endDate : String) : Except Error FloatMap :=
  s.summaryLoop w startDate endDate [ExpenseSalary, ExpenseRent, ExpenseBill, ExpenseMisc] []

/-- Method `GetProfitLoss`. The loop `for _, v := range expenses` adds up the values
of the summary. -/
def ExpenseService.GetProfitLoss (s : ExpenseService) (w : World)
    (startDate endDate : String) : Except Error FloatMap :=
  match s.transactionRepo.GetTotalByType w TransactionSale startDate endDate with
  | .error e => .error e
  | .ok totalSales =>
    let result1 := FloatMap.set [] "total_sales" totalSales
    match s.transactionRepo.GetTotalByType w TransactionPurchase startDate endDate with
    | .error e => .error e
    | .ok totalPurchases =>
      let result2 := result1.set "total_purchases" totalPurchases
      match s.GetExpenseSummary w startDate endDate with
      | .error e => .error e
      | .ok expenses =>
        let totalExpenses : Money := expenses.foldl (fun total p => total + p.2) 0
        let result3 := result2.set "total_expenses" totalExpenses
        let result4 := result3.set "gross_profit" (totalSales - totalPurchases)
        let result5 := result4.set "net_profit" (totalSales - totalPurchases - totalExpenses)
        .ok result5

/-- Method `GetTransactions`; `txType` is `none` for a nil pointer. -/
def ExpenseService.GetTransactions (s : ExpenseService) (w : World)
    (txType : Option TransactionType) (entityType startDate endDate : String) :
    Except Error (List Transaction) :=
  match s.transactionRepo.List w txType startDate endDate with
  | .error e => .error e
  | .ok transactions =>
    if entityType ≠ "" then .ok (transactions.filter (fun tx => tx.EntityType == entityType))
    else .ok transactions

/-- The expense service over the in-memory repositories. -/
def memExpenseService (clk : Clock) : ExpenseService :=
  { expenseRepo := MemoryExpenseRepository
    transactionRepo := MemoryTransactionRepository clk }

/-! ## Calls of the workflows that write -/

/-- A call of one of the workflows that write. -/
inductive Call where
  | AddTractor (tractor : Tractor)
  | SellTractor (tractorID : Int) (salePrice : Money) (customerName : String)
      (isExchange : Bool) (exchangeTractor : Option Tractor)
  | SellPart (partID : Int) (quantity : Int) (customerName : String)
  | UpdateStock (partID : Int) (quantityChange : Int)
  | CreateServiceRecord (record : ServiceRecord)
  | UpdateServiceRecord (record : ServiceRecord)
  | AddExpense (expense : Expense) (userID : Int)
  | UpdateTractor (tractor : Tractor)
  | DeleteTractor (id : Int)
  | DeleteServiceRecord (id : Int)

/-- The state a call leaves behind, over the in-memory repositories, whether it
succeeds or fails. -/
def Call.run (rclk clk : Clock) (unmarshal : String → Option (List PartUsage))
    (del : World → Int → Except Error World) (w : World) : Call → World
  | .AddTractor tractor => ((memTractorService rclk).AddTractor clk w tractor).2
  | .SellTractor tractorID salePrice customerName isExchange exchangeTractor =>
    ((memTractorService rclk).SellTractor clk w tractorID salePrice customerName isExchange
      exchangeTractor).2
  | .SellPart partID quantity customerName =>
    ((memSparePartService rclk).SellPart clk w partID quantity customerName).2
  | .UpdateStock partID quantityChange =>
    ((memSparePartService rclk).UpdateStock w partID quantityChange).2
  | .CreateServiceRecord record =>
    ((memServiceRecordService rclk del).CreateServiceRecord unmarshal clk w record).2
  | .UpdateServiceRecord record =>
    ((memServiceRecordService rclk del).UpdateServiceRecord unmarshal w record).2
  | .AddExpense expense userID => ((memExpenseService rclk).AddExpense clk w expense userID).2
  | .UpdateTractor tractor => ((memTractorService rclk).UpdateTractor w tractor).2
  | .DeleteTractor id => ((memTractorService rclk).DeleteTractor w id).2
  | .DeleteServiceRecord id => ((memServiceRecordService rclk del).DeleteServiceRecord w id).2

/-- A call of one of the three workflows that write expenses. -/
inductive ExpenseCall where
  | AddExpense (expense : Expense) (userID : Int)
  | UpdateExpense (expense : Expense)
  | DeleteExpense (id : Int)

/-- The returned error and the state an expense call leaves behind, over the in-memory
repositories. -/
def ExpenseCall.run (rclk clk : Clock) (w : World) : ExpenseCall → Option Error × World
  | .AddExpense expense userID => (memExpenseService rclk).AddExpense clk w expense userID
  | .UpdateExpense expense => (memExpenseService rclk).UpdateExpense clk w expense
  | .DeleteExpense id => (memExpenseService rclk).DeleteExpense w id

/-- The state after a sequence of expense calls, from `w`. -/
def ExpenseCall.runAll (rclk clk : Clock) (w : World) (calls : List ExpenseCall) : World :=
  calls.foldl (fun w1 call => (call.run rclk clk w1).2) w

/-! ## Example states -/

/-- A clock reading used in the examples. -/
def exClock : Clock := { date := "2024-03-01", stamp := "2024-03-01 10:00:00" }

/-- A spare part with stock 5 and minimum stock 5. -/
def exBolt : SparePart :=
  { ID := 1, Name := "bolt", PartNumber := "B-1", Category := "", StockQuantity := 5,
    UnitPrice := 10, MinStock := 5, CreatedAt := "", UpdatedAt := "" }

/-- A spare part with stock 1. -/
def exNut : SparePart :=
  { ID := 2, Name := "nut", PartNumber := "N-1", Category := "", StockQuantity := 1,
    UnitPrice := 2, MinStock := 0, CreatedAt := "", UpdatedAt := "" }

/-- A world holding the two example parts and nothing else. -/
def exPartsWorld : World :=
  { tractors := Store.new
    parts := { items := [exBolt, exNut], nextID := 3 }
    services := Store.new
    expenses := Store.new
    transactions := Store.new }

/-- An in-stock tractor bought for 10000. -/
def exTractor : Tractor :=
  { ID := 1, Brand := "Mahindra", Model := "575", Year := 2020, Type_ := "new",
    ChassisNumber := "CH-1", EngineNumber := "EN-1", PurchasePrice := 10000, SalePrice := 0,
    Status := StatusInStock, SupplierName := "dealer", PurchaseDate := "2024-01-10",
    SaleDate := "", CustomerName := "", Notes := "", ExchangeTractorID := none }

/-- A trade-in payload valued at 4000, sent with status "sold" and no supplier name. -/
def exTradeIn : Tractor :=
  { ID := 0, Brand := "Sonalika", Model := "DI-35", Year := 2012, Type_ := "used",
    ChassisNumber := "CH-9", EngineNumber := "EN-9", PurchasePrice := 4000, SalePrice := 0,
    Status := StatusSold, SupplierName := "", PurchaseDate := "",
    SaleDate := "", CustomerName := "", Notes := "", ExchangeTractorID := none }

/-- A world holding the example tractor and nothing else. -/
def exTractorWorld : World :=
  { tractors := { items := [exTractor], nextID := 2 }
    parts := Store.new
    services := Store.new
    expenses := Store.new
    transactions := Store.new }

/-- The parts-used text of the example service record. -/
def exPartsUsed : String :=
  "[\x7b\"part_id\":1,\"name\":\"bolt\",\"quantity\":2,\"unit_price\":10\x7d," ++
  "\x7b\"part_id\":2,\"name\":\"nut\",\"quantity\":3,\"unit_price\":2\x7d]"

/-- What `json.Unmarshal` makes of `exPartsUsed` (other texts are not needed in the examples). -/
def exUnmarshal (s : String) : Option (List PartUsage) :=
  if s = exPartsUsed then
    some [{ PartID := 1, Name := "bolt", Quantity := 2, UnitPrice := 10 },
          { PartID := 2, Name := "nut", Quantity := 3, UnitPrice := 2 }]
  else none

/-- A service record using two bolts and three nuts. -/
def exRecord : ServiceRecord :=
  { ID := 0, TractorID := none, CustomerName := "farmer", Description := "oil change",
    LaborCost := 100, PartsCost := 0, TotalCost := 0, PartsUsed := exPartsUsed,
    ServiceDate := "", Status := "" }

/-- A `Delete` for the example service repository. -/
def exDelete (w : World) (id : Int) : Except Error World :=
  .ok { w with services := { w.services with items := mapDelete w.services.items id } }

/-- A parts-used text with one entry of quantity 0. -/
def exZeroPartsUsed : String :=
  "[\x7b\"part_id\":1,\"name\":\"bolt\",\"quantity\":0,\"unit_price\":10\x7d]"

/-- What `json.Unmarshal` makes of `exZeroPartsUsed`. -/
def exUnmarshalZero (s : String) : Option (List PartUsage) :=
  if s = exZeroPartsUsed then
    some [{ PartID := 1, Name := "bolt", Quantity := 0, UnitPrice := 10 }]
  else none

/-- A service record that lists zero bolts and supplies a parts cost of 50. -/
def exZeroRecord : ServiceRecord :=
  { ID := 0, TractorID := none, CustomerName := "farmer", Description := "inspection",
    LaborCost := 100, PartsCost := 50, TotalCost := 0, PartsUsed := exZeroPartsUsed,
    ServiceDate := "2024-03-01", Status := "" }

/-- A parts-used text with one entry: two bolts at 10. -/
def exTwoBoltsUsed : String :=
  "[\x7b\"part_id\":1,\"name\":\"bolt\",\"quantity\":2,\"unit_price\":10\x7d]"

/-- What `json.Unmarshal` makes of `exTwoBoltsUsed`. -/
def exUnmarshalTwoBolts (s : String) : Option (List PartUsage) :=
  if s = exTwoBoltsUsed then
    some [{ PartID := 1, Name := "bolt", Quantity := 2, UnitPrice := 10 }]
  else none

/-- A service record that uses two bolts and supplies no parts cost. -/
def exTwoBoltsRecord : ServiceRecord :=
  { ID := 1, TractorID := none, CustomerName := "farmer", Description := "brake repair",
    LaborCost := 100, PartsCost := 0, TotalCost := 0, PartsUsed := exTwoBoltsUsed,
    ServiceDate := "2024-03-01", Status := "pending" }

/-- A world with the two example parts and one stored service record. -/
def exServiceWorld : World :=
  { tractors := Store.new
    parts := { items := [exBolt, exNut], nextID := 3 }
    services := { items := [{ exTwoBoltsRecord with PartsUsed := "", Status := "completed" }],
                  nextID := 2 }
    expenses := Store.new
    transactions := Store.new }

/-- A record for the stored service record that lists 1000 pieces of a part that is
not in stock. -/
def exUnknownPartRecord : ServiceRecord :=
  { exTwoBoltsRecord with PartsUsed := "unknown" }

/-- A decoder that reads every text as 1000 pieces of the unknown part 99. -/
def exUnmarshalUnknown (_ : String) : Option (List PartUsage) :=
  some [{ PartID := 99, Name := "gasket", Quantity := 1000, UnitPrice := 3 }]

/-- Some expenses and ledger entries for the reports. -/
def exReportWorld : World :=
  { tractors := Store.new
    parts := Store.new
    services := Store.new
    expenses :=
      { items :=
          [{ ID := 1, Category := ExpenseSalary, Amount := 300, Description := "wages",
             Recipient := "driver", Date := "2024-02-10", CreatedBy := 1, CreatedAt := "" },
           { ID := 2, Category := ExpenseRent, Amount := 200, Description := "yard",
             Recipient := "", Date := "2024-02-11", CreatedBy := 1, CreatedAt := "" }]
        nextID := 3 }
    transactions :=
      { items :=
          [{ ID := 1, Type_ := TransactionPurchase, EntityType := "tractor", EntityID := 1,
             Amount := 10000, PartyName := "dealer", Date := "2024-02-01",
             Description := "Mahindra 575 purchase" },
           { ID := 2, Type_ := TransactionSale, EntityType := "tractor", EntityID := 1,
             Amount := 15000, PartyName := "buyer", Date := "2024-02-20",
             Description := "Mahindra 575 sale" }]
        nextID := 3 } }

/-- The state of freshly constructed repositories. -/
def exEmptyWorld : World :=
  { tractors := Store.new
    parts := Store.new
    services := Store.new
    expenses := Store.new
    transactions := Store.new }

/-- A rent expense of 100. -/
def exRentExpense : Expense :=
  { ID := 0, Category := ExpenseRent, Amount := 100, Description := "yard",
    Recipient := "", Date := "2024-02-11", CreatedBy := 0, CreatedAt := "" }

/-- A sold tractor whose exchange reference points at tractor 2. -/
def exSoldTractor : Tractor :=
  { exTractor with Status := StatusSold, SalePrice := 15000, CustomerName := "buyer",
                   SaleDate := "2024-02-20", ExchangeTractorID := some 2 }

/-- The tractor taken in exchange, stored under id 2. -/
def exTakenIn : Tractor :=
  { exTradeIn with ID := 2, Status := StatusInStock, SupplierName := "buyer",
                   PurchaseDate := "2024-02-20" }

/-- A world after an exchange sale: the sold tractor 1 refers to the trade-in 2, and a
service record refers to tractor 2. -/
def exExchangeWorld : World :=
  { tractors := { items := [exSoldTractor, exTakenIn], nextID := 3 }
    parts := Store.new
    services :=
      { items := [{ ID := 1, TractorID := some 2, CustomerName := "farmer",
                    Description := "oil change", LaborCost := 100, PartsCost := 0,
                    TotalCost := 100, PartsUsed := "", ServiceDate := "2024-02-25",
                    Status := "completed" }]
        nextID := 2 }
    expenses := Store.new
    transactions := Store.new }

/-- A spare part stored with a negative unit price. -/
def exRebate : SparePart :=
  { ID := 1, Name := "voucher", PartNumber := "V-1", Category := "", StockQuantity := 5,
    UnitPrice := -2, MinStock := 0, CreatedAt := "", UpdatedAt := "" }

/-- A world holding the negatively priced part and nothing else. -/
def exRebateWorld : World :=
  { tractors := Store.new
    parts := { items := [exRebate], nextID := 2 }
    services := Store.new
    expenses := Store.new
    transactions := Store.new }

/-- A `Create` of the tractor repository that always fails. -/
def exFailingCreate (_ : World) (_ : Tractor) : Except Error (World × Tractor) :=
  .error (.new "connection refused")

/-- A service record whose parts-used text is not a list of part usages, with a
supplied parts cost of 50. -/
def exGarbledRecord : ServiceRecord :=
  { exZeroRecord with PartsUsed := "two bolts" }

/-! ## Lemmas on maps, stores and machine integers -/

theorem mapGet_some {α : Type} [Keyed α] {m : List α} {k : Int} {x : α}
    (h : mapGet m k = some x) : Keyed.key x = k ∧ x ∈ m := by
  unfold mapGet at h
  have h1 := List.find?_some h
  have h2 := List.mem_of_find?_eq_some h
  exact ⟨by simpa using h1, h2⟩

theorem mapGet_eq_none {α : Type} [Keyed α] {m : List α} {k : Int} :
    mapGet m k = none ↔ ∀ x ∈ m, Keyed.key x ≠ k := by
  unfold mapGet
  simp [List.find?_eq_none]

theorem mapGet_map {α : Type} [Keyed α] (m : List α) (g : α → α)
    (hg : ∀ x, Keyed.key (g x) = Keyed.key x) (j : Int) :
    mapGet (m.map g) j = (mapGet m j).map g := by
  unfold mapGet
  rw [List.find?_map]
  have : ((fun x => Keyed.key x == j) ∘ g) = (fun x => Keyed.key x == j) := by
    funext x
    simp [hg]
  rw [this]

theorem mapGet_mapModify_same {α : Type} [Keyed α] (m : List α) (k : Int) (f : α → α)
    (hf : ∀ x, Keyed.key (f x) = Keyed.key x) (x : α) (h : mapGet m k = some x) :
    mapGet (mapModify m k f) k = some (f x) := by
  unfold mapModify
  rw [mapGet_map, h]
  · simp [(mapGet_some h).1]
  · intro y
    split <;> simp [hf]

theorem mapGet_mapModify_ne {α : Type} [Keyed α] (m : List α) (k j : Int) (f : α → α)
    (hf : ∀ x, Keyed.key (f x) = Keyed.key x) (hj : j ≠ k) :
    mapGet (mapModify m k f) j = mapGet m j := by
  unfold mapModify
  rw [mapGet_map]
  · cases h : mapGet m j with
    | none => rfl
    | some y =>
      have hy := (mapGet_some h).1
      simp [hy, hj]
  · intro y
    split <;> simp [hf]

theorem mapSet_fresh {α : Type} [Keyed α] (m : List α) (v : α)
    (h : ∀ x ∈ m, Keyed.key x ≠ Keyed.key v) : mapSet m v = m ++ [v] := by
  unfold mapSet
  rw [if_neg]
  simpa using h

theorem mapSet_of_WF {α : Type} [Keyed α] (s : Store α) (v : α) (h : s.WF)
    (hv : Keyed.key v = s.nextID) : mapSet s.items v = s.items ++ [v] := by
  apply mapSet_fresh
  intro x hx
  have := h x hx
  omega

theorem mapGet_append_fresh {α : Type} [Keyed α] (m : List α) (v : α) (j : Int) :
    mapGet (m ++ [v]) j = (mapGet m j).or (if Keyed.key v = j then some v else none) := by
  unfold mapGet
  rw [List.find?_append]
  by_cases h : Keyed.key v = j
  · simp [List.find?_cons, h]
  · have hb : (Keyed.key v == j) = false := by simpa using h
    simp [List.find?_cons, hb, h]

theorem mapGet_mapSet_same {α : Type} [Keyed α] (m : List α) (v : α) :
    mapGet (mapSet m v) (Keyed.key v) = some v := by
  unfold mapSet
  split
  · rename_i h
    rw [mapGet_map]
    · simp only [List.any_eq_true] at h
      obtain ⟨x, hx, hk⟩ := h
      cases hg : mapGet m (Keyed.key v) with
      | none =>
        have := mapGet_eq_none.1 hg x hx
        simp at hk
        exact absurd hk this
      | some y =>
        simp [(mapGet_some hg).1]
    · intro y
      split
      · rename_i hy
        simp at hy
        exact hy.symm
      · rfl
  · rename_i h
    rw [mapGet_append_fresh]
    have : mapGet m (Keyed.key v) = none := by
      rw [mapGet_eq_none]
      simpa using h
    simp [this]

theorem mapGet_mapSet_ne {α : Type} [Keyed α] (m : List α) (v : α) (j : Int)
    (hj : j ≠ Keyed.key v) : mapGet (mapSet m v) j = mapGet m j := by
  unfold mapSet
  have hj' : ¬ Keyed.key v = j := fun h => hj h.symm
  split
  · rw [mapGet_map]
    · cases h : mapGet m j with
      | none => rfl
      | some y =>
        have hy := (mapGet_some h).1
        simp [hy, hj]
    · intro y
      split
      · rename_i hy
        simp at hy
        exact hy.symm
      · rfl
  · rw [mapGet_append_fresh]
    simp [hj']

theorem mapGet_mapSet_isSome {α : Type} [Keyed α] (m : List α) (v : α) (k : Int)
    (h : (mapGet m k).isSome) : (mapGet (mapSet m v) k).isSome := by
  by_cases hk : k = Keyed.key v
  · rw [hk, mapGet_mapSet_same]; rfl
  · rw [mapGet_mapSet_ne m v k hk]; exact h

theorem mapSet_length {α : Type} [Keyed α] (m : List α) (v : α)
    (h : (mapGet m (Keyed.key v)).isSome) : (mapSet m v).length = m.length := by
  unfold mapSet
  split
  · simp
  · rename_i hany
    exfalso
    rw [Option.isSome_iff_exists] at h
    obtain ⟨x, hx⟩ := h
    have := mapGet_some hx
    apply hany
    simp only [List.any_eq_true]
    exact ⟨x, this.2, by simp [this.1]⟩

theorem Store.new_WF {α : Type} [Keyed α] : (Store.new : Store α).WF := by
  intro x hx
  simp [Store.new] at hx

theorem wrap64_of_isInt {x : Int} (h : isInt x) : wrap64 x = x := by
  unfold isInt at h
  unfold wrap64
  omega

theorem wrap64_isInt (x : Int) : isInt (wrap64 x) := by
  unfold isInt wrap64
  omega

theorem mem_mapSet {α : Type} [Keyed α] {m : List α} {v y : α} (h : y ∈ mapSet m v) :
    y = v ∨ y ∈ m := by
  unfold mapSet at h
  split at h
  · simp only [List.mem_map] at h
    obtain ⟨x, hx, rfl⟩ := h
    split
    · exact Or.inl rfl
    · exact Or.inr hx
  · simp only [List.mem_append, List.mem_singleton] at h
    exact h.symm

theorem Store.WF_create {α : Type} [Keyed α] (s : Store α) (v : α) (h : s.WF)
    (hv : Keyed.key v = s.nextID) :
    ({ items := mapSet s.items v, nextID := s.nextID + 1 } : Store α).WF := by
  intro y hy
  rcases mem_mapSet hy with rfl | hy
  · simp only [hv]; omega
  · have := h y hy
    simp only
    omega

theorem Store.WF_update {α : Type} [Keyed α] (s : Store α) (v : α) (h : s.WF)
    (hk : (mapGet s.items (Keyed.key v)).isSome) :
    ({ s with items := mapSet s.items v } : Store α).WF := by
  rw [Option.isSome_iff_exists] at hk
  obtain ⟨x, hx⟩ := hk
  have hx' := mapGet_some hx
  intro y hy
  rcases mem_mapSet hy with rfl | hy
  · have := h x hx'.2
    simp only
    omega
  · exact h y hy

/-! ## The spare-part service over the in-memory repositories -/

theorem UpdateStock_found (rclk : Clock) (w : World) (partID delta : Int) (part : SparePart)
    (hget : mapGet w.parts.items partID = some part) :
    (memSparePartService rclk).UpdateStock w partID delta =
      if intAdd part.StockQuantity delta < 0 then (some .ErrInsufficientStock, w)
      else (none, { w with parts := { w.parts with items :=
        (mapModify w.parts.items partID (fun p =>
          { p with StockQuantity := intAdd part.StockQuantity delta,
                   UpdatedAt := rclk.stamp })) } }) := by
  simp [SparePartService.UpdateStock, memSparePartService, MemorySparePartRepository, hget]

theorem SellPart_found (rclk clk : Clock) (w : World) (partID quantity : Int)
    (customerName : String) (part : SparePart)
    (hget : mapGet w.parts.items partID = some part) :
    (memSparePartService rclk).SellPart clk w partID quantity customerName =
      if part.StockQuantity < quantity then (some .ErrInsufficientStock, w)
      else (none,
        { w with
          parts := { w.parts with items :=
            (mapModify w.parts.items partID (fun p =>
              { p with StockQuantity := intSub part.StockQuantity quantity,
                       UpdatedAt := rclk.stamp })) }
          transactions :=
            { items := mapSet w.transactions.items
                { ID := w.transactions.nextID
                  Type_ := TransactionSale
                  EntityType := "part"
                  EntityID := partID
                  Amount := part.UnitPrice * (quantity : Money)
                  PartyName := customerName
                  Date := if clk.date = "" then rclk.date else clk.date
                  Description := part.Name ++ " x" ++ Itoa quantity }
              nextID := w.transactions.nextID + 1 } }) := by
  simp [SparePartService.SellPart, memSparePartService, MemorySparePartRepository,
    MemoryTransactionRepository, hget]

theorem SellPart_missing (rclk clk : Clock) (w : World) (partID quantity : Int)
    (customerName : String) (hget : mapGet w.parts.items partID = none) :
    (memSparePartService rclk).SellPart clk w partID quantity customerName =
      (some .ErrPartNotFound, w) := by
  simp [SparePartService.SellPart, memSparePartService, MemorySparePartRepository, hget]

/-- The sibling path: `UpdateStock` tests the sign of the new quantity itself, so it
never stores a negative stock, whatever its arguments. -/
theorem UpdateStock_keeps_stock_nonneg (rclk : Clock) (w : World) (partID delta : Int)
    (h : ∀ p ∈ w.parts.items, 0 ≤ p.StockQuantity) :
    ∀ p ∈ ((memSparePartService rclk).UpdateStock w partID delta).2.parts.items,
      0 ≤ p.StockQuantity := by
  cases hget : mapGet w.parts.items partID with
  | none =>
    simpa [SparePartService.UpdateStock, memSparePartService, MemorySparePartRepository, hget]
      using h
  | some part =>
    rw [UpdateStock_found rclk w partID delta part hget]
    split
    · exact h
    · rename_i hneg
      intro p hp
      simp only [mapModify, List.mem_map] at hp
      obtain ⟨q, hq, rfl⟩ := hp
      split
      · simpa using hneg
      · exact h q hq

/-- Without overflow of the subtraction `SellPart` keeps every stock non-negative. -/
theorem SellPart_keeps_stock_nonneg (rclk clk : Clock) (w : World) (partID quantity : Int)
    (customerName : String)
    (h : ∀ p ∈ w.parts.items, 0 ≤ p.StockQuantity)
    (hno : ∀ part, mapGet w.parts.items partID = some part →
      isInt (part.StockQuantity - quantity)) :
    ∀ p ∈ ((memSparePartService rclk).SellPart clk w partID quantity customerName).2.parts.items,
      0 ≤ p.StockQuantity := by
  cases hget : mapGet w.parts.items partID with
  | none =>
    rw [SellPart_missing rclk clk w partID quantity customerName hget]
    exact h
  | some part =>
    rw [SellPart_found rclk clk w partID quantity customerName part hget]
    split
    · exact h
    · rename_i hq
      intro p hp
      simp only [mapModify, List.mem_map] at hp
      obtain ⟨q, hq', rfl⟩ := hp
      split
      · simp only [intSub, wrap64_of_isInt (hno part hget)]
        omega
      · exact h q hq'

/-- A well-formed ledger store stays well-formed across `SellPart`. -/
theorem SellPart_WF (rclk clk : Clock) (w : World) (partID quantity : Int)
    (customerName : String) (hx : w.transactions.WF) :
    ((memSparePartService rclk).SellPart clk w partID quantity customerName).2.transactions.WF := by
  cases hget : mapGet w.parts.items partID with
  | none =>
    rw [SellPart_missing rclk clk w partID quantity customerName hget]
    exact hx
  | some part =>
    rw [SellPart_found rclk clk w partID quantity customerName part hget]
    split
    · exact hx
    · exact Store.WF_create w.transactions _ hx rfl

/-! ## The tractor service over the in-memory repositories -/

theorem MemoryTractorRepository_Update_ok (w : World) (t : Tractor)
    (h : (mapGet w.tractors.items t.ID).isSome) :
    MemoryTractorRepository.Update w t =
      .ok { w with tractors := { w.tractors with items := mapSet w.tractors.items t } } := by
  cases hg : mapGet w.tractors.items t.ID with
  | none => rw [hg] at h; simp at h
  | some x => simp [MemoryTractorRepository, hg]

theorem SellTractor_missing (rclk clk : Clock) (w : World) (id : Int) (salePrice : Money)
    (customerName : String) (isExchange : Bool) (exchangeTractor : Option Tractor)
    (hget : mapGet w.tractors.items id = none) :
    (memTractorService rclk).SellTractor clk w id salePrice customerName isExchange
      exchangeTractor = (.error .ErrTractorNotFound, w) := by
  simp [TractorService.SellTractor, memTractorService, MemoryTractorRepository, hget]

theorem SellTractor_sold (rclk clk : Clock) (w : World) (id : Int) (salePrice : Money)
    (customerName : String) (isExchange : Bool) (exchangeTractor : Option Tractor)
    (t : Tractor) (hget : mapGet w.tractors.items id = some t) (hs : t.Status = StatusSold) :
    (memTractorService rclk).SellTractor clk w id salePrice customerName isExchange
      exchangeTractor = (.error .ErrAlreadySold, w) := by
  simp [TractorService.SellTractor, memTractorService, MemoryTractorRepository, hget, hs]

theorem SellTractor_simple (rclk clk : Clock) (w : World) (id : Int) (salePrice : Money)
    (customerName : String) (isExchange : Bool) (exchangeTractor : Option Tractor)
    (t : Tractor) (hget : mapGet w.tractors.items id = some t) (hs : t.Status ≠ StatusSold)
    (hx : isExchange = false ∨ exchangeTractor = none) :
    (memTractorService rclk).SellTractor clk w id salePrice customerName isExchange
      exchangeTractor =
      (.ok { Message := "tractor sold successfully"
             ProfitLoss := salePrice - t.PurchasePrice
             ExchangeID := none },
       { w with
         tractors := { w.tractors with items :=
           (mapSet w.tractors.items
             { t with Status := StatusSold, SalePrice := salePrice,
                      CustomerName := customerName, SaleDate := clk.date }) }
         transactions :=
           { items :=
               (mapSet w.transactions.items
                 { ID := w.transactions.nextID
                   Type_ := TransactionSale
                   EntityType := "tractor"
                   EntityID := t.ID
                   Amount := salePrice
                   PartyName := customerName
                   Date := if clk.date = "" then rclk.date else clk.date
                   Description := t.Brand ++ " " ++ t.Model ++ " sale" })
             nextID := w.transactions.nextID + 1 } }) := by
  have hid : t.ID = id := (mapGet_some hget).1
  have hg : MemoryTractorRepository.GetByID w id = .ok t := by
    simp [MemoryTractorRepository, hget]
  unfold TractorService.SellTractor
  simp only [memTractorService]
  rw [hg]
  simp only [if_neg hs]
  rw [MemoryTractorRepository_Update_ok w _ (by simp [hid, hget])]
  rcases hx with hx | hx
  · subst hx
    simp [MemoryTransactionRepository]
  · subst hx
    cases isExchange <;> simp [MemoryTransactionRepository]

theorem SellTractor_exchange (rclk clk : Clock) (w : World) (id : Int) (salePrice : Money)
    (customerName : String) (payload : Tractor)
    (t : Tractor) (hget : mapGet w.tractors.items id = some t) (hs : t.Status ≠ StatusSold) :
    (memTractorService rclk).SellTractor clk w id salePrice customerName true (some payload) =
      (.ok { Message := "tractor sold with exchange successfully"
             ProfitLoss := salePrice - t.PurchasePrice - payload.PurchasePrice
             ExchangeID := some w.tractors.nextID },
       { w with
         tractors :=
           { items :=
               (mapSet
                 (mapSet
                   (mapSet w.tractors.items
                     { t with Status := StatusSold, SalePrice := salePrice,
                              CustomerName := customerName, SaleDate := clk.date })
                   { payload with
                       ID := w.tractors.nextID
                       Status := StatusInStock
                       PurchaseDate := clk.date
                       SupplierName := if payload.SupplierName = "" then customerName
                                       else payload.SupplierName })
                 { t with Status := StatusSold, SalePrice := salePrice,
                          CustomerName := customerName, SaleDate := clk.date,
                          ExchangeTractorID := some w.tractors.nextID })
             nextID := w.tractors.nextID + 1 }
         transactions :=
           { items :=
               (mapSet
                 (mapSet w.transactions.items
                   { ID := w.transactions.nextID
                     Type_ := TransactionSale
                     EntityType := "tractor"
                     EntityID := t.ID
                     Amount := salePrice
                     PartyName := customerName
                     Date := if clk.date = "" then rclk.date else clk.date
                     Description := t.Brand ++ " " ++ t.Model ++ " sale" })
                 { ID := w.transactions.nextID + 1
                   Type_ := TransactionPurchase
                   EntityType := "tractor"
                   EntityID := w.tractors.nextID
                   Amount := payload.PurchasePrice
                   PartyName := customerName
                   Date := if clk.date = "" then rclk.date else clk.date
                   Description := payload.Brand ++ " " ++ payload.Model ++ " exchange purchase" })
             nextID := w.transactions.nextID + 1 + 1 } }) := by
  have hid : t.ID = id := (mapGet_some hget).1
  have hg : MemoryTractorRepository.GetByID w id = .ok t := by
    simp [MemoryTractorRepository, hget]
  unfold TractorService.SellTractor
  simp only [memTractorService]
  rw [hg]
  simp only [if_neg hs]
  rw [MemoryTractorRepository_Update_ok w _ (by simp [hid, hget])]
  simp only [MemoryTransactionRepository]
  simp only [MemoryTractorRepository]
  have h3 : (mapGet (mapSet (mapSet w.tractors.items
      { t with Status := StatusSold, SalePrice := salePrice, CustomerName := customerName,
               SaleDate := clk.date })
      { payload with
          ID := w.tractors.nextID
          Status := StatusInStock
          PurchaseDate := clk.date
          SupplierName := if payload.SupplierName = "" then customerName
                          else payload.SupplierName }) t.ID).isSome := by
    apply mapGet_mapSet_isSome
    apply mapGet_mapSet_isSome
    simp [hid, hget]
  rw [Option.isSome_iff_exists] at h3
  obtain ⟨x, hx⟩ := h3
  simp [hx]

theorem SellTractor_ok_inv (rclk clk : Clock) (w : World) (id : Int) (salePrice : Money)
    (customerName : String) (isExchange : Bool) (exchangeTractor : Option Tractor)
    (res : SellTractorResult)
    (hok : ((memTractorService rclk).SellTractor clk w id salePrice customerName isExchange
      exchangeTractor).1 = .ok res) :
    ∃ t, mapGet w.tractors.items id = some t ∧ t.Status ≠ StatusSold := by
  cases hget : mapGet w.tractors.items id with
  | none =>
    rw [SellTractor_missing rclk clk w id salePrice customerName isExchange exchangeTractor hget]
      at hok
    simp at hok
  | some t =>
    refine ⟨t, rfl, fun hs => ?_⟩
    rw [SellTractor_sold rclk clk w id salePrice customerName isExchange exchangeTractor t hget hs]
      at hok
    simp at hok

theorem SellTractor_marks_sold (rclk clk : Clock) (w : World) (id : Int) (salePrice : Money)
    (customerName : String) (isExchange : Bool) (exchangeTractor : Option Tractor)
    (res : SellTractorResult)
    (hok : ((memTractorService rclk).SellTractor clk w id salePrice customerName isExchange
      exchangeTractor).1 = .ok res) :
    ∃ t', mapGet ((memTractorService rclk).SellTractor clk w id salePrice customerName isExchange
      exchangeTractor).2.tractors.items id = some t' ∧ t'.Status = StatusSold := by
  obtain ⟨t, hget, hs⟩ := SellTractor_ok_inv rclk clk w id salePrice customerName isExchange
    exchangeTractor res hok
  have hid : t.ID = id := (mapGet_some hget).1
  by_cases hx : isExchange = false ∨ exchangeTractor = none
  · rw [SellTractor_simple rclk clk w id salePrice customerName isExchange exchangeTractor t
      hget hs hx]
    refine ⟨{ t with Status := StatusSold, SalePrice := salePrice,
                     CustomerName := customerName, SaleDate := clk.date }, ?_, rfl⟩
    have := mapGet_mapSet_same w.tractors.items
      { t with Status := StatusSold, SalePrice := salePrice, CustomerName := customerName,
               SaleDate := clk.date }
    simpa [Keyed.key, hid] using this
  · have h1 : isExchange = true := by
      cases isExchange
      · exact absurd (Or.inl rfl) hx
      · rfl
    cases hp : exchangeTractor with
    | none => exact absurd (Or.inr hp) hx
    | some payload =>
      subst h1
      rw [SellTractor_exchange rclk clk w id salePrice customerName payload t hget hs]
      refine ⟨{ t with Status := StatusSold, SalePrice := salePrice,
                       CustomerName := customerName, SaleDate := clk.date,
                       ExchangeTractorID := some w.tractors.nextID }, ?_, rfl⟩
      have := mapGet_mapSet_same
        (mapSet (mapSet w.tractors.items
          { t with Status := StatusSold, SalePrice := salePrice, CustomerName := customerName,
                   SaleDate := clk.date })
          { payload with
              ID := w.tractors.nextID
              Status := StatusInStock
              PurchaseDate := clk.date
              SupplierName := if payload.SupplierName = "" then customerName
                              else payload.SupplierName })
        { t with Status := StatusSold, SalePrice := salePrice, CustomerName := customerName,
                 SaleDate := clk.date, ExchangeTractorID := some w.tractors.nextID }
      simpa [Keyed.key, hid] using this

/-- Well-formed tractor and ledger stores stay well-formed across `SellTractor`. -/
theorem SellTractor_WF (rclk clk : Clock) (w : World) (id : Int) (salePrice : Money)
    (customerName : String) (isExchange : Bool) (exchangeTractor : Option Tractor)
    (ht : w.tractors.WF) (hx : w.transactions.WF) :
    let w' := ((memTractorService rclk).SellTractor clk w id salePrice customerName isExchange
      exchangeTractor).2
    w'.tractors.WF ∧ w'.transactions.WF := by
  intro w'
  cases hget : mapGet w.tractors.items id with
  | none =>
    simp only [w', SellTractor_missing rclk clk w id salePrice customerName isExchange
      exchangeTractor hget]
    exact ⟨ht, hx⟩
  | some t =>
    have hid : t.ID = id := (mapGet_some hget).1
    by_cases hs : t.Status = StatusSold
    · simp only [w', SellTractor_sold rclk clk w id salePrice customerName isExchange
        exchangeTractor t hget hs]
      exact ⟨ht, hx⟩
    · have hsold : (mapGet w.tractors.items (Keyed.key
          ({ t with Status := StatusSold, SalePrice := salePrice, CustomerName := customerName,
                    SaleDate := clk.date } : Tractor))).isSome := by
        simp [Keyed.key, hid, hget]
      have h1 := Store.WF_update w.tractors _ ht hsold
      have hx1 := Store.WF_create w.transactions
        ({ ID := w.transactions.nextID
           Type_ := TransactionSale
           EntityType := "tractor"
           EntityID := t.ID
           Amount := salePrice
           PartyName := customerName
           Date := if clk.date = "" then rclk.date else clk.date
           Description := t.Brand ++ " " ++ t.Model ++ " sale" } : Transaction) hx rfl
      by_cases hsimple : isExchange = false ∨ exchangeTractor = none
      · simp only [w', SellTractor_simple rclk clk w id salePrice customerName isExchange
          exchangeTractor t hget hs hsimple]
        exact ⟨h1, hx1⟩
      · have hex : isExchange = true := by
          cases isExchange
          · exact absurd (Or.inl rfl) hsimple
          · rfl
        cases hp : exchangeTractor with
        | none => exact absurd (Or.inr hp) hsimple
        | some payload =>
          subst hex
          subst hp
          simp only [w', SellTractor_exchange rclk clk w id salePrice customerName payload t
            hget hs]
          have h2 := Store.WF_create _
            ({ payload with
                 ID := w.tractors.nextID
                 Status := StatusInStock
                 PurchaseDate := clk.date
                 SupplierName := if payload.SupplierName = "" then customerName
                                 else payload.SupplierName } : Tractor) h1 rfl
          have h3 := Store.WF_update _
            ({ t with Status := StatusSold, SalePrice := salePrice, CustomerName := customerName,
                      SaleDate := clk.date, ExchangeTractorID := some w.tractors.nextID } : Tractor)
            h2 (by
              apply mapGet_mapSet_isSome
              apply mapGet_mapSet_isSome
              simp [Keyed.key, hid, hget])
          have hx2 := Store.WF_create _
            ({ ID := w.transactions.nextID + 1
               Type_ := TransactionPurchase
               EntityType := "tractor"
               EntityID := w.tractors.nextID
               Amount := payload.PurchasePrice
               PartyName := customerName
               Date := if clk.date = "" then rclk.date else clk.date
               Description := payload.Brand ++ " " ++ payload.Model ++ " exchange purchase" }
              : Transaction) hx1 rfl
          exact ⟨h3, hx2⟩

/-! ## The parts loop of `CreateServiceRecord` -/

theorem consumeParts_append (s : ServiceRecordService) (pre rest : List PartUsage) :
    ∀ (w : World) (c : Money),
      s.consumeParts w c (pre ++ rest) =
        match s.consumeParts w c pre with
        | (.ok c1, w1) => s.consumeParts w1 c1 rest
        | (.error e, w1) => (.error e, w1) := by
  induction pre with
  | nil => intro w c; simp [ServiceRecordService.consumeParts]
  | cons a t ih =>
    intro w c
    simp only [List.cons_append, ServiceRecordService.consumeParts]
    cases s.partRepo.GetByID w a.PartID with
    | error e => rfl
    | ok part =>
      simp only
      split
      · rfl
      · cases s.partRepo.UpdateStock w a.PartID (intSub part.StockQuantity a.Quantity) with
        | error e => rfl
        | ok w1 => exact ih w1 _

theorem consumeParts_frame (rclk : Clock) (del : World → Int → Except Error World)
    (l : List PartUsage) :
    ∀ (w : World) (c : Money),
      let w1 := ((memServiceRecordService rclk del).consumeParts w c l).2
      w1.tractors = w.tractors ∧ w1.services = w.services ∧ w1.expenses = w.expenses ∧
      w1.transactions = w.transactions ∧ w1.parts.nextID = w.parts.nextID := by
  induction l with
  | nil => intro w c; simp [ServiceRecordService.consumeParts]
  | cons a t ih =>
    intro w c
    simp only [ServiceRecordService.consumeParts, memServiceRecordService,
      MemorySparePartRepository]
    cases hget : mapGet w.parts.items a.PartID with
    | none => simp
    | some part =>
      simp only
      split
      · simp
      · have := ih { w with parts := { w.parts with items :=
          (mapModify w.parts.items a.PartID (fun p =>
            { p with StockQuantity := intSub part.StockQuantity a.Quantity,
                     UpdatedAt := rclk.stamp })) } }
          (c + a.UnitPrice * (a.Quantity : Money))
        simpa [memServiceRecordService, MemorySparePartRepository] using this

/-! ## Stock non-negativity and sale finality -/

/-- C1 (stock non-negativity), evaluated on a failing call: in a state where every
stock is non-negative, `SellPart` with the `int` quantity `-9223372036854775808`
passes the check `StockQuantity < quantity`, the subtraction `5 - quantity`
overflows, the call returns no error and the part is left with the stock
`-9223372036854775803`. -/
theorem SellPart_stock_negative :
    (∀ p ∈ exPartsWorld.parts.items, 0 ≤ p.StockQuantity) ∧
    isInt (-9223372036854775808) ∧
    ((memSparePartService exClock).SellPart exClock exPartsWorld 1
        (-9223372036854775808) "walk-in").1 = none ∧
    (mapGet ((memSparePartService exClock).SellPart exClock exPartsWorld 1
        (-9223372036854775808) "walk-in").2.parts.items 1).map SparePart.StockQuantity
      = some (-9223372036854775803) := by
  decide

/-- C2 (sale finality): once `SellTractor` has succeeded on a tractor id, a second
`SellTractor` on the same id, whatever its price, customer, exchange flag and trade-in
payload, fails with `ErrAlreadySold` and leaves the whole state as the first call
left it: no ledger entry, no new tractor, the stored tractor untouched. -/
theorem SellTractor_second_sale_fails (rclk clk rclk2 clk2 : Clock) (w : World) (id : Int)
    (salePrice : Money) (customerName : String) (isExchange : Bool)
    (exchangeTractor : Option Tractor) (res : SellTractorResult)
    (hok : ((memTractorService rclk).SellTractor clk w id salePrice customerName isExchange
      exchangeTractor).1 = .ok res)
    (salePrice2 : Money) (customerName2 : String) (isExchange2 : Bool)
    (exchangeTractor2 : Option Tractor) :
    let w1 := ((memTractorService rclk).SellTractor clk w id salePrice customerName isExchange
      exchangeTractor).2
    (memTractorService rclk2).SellTractor clk2 w1 id salePrice2 customerName2 isExchange2
      exchangeTractor2 = (.error .ErrAlreadySold, w1) := by
  intro w1
  obtain ⟨t', hget', hs'⟩ := SellTractor_marks_sold rclk clk w id salePrice customerName
    isExchange exchangeTractor res hok
  exact SellTractor_sold rclk2 clk2 w1 id salePrice2 customerName2 isExchange2 exchangeTractor2
    t' hget' hs'

theorem SellTractor_second_sale_fails_witness :
    let w1 := ((memTractorService exClock).SellTractor exClock exTractorWorld 1 15000 "buyer"
      false none).2
    (memTractorService exClock).SellTractor exClock w1 1 20000 "other" true (some exTradeIn)
      = (.error .ErrAlreadySold, w1) :=
  SellTractor_second_sale_fails exClock exClock exClock exClock exTractorWorld 1 15000 "buyer"
    false none _
    (congrArg Prod.fst (SellTractor_simple exClock exClock exTractorWorld 1 15000 "buyer" false
      none exTractor (by decide) (by decide) (Or.inl rfl)))
    20000 "other" true (some exTradeIn)

/-! ## Failures for lack of stock -/

/-- C3 as stated fails: the parts-used list asks for 2 bolts (stock 5) and then 3 nuts
(stock 1). The call fails on the nuts, yet the stock of the bolts has gone from 5
to 3. -/
theorem CreateServiceRecord_not_atomic :
    let r := (memServiceRecordService exClock exDelete).CreateServiceRecord exUnmarshal exClock
      exPartsWorld exRecord
    exUnmarshal exRecord.PartsUsed =
      some [{ PartID := 1, Name := "bolt", Quantity := 2, UnitPrice := 10 },
            { PartID := 2, Name := "nut", Quantity := 3, UnitPrice := 2 }] ∧
    (mapGet exPartsWorld.parts.items 2).map SparePart.StockQuantity = some 1 ∧
    r.1 = some (.new "insufficient stock for part: nut") ∧
    (mapGet exPartsWorld.parts.items 1).map SparePart.StockQuantity = some 5 ∧
    (mapGet r.2.parts.items 1).map SparePart.StockQuantity = some 3 := by
  decide

/-- C3, amended: when the loop over the parts-used list reaches an entry whose
quantity exceeds the stock then available to it (the entries `pre` before it having
been consumed), `CreateServiceRecord` fails with "insufficient stock for part: "
followed by the entry's name, and writes no service record and no ledger entry. The
state left behind is the one after the consumption of `pre`: those decrements are
kept, and nothing at all has changed when the failing entry is the first. -/
theorem CreateServiceRecord_insufficient_stock (rclk clk : Clock)
    (del : World → Int → Except Error World) (unmarshal : String → Option (List PartUsage))
    (w : World) (record : ServiceRecord) (pre post : List PartUsage) (e : PartUsage)
    (c : Money) (w1 : World) (part : SparePart)
    (hv : record.CustomerName ≠ "" ∧ record.Description ≠ "")
    (hp : record.PartsUsed ≠ "")
    (hd : unmarshal record.PartsUsed = some (pre ++ e :: post))
    (hpre : (memServiceRecordService rclk del).consumeParts w 0 pre = (.ok c, w1))
    (hget : mapGet w1.parts.items e.PartID = some part)
    (hq : part.StockQuantity < e.Quantity) :
    let r := (memServiceRecordService rclk del).CreateServiceRecord unmarshal clk w record
    r.1 = some (.new ("insufficient stock for part: " ++ e.Name)) ∧
    r.2 = w1 ∧
    r.2.services = w.services ∧ r.2.transactions = w.transactions ∧
    (pre = [] → r.2 = w) := by
  intro r
  have hloop : (memServiceRecordService rclk del).consumeParts w 0 (pre ++ e :: post) =
      (.error (.new ("insufficient stock for part: " ++ e.Name)), w1) := by
    rw [consumeParts_append, hpre]
    simp [ServiceRecordService.consumeParts, memServiceRecordService,
      MemorySparePartRepository, hget, hq]
  have hr : r = (some (.new ("insufficient stock for part: " ++ e.Name)), w1) := by
    simp only [r, ServiceRecordService.CreateServiceRecord]
    simp [hv.1, hv.2, hp, hd, hloop]
  have hframe := consumeParts_frame rclk del pre w 0
  rw [hpre] at hframe
  refine ⟨by rw [hr], by rw [hr], by rw [hr]; exact hframe.2.1, by rw [hr]; exact hframe.2.2.2.1,
    ?_⟩
  intro hnil
  subst hnil
  simp only [ServiceRecordService.consumeParts, Prod.mk.injEq] at hpre
  rw [hr, ← hpre.2]

theorem CreateServiceRecord_insufficient_stock_witness :
    let r := (memServiceRecordService exClock exDelete).CreateServiceRecord exUnmarshal exClock
      exPartsWorld exRecord
    r.1 = some (.new "insufficient stock for part: nut") ∧
    r.2.services = exPartsWorld.services ∧ r.2.transactions = exPartsWorld.transactions ∧
    (mapGet r.2.parts.items 1).map SparePart.StockQuantity = some 3 := by
  have h := CreateServiceRecord_insufficient_stock exClock exClock exDelete exUnmarshal
    exPartsWorld exRecord [{ PartID := 1, Name := "bolt", Quantity := 2, UnitPrice := 10 }] []
    { PartID := 2, Name := "nut", Quantity := 3, UnitPrice := 2 }
    ((0 : Money) + 10 * ((2 : Int) : Money))
    { exPartsWorld with parts := { exPartsWorld.parts with items :=
        [{ exBolt with StockQuantity := 3, UpdatedAt := exClock.stamp }, exNut] } }
    exNut (by decide) (by decide) (by decide) (by rfl) (by decide) (by decide)
  obtain ⟨h1, h2, h3, h4, -⟩ := h
  refine ⟨h1, h3, h4, ?_⟩
  rw [h2]
  decide

/-- C4: for an existing part and a quantity greater than its current stock,
`SellPart` fails with `ErrInsufficientStock` and leaves the whole state as it was:
the part keeps its stock and the ledger gets no entry. -/
theorem SellPart_insufficient_stock (rclk clk : Clock) (w : World) (partID quantity : Int)
    (customerName : String) (part : SparePart)
    (hget : mapGet w.parts.items partID = some part)
    (hq : part.StockQuantity < quantity) :
    let r := (memSparePartService rclk).SellPart clk w partID quantity customerName
    r.1 = some .ErrInsufficientStock ∧ r.2 = w ∧
    mapGet r.2.parts.items partID = some part ∧
    r.2.transactions.items = w.transactions.items := by
  intro r
  have hr : r = (some .ErrInsufficientStock, w) := by
    simp only [r]
    rw [SellPart_found rclk clk w partID quantity customerName part hget, if_pos hq]
  simp [hr, hget]

theorem SellPart_insufficient_stock_witness :
    let r := (memSparePartService exClock).SellPart exClock exPartsWorld 1 6 "walk-in"
    r.1 = some .ErrInsufficientStock ∧ r.2 = exPartsWorld ∧
    mapGet r.2.parts.items 1 = some exBolt ∧
    r.2.transactions.items = exPartsWorld.transactions.items :=
  SellPart_insufficient_stock exClock exClock exPartsWorld 1 6 "walk-in" exBolt
    (by decide) (by decide)

/-! ## Part sales and stock adjustments -/

/-- In Go `int` arithmetic: after a successful `SellPart` the part's stock is the old one minus the
quantity (Go `int` subtraction, which is the exact difference whenever that is an
`int`), every other part is as before, and the ledger has exactly one more entry:
type sale, entity type "part", entity id the part id, amount unit price times
quantity, party the customer name, description the name, " x" and the decimal
quantity. -/
theorem SellPart_success (rclk clk : Clock) (w : World) (partID quantity : Int)
    (customerName : String)
    (hwf : w.transactions.WF)
    (hok : ((memSparePartService rclk).SellPart clk w partID quantity customerName).1 = none) :
    let w' := ((memSparePartService rclk).SellPart clk w partID quantity customerName).2
    ∃ part, mapGet w.parts.items partID = some part ∧
      mapGet w'.parts.items partID =
        some { part with StockQuantity := intSub part.StockQuantity quantity,
                         UpdatedAt := rclk.stamp } ∧
      (∀ j, j ≠ partID → mapGet w'.parts.items j = mapGet w.parts.items j) ∧
      (isInt (part.StockQuantity - quantity) →
        intSub part.StockQuantity quantity = part.StockQuantity - quantity) ∧
      w'.parts.items.length = w.parts.items.length ∧
      w'.transactions.items = w.transactions.items ++
        [{ ID := w.transactions.nextID
           Type_ := TransactionSale
           EntityType := "part"
           EntityID := partID
           Amount := part.UnitPrice * (quantity : Money)
           PartyName := customerName
           Date := if clk.date = "" then rclk.date else clk.date
           Description := part.Name ++ " x" ++ Itoa quantity }] := by
  intro w'
  cases hget : mapGet w.parts.items partID with
  | none =>
    rw [SellPart_missing rclk clk w partID quantity customerName hget] at hok
    simp at hok
  | some part =>
    have hfound := SellPart_found rclk clk w partID quantity customerName part hget
    by_cases hq : part.StockQuantity < quantity
    · rw [hfound, if_pos hq] at hok
      simp at hok
    · rw [if_neg hq] at hfound
      refine ⟨part, rfl, ?_, ?_, fun h => wrap64_of_isInt h, ?_, ?_⟩
      · simp only [w', hfound]
        exact mapGet_mapModify_same w.parts.items partID
          (fun p : SparePart => { p with StockQuantity := intSub part.StockQuantity quantity,
                                         UpdatedAt := rclk.stamp })
          (fun _ => rfl) part hget
      · intro j hj
        simp only [w', hfound]
        exact mapGet_mapModify_ne w.parts.items partID j
          (fun p : SparePart => { p with StockQuantity := intSub part.StockQuantity quantity,
                                         UpdatedAt := rclk.stamp })
          (fun _ => rfl) hj
      · simp only [w', hfound]
        simp [mapModify]
      · simp only [w', hfound]
        exact mapSet_of_WF _ _ hwf rfl

theorem SellPart_success_witness :
    let w' := ((memSparePartService exClock).SellPart exClock exPartsWorld 1 3 "walk-in").2
    ∃ part, mapGet exPartsWorld.parts.items 1 = some part ∧
      mapGet w'.parts.items 1 =
        some { part with StockQuantity := intSub part.StockQuantity 3,
                         UpdatedAt := exClock.stamp } ∧
      (∀ j, j ≠ 1 → mapGet w'.parts.items j = mapGet exPartsWorld.parts.items j) ∧
      (isInt (part.StockQuantity - 3) →
        intSub part.StockQuantity 3 = part.StockQuantity - 3) ∧
      w'.parts.items.length = exPartsWorld.parts.items.length ∧
      w'.transactions.items = exPartsWorld.transactions.items ++
        [{ ID := exPartsWorld.transactions.nextID
           Type_ := TransactionSale
           EntityType := "part"
           EntityID := 1
           Amount := part.UnitPrice * ((3 : Int) : Money)
           PartyName := "walk-in"
           Date := if exClock.date = "" then exClock.date else exClock.date
           Description := part.Name ++ " x" ++ Itoa 3 }] :=
  SellPart_success exClock exClock exPartsWorld 1 3 "walk-in" Store.new_WF (by decide)

/-- In Go `int` arithmetic: for an existing part with stock `c`, `UpdateStock` fails with
`ErrInsufficientStock` exactly when `c + delta < 0` (Go `int` addition, the exact sum
whenever that is an `int`), then leaving the state unchanged; otherwise it succeeds
and the stored stock is `c + delta`. For an unknown part id it fails with
`ErrPartNotFound`. -/
theorem UpdateStock_spec (rclk : Clock) (w : World) (partID delta : Int) :
    (∀ part, mapGet w.parts.items partID = some part →
      let r := (memSparePartService rclk).UpdateStock w partID delta
      (r.1 = some .ErrInsufficientStock ↔ intAdd part.StockQuantity delta < 0) ∧
      (intAdd part.StockQuantity delta < 0 → r.2 = w) ∧
      (¬ intAdd part.StockQuantity delta < 0 →
        r.1 = none ∧
        mapGet r.2.parts.items partID =
          some { part with StockQuantity := intAdd part.StockQuantity delta,
                           UpdatedAt := rclk.stamp }) ∧
      (isInt (part.StockQuantity + delta) →
        intAdd part.StockQuantity delta = part.StockQuantity + delta)) ∧
    (mapGet w.parts.items partID = none →
      (memSparePartService rclk).UpdateStock w partID delta = (some .ErrPartNotFound, w)) := by
  constructor
  · intro part hget r
    have hr := UpdateStock_found rclk w partID delta part hget
    refine ⟨?_, ?_, ?_, fun h => wrap64_of_isInt h⟩
    · by_cases h : intAdd part.StockQuantity delta < 0
      · simp [r, hr, h]
      · simp [r, hr, h]
    · intro h
      simp [r, hr, h]
    · intro h
      simp only [r, hr, if_neg h, true_and]
      exact mapGet_mapModify_same w.parts.items partID
        (fun p : SparePart => { p with StockQuantity := intAdd part.StockQuantity delta,
                                       UpdatedAt := rclk.stamp })
        (fun _ => rfl) part hget
  · intro hget
    simp [SparePartService.UpdateStock, memSparePartService, MemorySparePartRepository, hget]

theorem UpdateStock_spec_witness :
    ((memSparePartService exClock).UpdateStock exPartsWorld 1 (-6)).1
        = some .ErrInsufficientStock ∧
    ((memSparePartService exClock).UpdateStock exPartsWorld 1 (-6)).2 = exPartsWorld ∧
    ((memSparePartService exClock).UpdateStock exPartsWorld 1 (-5)).1 = none ∧
    mapGet ((memSparePartService exClock).UpdateStock exPartsWorld 1 (-5)).2.parts.items 1
        = some { exBolt with StockQuantity := 0, UpdatedAt := exClock.stamp } ∧
    (memSparePartService exClock).UpdateStock exPartsWorld 7 1
        = (some .ErrPartNotFound, exPartsWorld) :=
  have hfail := (UpdateStock_spec exClock exPartsWorld 1 (-6)).1 exBolt (by decide)
  have hok := (UpdateStock_spec exClock exPartsWorld 1 (-5)).1 exBolt (by decide)
  ⟨hfail.1.2 (by decide), hfail.2.1 (by decide), (hok.2.2.1 (by decide)).1,
    (hok.2.2.1 (by decide)).2, (UpdateStock_spec exClock exPartsWorld 7 1).2 (by decide)⟩

/-! ## Part sales and stock adjustments in exact arithmetic -/

/-- C5 as stated fails on an overflowing subtraction: with stock 5 and the `int`
quantity `-9223372036854775808`, `SellPart` succeeds and the part is left with the
stock `-9223372036854775803`, which is not the old stock minus the quantity. -/
theorem SellPart_stock_not_difference :
    mapGet exPartsWorld.parts.items 1 = some exBolt ∧
    isInt (-9223372036854775808) ∧
    ((memSparePartService exClock).SellPart exClock exPartsWorld 1
        (-9223372036854775808) "walk-in").1 = none ∧
    ∃ p, mapGet ((memSparePartService exClock).SellPart exClock exPartsWorld 1
        (-9223372036854775808) "walk-in").2.parts.items 1 = some p ∧
      p.StockQuantity = -9223372036854775803 ∧
      p.StockQuantity ≠ exBolt.StockQuantity - (-9223372036854775808) := by
  refine ⟨rfl, by decide, by decide,
    { exBolt with StockQuantity := -9223372036854775803, UpdatedAt := exClock.stamp },
    by decide, by decide, by decide⟩

/-- C5, amended: for every successful `SellPart` on a part for which the old stock
minus the quantity is an `int`, the new stock is the old stock minus the quantity,
every other part is as before, no part is added or removed, and the ledger has exactly
one more entry: type sale, entity type "part", entity id the part id, amount unit
price times quantity, party the customer name, description the name, " x" and the
decimal quantity. -/
theorem SellPart_success_exact (rclk clk : Clock) (w : World) (partID quantity : Int)
    (customerName : String) (part : SparePart)
    (hwf : w.transactions.WF)
    (hget : mapGet w.parts.items partID = some part)
    (hrep : isInt (part.StockQuantity - quantity))
    (hok : ((memSparePartService rclk).SellPart clk w partID quantity customerName).1 = none) :
    let w' := ((memSparePartService rclk).SellPart clk w partID quantity customerName).2
    mapGet w'.parts.items partID =
      some { part with StockQuantity := part.StockQuantity - quantity,
                       UpdatedAt := rclk.stamp } ∧
    (∀ j, j ≠ partID → mapGet w'.parts.items j = mapGet w.parts.items j) ∧
    w'.parts.items.length = w.parts.items.length ∧
    w'.transactions.items = w.transactions.items ++
      [{ ID := w.transactions.nextID
         Type_ := TransactionSale
         EntityType := "part"
         EntityID := partID
         Amount := part.UnitPrice * (quantity : Money)
         PartyName := customerName
         Date := if clk.date = "" then rclk.date else clk.date
         Description := part.Name ++ " x" ++ Itoa quantity }] := by
  intro w'
  have hfound := SellPart_found rclk clk w partID quantity customerName part hget
  by_cases hq : part.StockQuantity < quantity
  · rw [hfound, if_pos hq] at hok
    simp at hok
  · rw [if_neg hq, (show intSub part.StockQuantity quantity = part.StockQuantity - quantity from wrap64_of_isInt hrep)] at hfound
    refine ⟨?_, ?_, ?_, ?_⟩
    · simp only [w', hfound]
      exact mapGet_mapModify_same w.parts.items partID
        (fun p : SparePart => { p with StockQuantity := part.StockQuantity - quantity,
                                       UpdatedAt := rclk.stamp })
        (fun _ => rfl) part hget
    · intro j hj
      simp only [w', hfound]
      exact mapGet_mapModify_ne w.parts.items partID j
        (fun p : SparePart => { p with StockQuantity := part.StockQuantity - quantity,
                                       UpdatedAt := rclk.stamp })
        (fun _ => rfl) hj
    · simp only [w', hfound]
      simp [mapModify]
    · simp only [w', hfound]
      exact mapSet_of_WF _ _ hwf rfl

theorem SellPart_success_exact_witness :
    let w' := ((memSparePartService exClock).SellPart exClock exPartsWorld 1 3 "walk-in").2
    mapGet w'.parts.items 1 =
      some { exBolt with StockQuantity := exBolt.StockQuantity - 3,
                         UpdatedAt := exClock.stamp } ∧
    (∀ j, j ≠ 1 → mapGet w'.parts.items j = mapGet exPartsWorld.parts.items j) ∧
    w'.parts.items.length = exPartsWorld.parts.items.length ∧
    w'.transactions.items = exPartsWorld.transactions.items ++
      [{ ID := exPartsWorld.transactions.nextID
         Type_ := TransactionSale
         EntityType := "part"
         EntityID := 1
         Amount := exBolt.UnitPrice * ((3 : Int) : Money)
         PartyName := "walk-in"
         Date := if exClock.date = "" then exClock.date else exClock.date
         Description := exBolt.Name ++ " x" ++ Itoa 3 }] :=
  SellPart_success_exact exClock exClock exPartsWorld 1 3 "walk-in" exBolt Store.new_WF rfl
    (by decide) (by decide)

/-- C6 as stated fails on an overflowing addition: with stock 5 and the `int` delta
`9223372036854775807`, the sum is not negative, yet `UpdateStock` fails with
`ErrInsufficientStock`, since the sum computed in `int` wraps to a negative number. -/
theorem UpdateStock_overflow_rejected :
    mapGet exPartsWorld.parts.items 1 = some exBolt ∧
    isInt 9223372036854775807 ∧
    ¬ exBolt.StockQuantity + 9223372036854775807 < 0 ∧
    (memSparePartService exClock).UpdateStock exPartsWorld 1 9223372036854775807 =
      (some .ErrInsufficientStock, exPartsWorld) := by
  refine ⟨rfl, by decide, by decide, ?_⟩
  rw [UpdateStock_found exClock exPartsWorld 1 9223372036854775807 exBolt rfl]
  exact if_pos (by decide)

/-- C6, amended: for an existing part with stock `c` and a delta for which `c + delta`
is an `int`, `UpdateStock` fails with `ErrInsufficientStock` exactly when
`c + delta < 0`, then leaving the state unchanged; otherwise it succeeds, the stored
stock is `c + delta` and every other part is as before. For an unknown part id it
fails with `ErrPartNotFound`. -/
theorem UpdateStock_exact (rclk : Clock) (w : World) (partID delta : Int) :
    (∀ part, mapGet w.parts.items partID = some part →
      isInt (part.StockQuantity + delta) →
      let r := (memSparePartService rclk).UpdateStock w partID delta
      (r.1 = some .ErrInsufficientStock ↔ part.StockQuantity + delta < 0) ∧
      (part.StockQuantity + delta < 0 → r.2 = w) ∧
      (¬ part.StockQuantity + delta < 0 →
        r.1 = none ∧
        mapGet r.2.parts.items partID =
          some { part with StockQuantity := part.StockQuantity + delta,
                           UpdatedAt := rclk.stamp } ∧
        (∀ j, j ≠ partID → mapGet r.2.parts.items j = mapGet w.parts.items j))) ∧
    (mapGet w.parts.items partID = none →
      (memSparePartService rclk).UpdateStock w partID delta = (some .ErrPartNotFound, w)) := by
  constructor
  · intro part hget hrep r
    have hr := UpdateStock_found rclk w partID delta part hget
    rw [show intAdd part.StockQuantity delta = part.StockQuantity + delta from
      wrap64_of_isInt hrep] at hr
    refine ⟨?_, ?_, ?_⟩
    · by_cases h : part.StockQuantity + delta < 0
      · simp [r, hr, h]
      · simp [r, hr, h]
    · intro h
      simp [r, hr, h]
    · intro h
      simp only [r, hr, if_neg h, true_and]
      constructor
      · exact mapGet_mapModify_same w.parts.items partID
          (fun p : SparePart => { p with StockQuantity := part.StockQuantity + delta,
                                         UpdatedAt := rclk.stamp })
          (fun _ => rfl) part hget
      · intro j hj
        exact mapGet_mapModify_ne w.parts.items partID j
          (fun p : SparePart => { p with StockQuantity := part.StockQuantity + delta,
                                         UpdatedAt := rclk.stamp })
          (fun _ => rfl) hj
  · intro hget
    simp [SparePartService.UpdateStock, memSparePartService, MemorySparePartRepository, hget]

theorem UpdateStock_exact_witness :
    ((memSparePartService exClock).UpdateStock exPartsWorld 1 (-6)).1
        = some .ErrInsufficientStock ∧
    ((memSparePartService exClock).UpdateStock exPartsWorld 1 (-6)).2 = exPartsWorld ∧
    ((memSparePartService exClock).UpdateStock exPartsWorld 1 (-5)).1 = none ∧
    mapGet ((memSparePartService exClock).UpdateStock exPartsWorld 1 (-5)).2.parts.items 1
        = some { exBolt with StockQuantity := exBolt.StockQuantity + (-5),
                             UpdatedAt := exClock.stamp } ∧
    mapGet ((memSparePartService exClock).UpdateStock exPartsWorld 1 (-5)).2.parts.items 2
        = mapGet exPartsWorld.parts.items 2 ∧
    (memSparePartService exClock).UpdateStock exPartsWorld 7 1
        = (some .ErrPartNotFound, exPartsWorld) :=
  have hfail := (UpdateStock_exact exClock exPartsWorld 1 (-6)).1 exBolt rfl (by decide)
  have hok := (UpdateStock_exact exClock exPartsWorld 1 (-5)).1 exBolt rfl (by decide)
  ⟨hfail.1.2 (by decide), hfail.2.1 (by decide), (hok.2.2 (by decide)).1,
    (hok.2.2 (by decide)).2.1, (hok.2.2 (by decide)).2.2 2 (by decide),
    (UpdateStock_exact exClock exPartsWorld 7 1).2 rfl⟩

/-! ## Tractor sales -/

/-- C7 (simple sale): for an in-stock tractor, `SellTractor` without the exchange flag
or without a trade-in payload succeeds; the stored tractor becomes sold with the given
sale price and customer name, no tractor is added, the result carries no exchange id
and its profit is the sale price minus the purchase price. -/
theorem SellTractor_simple_sale (rclk clk : Clock) (w : World) (id : Int) (salePrice : Money)
    (customerName : String) (isExchange : Bool) (exchangeTractor : Option Tractor)
    (t : Tractor) (hget : mapGet w.tractors.items id = some t) (hs : t.Status = StatusInStock)
    (hx : isExchange = false ∨ exchangeTractor = none) :
    let r := (memTractorService rclk).SellTractor clk w id salePrice customerName isExchange
      exchangeTractor
    r.1 = .ok { Message := "tractor sold successfully"
                ProfitLoss := salePrice - t.PurchasePrice
                ExchangeID := none } ∧
    mapGet r.2.tractors.items id =
      some { t with Status := StatusSold, SalePrice := salePrice,
                    CustomerName := customerName, SaleDate := clk.date } ∧
    (∀ j, j ≠ id → mapGet r.2.tractors.items j = mapGet w.tractors.items j) ∧
    r.2.tractors.items.length = w.tractors.items.length ∧
    r.2.tractors.nextID = w.tractors.nextID := by
  intro r
  have hid : t.ID = id := (mapGet_some hget).1
  have hns : t.Status ≠ StatusSold := by rw [hs]; decide
  have hr := SellTractor_simple rclk clk w id salePrice customerName isExchange exchangeTractor
    t hget hns hx
  refine ⟨by simp only [r, hr], ?_, ?_, ?_, by simp only [r, hr]⟩
  · simp only [r, hr]
    have := mapGet_mapSet_same w.tractors.items
      { t with Status := StatusSold, SalePrice := salePrice, CustomerName := customerName,
               SaleDate := clk.date }
    simpa [Keyed.key, hid] using this
  · intro j hj
    simp only [r, hr]
    apply mapGet_mapSet_ne
    simpa [Keyed.key, hid] using hj
  · simp only [r, hr]
    apply mapSet_length
    simp [Keyed.key, hid, hget]

theorem SellTractor_simple_sale_witness :
    ((memTractorService exClock).SellTractor exClock exTractorWorld 1 15000 "buyer" false
        none).1 = .ok { Message := "tractor sold successfully"
                        ProfitLoss := 5000
                        ExchangeID := none } ∧
    (mapGet ((memTractorService exClock).SellTractor exClock exTractorWorld 1 15000 "buyer"
        false none).2.tractors.items 1).map Tractor.Status = some StatusSold := by
  have h := SellTractor_simple_sale exClock exClock exTractorWorld 1 15000 "buyer" false none
    exTractor (by decide) (by decide) (Or.inl rfl)
  refine ⟨?_, ?_⟩
  · rw [h.1]
    norm_num [exTractor]
  · rw [h.2.1]
    rfl

/-- C8 (sale with trade-in): a successful `SellTractor` with the exchange flag and a
payload returns the profit sale price minus purchase price minus the payload's
purchase price, and an exchange id that is the identity under which the trade-in has
been newly stored. -/
theorem SellTractor_exchange_profit (rclk clk : Clock) (w : World) (id : Int)
    (salePrice : Money) (customerName : String) (payload : Tractor) (res : SellTractorResult)
    (t : Tractor) (hget : mapGet w.tractors.items id = some t)
    (hwf : w.tractors.WF)
    (hok : ((memTractorService rclk).SellTractor clk w id salePrice customerName true
      (some payload)).1 = .ok res) :
    let w' := ((memTractorService rclk).SellTractor clk w id salePrice customerName true
      (some payload)).2
    res.ProfitLoss = salePrice - t.PurchasePrice - payload.PurchasePrice ∧
    mapGet w.tractors.items w.tractors.nextID = none ∧
    ∃ tradeIn, mapGet w'.tractors.items w.tractors.nextID = some tradeIn ∧
      tradeIn.ID = w.tractors.nextID ∧ res.ExchangeID = some tradeIn.ID := by
  intro w'
  obtain ⟨t0, hget0, hns⟩ := SellTractor_ok_inv rclk clk w id salePrice customerName true
    (some payload) res hok
  rw [hget] at hget0
  cases hget0
  have hid : t.ID = id := (mapGet_some hget).1
  have hlt : id < w.tractors.nextID := by
    have := hwf t (mapGet_some hget).2
    simpa [Keyed.key, hid] using this
  have hr := SellTractor_exchange rclk clk w id salePrice customerName payload t hget hns
  rw [hr] at hok
  simp only [Except.ok.injEq] at hok
  subst hok
  refine ⟨rfl, ?_, ?_⟩
  · rw [mapGet_eq_none]
    intro x hx
    have := hwf x hx
    omega
  · refine ⟨{ payload with
                ID := w.tractors.nextID
                Status := StatusInStock
                PurchaseDate := clk.date
                SupplierName := if payload.SupplierName = "" then customerName
                                else payload.SupplierName }, ?_, rfl, rfl⟩
    simp only [w', hr]
    rw [mapGet_mapSet_ne]
    · exact mapGet_mapSet_same _ _
    · simp only [Keyed.key, hid]
      omega

theorem SellTractor_exchange_profit_witness :
    ∃ res, ((memTractorService exClock).SellTractor exClock exTractorWorld 1 15000 "buyer" true
        (some exTradeIn)).1 = .ok res ∧
      res.ProfitLoss = 1000 ∧ res.ExchangeID = some 2 ∧
      (mapGet ((memTractorService exClock).SellTractor exClock exTractorWorld 1 15000 "buyer"
        true (some exTradeIn)).2.tractors.items 2).map Tractor.ID = some 2 := by
  have hok := SellTractor_exchange exClock exClock exTractorWorld 1 15000 "buyer" exTradeIn
    exTractor (by decide) (by decide)
  have h := SellTractor_exchange_profit exClock exClock exTractorWorld 1 15000 "buyer"
    exTradeIn _ exTractor (by decide) (by decide) (congrArg Prod.fst hok)
  obtain ⟨hp, -, tradeIn, hg, hi, hx⟩ := h
  refine ⟨_, congrArg Prod.fst hok, ?_, ?_, ?_⟩
  · rw [hp]
    norm_num [exTractor, exTradeIn]
  · rw [hx, hi]
    rfl
  · rw [show (2 : Int) = exTractorWorld.tractors.nextID from rfl, hg, Option.map_some', hi]

/-- C9: after a successful `SellTractor` with the exchange flag and a payload, a new
tractor, under an identity other than the sold one's and not in use before, is stored
with status in_stock, with the payload's supplier name or, when that is empty, the
customer name; the sold tractor is stored with status sold and with that new
identity as its exchange tractor id. -/
theorem SellTractor_exchange_inventory (rclk clk : Clock) (w : World) (id : Int)
    (salePrice : Money) (customerName : String) (payload : Tractor) (res : SellTractorResult)
    (t : Tractor) (hget : mapGet w.tractors.items id = some t)
    (hwf : w.tractors.WF)
    (hok : ((memTractorService rclk).SellTractor clk w id salePrice customerName true
      (some payload)).1 = .ok res) :
    let w' := ((memTractorService rclk).SellTractor clk w id salePrice customerName true
      (some payload)).2
    w.tractors.nextID ≠ id ∧
    mapGet w.tractors.items w.tractors.nextID = none ∧
    mapGet w'.tractors.items w.tractors.nextID =
      some { payload with
               ID := w.tractors.nextID
               Status := StatusInStock
               PurchaseDate := clk.date
               SupplierName := if payload.SupplierName = "" then customerName
                               else payload.SupplierName } ∧
    mapGet w'.tractors.items id =
      some { t with Status := StatusSold, SalePrice := salePrice,
                    CustomerName := customerName, SaleDate := clk.date,
                    ExchangeTractorID := some w.tractors.nextID } := by
  intro w'
  obtain ⟨t0, hget0, hns⟩ := SellTractor_ok_inv rclk clk w id salePrice customerName true
    (some payload) res hok
  rw [hget] at hget0
  cases hget0
  have hid : t.ID = id := (mapGet_some hget).1
  have hlt : id < w.tractors.nextID := by
    have := hwf t (mapGet_some hget).2
    simpa [Keyed.key, hid] using this
  have hr := SellTractor_exchange rclk clk w id salePrice customerName payload t hget hns
  refine ⟨by omega, ?_, ?_, ?_⟩
  · rw [mapGet_eq_none]
    intro x hx
    have := hwf x hx
    omega
  · simp only [w', hr]
    rw [mapGet_mapSet_ne]
    · exact mapGet_mapSet_same _ _
    · simp only [Keyed.key, hid]
      omega
  · simp only [w', hr]
    have := mapGet_mapSet_same
      (mapSet (mapSet w.tractors.items
        { t with Status := StatusSold, SalePrice := salePrice, CustomerName := customerName,
                 SaleDate := clk.date })
        { payload with
            ID := w.tractors.nextID
            Status := StatusInStock
            PurchaseDate := clk.date
            SupplierName := if payload.SupplierName = "" then customerName
                            else payload.SupplierName })
      { t with Status := StatusSold, SalePrice := salePrice, CustomerName := customerName,
               SaleDate := clk.date, ExchangeTractorID := some w.tractors.nextID }
    simpa [Keyed.key, hid] using this

theorem SellTractor_exchange_inventory_witness :
    (mapGet ((memTractorService exClock).SellTractor exClock exTractorWorld 1 15000 "buyer" true
        (some exTradeIn)).2.tractors.items 2).map (fun x => (x.Status, x.SupplierName))
      = some (StatusInStock, "buyer") ∧
    (mapGet ((memTractorService exClock).SellTractor exClock exTractorWorld 1 15000 "buyer" true
        (some exTradeIn)).2.tractors.items 1).map (fun x => (x.Status, x.ExchangeTractorID))
      = some (StatusSold, some 2) := by
  have hok := SellTractor_exchange exClock exClock exTractorWorld 1 15000 "buyer" exTradeIn
    exTractor (by decide) (by decide)
  have h := SellTractor_exchange_inventory exClock exClock exTractorWorld 1 15000 "buyer"
    exTradeIn _ exTractor (by decide) (by decide) (congrArg Prod.fst hok)
  obtain ⟨-, -, h2, h1⟩ := h
  constructor
  · rw [show (2 : Int) = exTractorWorld.tractors.nextID from rfl, h2]
    rfl
  · rw [h1]
    rfl

/-- C10: a successful `SellTractor` with the exchange flag and a payload appends
exactly two ledger entries, in this order: the sale (entity type tractor, entity id the
sold tractor, amount the sale price, party the customer) and the purchase of the
trade-in (entity type tractor, entity id the trade-in's identity, amount the payload's
purchase price, party the customer, description brand, model and "exchange
purchase"). -/
theorem SellTractor_exchange_ledger (rclk clk : Clock) (w : World) (id : Int)
    (salePrice : Money) (customerName : String) (payload : Tractor) (res : SellTractorResult)
    (t : Tractor) (hget : mapGet w.tractors.items id = some t)
    (hwf : w.transactions.WF)
    (hok : ((memTractorService rclk).SellTractor clk w id salePrice customerName true
      (some payload)).1 = .ok res) :
    let w' := ((memTractorService rclk).SellTractor clk w id salePrice customerName true
      (some payload)).2
    res.ExchangeID = some w.tractors.nextID ∧
    w'.transactions.items = w.transactions.items ++
      [{ ID := w.transactions.nextID
         Type_ := TransactionSale
         EntityType := "tractor"
         EntityID := id
         Amount := salePrice
         PartyName := customerName
         Date := if clk.date = "" then rclk.date else clk.date
         Description := t.Brand ++ " " ++ t.Model ++ " sale" },
       { ID := w.transactions.nextID + 1
         Type_ := TransactionPurchase
         EntityType := "tractor"
         EntityID := w.tractors.nextID
         Amount := payload.PurchasePrice
         PartyName := customerName
         Date := if clk.date = "" then rclk.date else clk.date
         Description := payload.Brand ++ " " ++ payload.Model ++ " exchange purchase" }] := by
  intro w'
  obtain ⟨t0, hget0, hns⟩ := SellTractor_ok_inv rclk clk w id salePrice customerName true
    (some payload) res hok
  rw [hget] at hget0
  cases hget0
  have hid : t.ID = id := (mapGet_some hget).1
  have hr := SellTractor_exchange rclk clk w id salePrice customerName payload t hget hns
  rw [hr] at hok
  simp only [Except.ok.injEq] at hok
  subst hok
  refine ⟨rfl, ?_⟩
  simp only [w', hr, hid]
  rw [mapSet_fresh w.transactions.items _ (fun x hx => by
    have := hwf x hx
    simp only [Keyed.key] at this ⊢
    omega)]
  rw [mapSet_fresh _ _ (fun x hx => by
    simp only [List.mem_append, List.mem_singleton] at hx
    rcases hx with hx | hx
    · have := hwf x hx
      simp only [Keyed.key] at this ⊢
      omega
    · subst hx
      simp only [Keyed.key]
      omega)]
  simp

theorem SellTractor_exchange_ledger_witness :
    ((memTractorService exClock).SellTractor exClock exTractorWorld 1 15000 "buyer" true
        (some exTradeIn)).2.transactions.items =
      [{ ID := 1, Type_ := "sale", EntityType := "tractor", EntityID := 1, Amount := 15000,
         PartyName := "buyer", Date := "2024-03-01", Description := "Mahindra 575 sale" },
       { ID := 2, Type_ := "purchase", EntityType := "tractor", EntityID := 2, Amount := 4000,
         PartyName := "buyer", Date := "2024-03-01",
         Description := "Sonalika DI-35 exchange purchase" }] := by
  have hok := SellTractor_exchange exClock exClock exTractorWorld 1 15000 "buyer" exTradeIn
    exTractor (by decide) (by decide)
  have h := SellTractor_exchange_ledger exClock exClock exTractorWorld 1 15000 "buyer"
    exTradeIn _ exTractor (by decide) (by decide) (congrArg Prod.fst hok)
  rw [h.2]
  decide

/-! ## Lemmas on the service-record service -/

theorem foldl_parts_cost (l : List PartUsage) (c : Money) :
    l.foldl (fun cost partUsage => cost + partUsage.UnitPrice * (partUsage.Quantity : Money)) c
      = c + (l.map (fun e => e.UnitPrice * (e.Quantity : Money))).sum := by
  induction l generalizing c with
  | nil => simp
  | cons a t ih =>
    simp only [List.foldl_cons, List.map_cons, List.sum_cons]
    rw [ih]
    ring

theorem calculatedPartsCost_eq_sum (l : List PartUsage) :
    calculatedPartsCost l = (l.map (fun e => e.UnitPrice * (e.Quantity : Money))).sum := by
  unfold calculatedPartsCost
  rw [foldl_parts_cost]
  ring

theorem consumeParts_ok_cost (s : ServiceRecordService) (l : List PartUsage) :
    ∀ (w : World) (c c' : Money) (w1 : World),
      s.consumeParts w c l = (.ok c', w1) →
      c' = c + (l.map (fun e => e.UnitPrice * (e.Quantity : Money))).sum := by
  induction l with
  | nil =>
    intro w c c' w1 h
    simp only [ServiceRecordService.consumeParts, Prod.mk.injEq, Except.ok.injEq] at h
    simp [h.1]
  | cons a t ih =>
    intro w c c' w1 h
    simp only [ServiceRecordService.consumeParts] at h
    cases hg : s.partRepo.GetByID w a.PartID with
    | error e => rw [hg] at h; simp at h
    | ok part =>
      rw [hg] at h
      simp only at h
      split at h
      · simp at h
      · cases hu : s.partRepo.UpdateStock w a.PartID (intSub part.StockQuantity a.Quantity) with
        | error e => rw [hu] at h; simp at h
        | ok w2 =>
          rw [hu] at h
          have := ih w2 _ c' w1 h
          rw [this]
          simp only [List.map_cons, List.sum_cons]
          ring

/-- What a successful `CreateServiceRecord` over the in-memory repositories leaves behind. -/
theorem CreateServiceRecord_ok (rclk clk : Clock) (del : World → Int → Except Error World)
    (unmarshal : String → Option (List PartUsage)) (w : World) (record : ServiceRecord)
    (hok : ((memServiceRecordService rclk del).CreateServiceRecord unmarshal clk w record).1
      = none) :
    ∃ (w1 : World) (partsCost : Money),
      (((record.PartsUsed = "" ∨ unmarshal record.PartsUsed = none) ∧ w1 = w ∧
          partsCost = record.PartsCost) ∨
        (∃ l, record.PartsUsed ≠ "" ∧ unmarshal record.PartsUsed = some l ∧
          (memServiceRecordService rclk del).consumeParts w 0 l
            = (.ok (calculatedPartsCost l), w1) ∧
          partsCost = if record.PartsCost = 0 ∨ calculatedPartsCost l > 0
                      then calculatedPartsCost l else record.PartsCost)) ∧
      record.CustomerName ≠ "" ∧ record.Description ≠ "" ∧
      ((memServiceRecordService rclk del).CreateServiceRecord unmarshal clk w record).2 =
        { w1 with
          services :=
            { items :=
                (mapSet w1.services.items
                  { record with
                      ID := w1.services.nextID
                      PartsCost := partsCost
                      TotalCost := record.LaborCost + partsCost
                      Status := "completed"
                      ServiceDate := if record.ServiceDate = "" then clk.date
                                     else record.ServiceDate })
              nextID := w1.services.nextID + 1 }
          transactions :=
            { items :=
                (mapSet w1.transactions.items
                  { ID := w1.transactions.nextID
                    Type_ := TransactionSale
                    EntityType := "service"
                    EntityID := w1.services.nextID
                    Amount := record.LaborCost + partsCost
                    PartyName := record.CustomerName
                    Date := if (if record.ServiceDate = "" then clk.date
                                else record.ServiceDate) = "" then rclk.date
                            else (if record.ServiceDate = "" then clk.date
                                  else record.ServiceDate)
                    Description := "Service: " ++ record.Description })
              nextID := w1.transactions.nextID + 1 } } := by
  unfold ServiceRecordService.CreateServiceRecord at hok ⊢
  by_cases hv : record.CustomerName = "" ∨ record.Description = ""
  · simp [hv] at hok
  · simp only [if_neg hv] at hok ⊢
    have hv' : record.CustomerName ≠ "" ∧ record.Description ≠ "" := by
      constructor
      · exact fun h => hv (Or.inl h)
      · exact fun h => hv (Or.inr h)
    by_cases hp : record.PartsUsed = ""
    · refine ⟨w, record.PartsCost, Or.inl ⟨Or.inl hp, rfl, rfl⟩, hv'.1, hv'.2, ?_⟩
      simp only [hp, ne_eq, not_true_eq_false, if_false]
      by_cases hd : record.ServiceDate = "" <;>
        simp [memServiceRecordService, MemoryServiceRepository, MemoryTransactionRepository, hd]
    · simp only [ne_eq, hp, not_false_eq_true, if_true] at hok ⊢
      cases hu : unmarshal record.PartsUsed with
      | none =>
        refine ⟨w, record.PartsCost, Or.inl ⟨Or.inr (by first | exact hu | rfl), rfl, rfl⟩,
          hv'.1, hv'.2, ?_⟩
        by_cases hd : record.ServiceDate = "" <;>
          simp [memServiceRecordService, MemoryServiceRepository, MemoryTransactionRepository, hd]
      | some l =>
        simp only [hu] at hok
        cases hc : (memServiceRecordService rclk del).consumeParts w 0 l with
        | mk res w1 =>
          cases res with
          | error e => simp [hc] at hok
          | ok c =>
            have hcost := consumeParts_ok_cost _ l w 0 c w1 hc
            have hcc : c = calculatedPartsCost l := by
              rw [hcost, calculatedPartsCost_eq_sum]; ring
            subst hcc
            refine ⟨w1, _, Or.inr ⟨l, by first | exact hp | trivial, by first | exact hu | rfl, hc, rfl⟩,
              hv'.1, hv'.2, ?_⟩
            simp only [hc]
            by_cases hcond : record.PartsCost = 0 ∨ calculatedPartsCost l > 0
            · by_cases hd : record.ServiceDate = "" <;>
                simp [memServiceRecordService, MemoryServiceRepository,
                  MemoryTransactionRepository, hd, hcond]
            · by_cases hd : record.ServiceDate = "" <;>
                simp [memServiceRecordService, MemoryServiceRepository,
                  MemoryTransactionRepository, hd, hcond]

/-- `CreateServiceRecord` over the in-memory repositories when the loop over the decoded
parts-used list goes through. -/
theorem CreateServiceRecord_with_parts (rclk clk : Clock)
    (del : World → Int → Except Error World)
    (unmarshal : String → Option (List PartUsage)) (w : World) (record : ServiceRecord)
    (l : List PartUsage) (c : Money) (w1 : World)
    (hv : record.CustomerName ≠ "" ∧ record.Description ≠ "")
    (hp : record.PartsUsed ≠ "") (hu : unmarshal record.PartsUsed = some l)
    (hloop : (memServiceRecordService rclk del).consumeParts w 0 l = (.ok c, w1)) :
    (memServiceRecordService rclk del).CreateServiceRecord unmarshal clk w record =
      (none,
        { w1 with
          services :=
            { items :=
                (mapSet w1.services.items
                  { record with
                      ID := w1.services.nextID
                      PartsCost := if record.PartsCost = 0 ∨ c > 0 then c else record.PartsCost
                      TotalCost := record.LaborCost +
                        (if record.PartsCost = 0 ∨ c > 0 then c else record.PartsCost)
                      Status := "completed"
                      ServiceDate := if record.ServiceDate = "" then clk.date
                                     else record.ServiceDate })
              nextID := w1.services.nextID + 1 }
          transactions :=
            { items :=
                (mapSet w1.transactions.items
                  { ID := w1.transactions.nextID
                    Type_ := TransactionSale
                    EntityType := "service"
                    EntityID := w1.services.nextID
                    Amount := record.LaborCost +
                      (if record.PartsCost = 0 ∨ c > 0 then c else record.PartsCost)
                    PartyName := record.CustomerName
                    Date := if (if record.ServiceDate = "" then clk.date
                                else record.ServiceDate) = "" then rclk.date
                            else (if record.ServiceDate = "" then clk.date
                                  else record.ServiceDate)
                    Description := "Service: " ++ record.Description })
              nextID := w1.transactions.nextID + 1 } }) := by
  unfold ServiceRecordService.CreateServiceRecord
  have hv' : ¬ (record.CustomerName = "" ∨ record.Description = "") := by
    rintro (h | h)
    · exact hv.1 h
    · exact hv.2 h
  simp only [if_neg hv', ne_eq, hp, not_false_eq_true, if_true, hu, hloop]
  by_cases hcond : record.PartsCost = 0 ∨ c > 0
  · by_cases hd : record.ServiceDate = "" <;>
      simp [memServiceRecordService, MemoryServiceRepository, MemoryTransactionRepository,
        hd, hcond]
  · by_cases hd : record.ServiceDate = "" <;>
      simp [memServiceRecordService, MemoryServiceRepository, MemoryTransactionRepository,
        hd, hcond]

/-- The loop of `CreateServiceRecord` stops at the first entry that fails. -/
theorem CreateServiceRecord_loop_error (rclk clk : Clock)
    (del : World → Int → Except Error World)
    (unmarshal : String → Option (List PartUsage)) (w : World) (record : ServiceRecord)
    (l : List PartUsage) (err : Error) (w1 : World)
    (hv : record.CustomerName ≠ "" ∧ record.Description ≠ "")
    (hp : record.PartsUsed ≠ "") (hu : unmarshal record.PartsUsed = some l)
    (hloop : (memServiceRecordService rclk del).consumeParts w 0 l = (.error err, w1)) :
    (memServiceRecordService rclk del).CreateServiceRecord unmarshal clk w record
      = (some err, w1) := by
  unfold ServiceRecordService.CreateServiceRecord
  have hv' : ¬ (record.CustomerName = "" ∨ record.Description = "") := by
    rintro (h | h)
    · exact hv.1 h
    · exact hv.2 h
  simp only [if_neg hv', ne_eq, hp, not_false_eq_true, if_true, hu, hloop]

/-- The state a failed `CreateServiceRecord` leaves behind is the initial one or the
one the parts loop left. -/
theorem CreateServiceRecord_failed (rclk clk : Clock)
    (del : World → Int → Except Error World)
    (unmarshal : String → Option (List PartUsage)) (w : World) (record : ServiceRecord)
    (hfail : ((memServiceRecordService rclk del).CreateServiceRecord unmarshal clk w record).1
      ≠ none) :
    ((memServiceRecordService rclk del).CreateServiceRecord unmarshal clk w record).2 = w ∨
    ∃ l, ((memServiceRecordService rclk del).CreateServiceRecord unmarshal clk w record).2 =
      ((memServiceRecordService rclk del).consumeParts w 0 l).2 := by
  unfold ServiceRecordService.CreateServiceRecord at hfail ⊢
  by_cases hv : record.CustomerName = "" ∨ record.Description = ""
  · left
    simp [hv]
  · simp only [if_neg hv] at hfail ⊢
    by_cases hp : record.PartsUsed = ""
    · exfalso
      apply hfail
      simp only [hp, ne_eq, not_true_eq_false, if_false]
      simp [memServiceRecordService, MemoryServiceRepository, MemoryTransactionRepository]
    · simp only [ne_eq, hp, not_false_eq_true, if_true] at hfail ⊢
      cases hu : unmarshal record.PartsUsed with
      | none =>
        exfalso
        apply hfail
        simp [hu, memServiceRecordService, MemoryServiceRepository,
          MemoryTransactionRepository]
      | some l =>
        simp only [hu] at hfail ⊢
        cases hc : (memServiceRecordService rclk del).consumeParts w 0 l with
        | mk res w1 =>
          cases res with
          | error e =>
            right
            exact ⟨l, by simp [hc]⟩
          | ok c =>
            exfalso
            apply hfail
            simp only [hc]
            by_cases hcond : record.PartsCost = 0 ∨ c > 0 <;>
              simp [memServiceRecordService, MemoryServiceRepository,
                MemoryTransactionRepository, hcond]

/-- The record a successful `CreateServiceRecord` stores under the new identity. -/
theorem CreateServiceRecord_persisted (rclk clk : Clock)
    (del : World → Int → Except Error World)
    (unmarshal : String → Option (List PartUsage)) (w : World) (record : ServiceRecord)
    (hok : ((memServiceRecordService rclk del).CreateServiceRecord unmarshal clk w record).1
      = none) :
    ∃ partsCost : Money,
      (((record.PartsUsed = "" ∨ unmarshal record.PartsUsed = none) ∧
          partsCost = record.PartsCost) ∨
        (∃ l, record.PartsUsed ≠ "" ∧ unmarshal record.PartsUsed = some l ∧
          partsCost = if record.PartsCost = 0 ∨ calculatedPartsCost l > 0
                      then calculatedPartsCost l else record.PartsCost)) ∧
      mapGet ((memServiceRecordService rclk del).CreateServiceRecord unmarshal clk w
          record).2.services.items w.services.nextID =
        some { record with
                 ID := w.services.nextID
                 PartsCost := partsCost
                 TotalCost := record.LaborCost + partsCost
                 Status := "completed"
                 ServiceDate := if record.ServiceDate = "" then clk.date
                                else record.ServiceDate } := by
  obtain ⟨w1, partsCost, hrule, -, -, hw⟩ :=
    CreateServiceRecord_ok rclk clk del unmarshal w record hok
  have hnext : w1.services.nextID = w.services.nextID := by
    rcases hrule with ⟨-, h, -⟩ | ⟨l, -, -, hc, -⟩
    · rw [h]
    · have := (consumeParts_frame rclk del l w 0).2.1
      rw [hc] at this
      exact congrArg Store.nextID this
  refine ⟨partsCost, ?_, ?_⟩
  · rcases hrule with ⟨h1, -, h3⟩ | ⟨l, h1, h2, -, h4⟩
    · exact Or.inl ⟨h1, h3⟩
    · exact Or.inr ⟨l, h1, h2, h4⟩
  · rw [hw, ← hnext]
    exact mapGet_mapSet_same w1.services.items
      { record with
          ID := w1.services.nextID
          PartsCost := partsCost
          TotalCost := record.LaborCost + partsCost
          Status := "completed"
          ServiceDate := if record.ServiceDate = "" then clk.date else record.ServiceDate }

/-- What `UpdateServiceRecord` over the in-memory repositories does: it fails with
`ErrNotFound` for an unknown record id, and otherwise stores the record with the costs
recomputed. -/
theorem UpdateServiceRecord_eq (rclk : Clock) (del : World → Int → Except Error World)
    (unmarshal : String → Option (List PartUsage)) (w : World) (record : ServiceRecord) :
    ∃ partsCost : Money,
      (((record.PartsUsed = "" ∨ unmarshal record.PartsUsed = none) ∧
          partsCost = record.PartsCost) ∨
        (∃ l, record.PartsUsed ≠ "" ∧ unmarshal record.PartsUsed = some l ∧
          partsCost = if record.PartsCost = 0 ∨ calculatedPartsCost l > 0
                      then calculatedPartsCost l else record.PartsCost)) ∧
      (memServiceRecordService rclk del).UpdateServiceRecord unmarshal w record =
        match mapGet w.services.items record.ID with
        | none => (some .ErrNotFound, w)
        | some _ =>
          (none, { w with services := { w.services with items :=
            (mapSet w.services.items
              { record with PartsCost := partsCost
                            TotalCost := record.LaborCost + partsCost }) } }) := by
  unfold ServiceRecordService.UpdateServiceRecord
  by_cases hp : record.PartsUsed = ""
  · refine ⟨record.PartsCost, Or.inl ⟨Or.inl hp, rfl⟩, ?_⟩
    simp only [hp, ne_eq, not_true_eq_false, if_false]
    cases hg : mapGet w.services.items record.ID <;>
      simp [memServiceRecordService, MemoryServiceRepository, hg]
  · cases hu : unmarshal record.PartsUsed with
    | none =>
      refine ⟨record.PartsCost, Or.inl ⟨Or.inr rfl, rfl⟩, ?_⟩
      simp only [ne_eq, hp, not_false_eq_true, if_true, hu]
      cases hg : mapGet w.services.items record.ID <;>
        simp [memServiceRecordService, MemoryServiceRepository, hg]
    | some l =>
      refine ⟨_, Or.inr ⟨l, hp, rfl, rfl⟩, ?_⟩
      simp only [ne_eq, hp, not_false_eq_true, if_true, hu]
      by_cases hcond : record.PartsCost = 0 ∨ calculatedPartsCost l > 0
      · cases hg : mapGet w.services.items record.ID <;>
          simp [memServiceRecordService, MemoryServiceRepository, hg, hcond]
      · cases hg : mapGet w.services.items record.ID <;>
          simp [memServiceRecordService, MemoryServiceRepository, hg, hcond]

/-- The record a successful `UpdateServiceRecord` stores. -/
theorem UpdateServiceRecord_persisted (rclk : Clock)
    (del : World → Int → Except Error World)
    (unmarshal : String → Option (List PartUsage)) (w : World) (record : ServiceRecord)
    (hok : ((memServiceRecordService rclk del).UpdateServiceRecord unmarshal w record).1
      = none) :
    ∃ partsCost : Money,
      (((record.PartsUsed = "" ∨ unmarshal record.PartsUsed = none) ∧
          partsCost = record.PartsCost) ∨
        (∃ l, record.PartsUsed ≠ "" ∧ unmarshal record.PartsUsed = some l ∧
          partsCost = if record.PartsCost = 0 ∨ calculatedPartsCost l > 0
                      then calculatedPartsCost l else record.PartsCost)) ∧
      mapGet ((memServiceRecordService rclk del).UpdateServiceRecord unmarshal w
          record).2.services.items record.ID =
        some { record with PartsCost := partsCost
                           TotalCost := record.LaborCost + partsCost } := by
  obtain ⟨partsCost, hrule, heq⟩ := UpdateServiceRecord_eq rclk del unmarshal w record
  refine ⟨partsCost, hrule, ?_⟩
  rw [heq] at hok ⊢
  cases hg : mapGet w.services.items record.ID with
  | none => rw [hg] at hok; simp at hok
  | some x =>
    simp only
    exact mapGet_mapSet_same w.services.items
      { record with PartsCost := partsCost, TotalCost := record.LaborCost + partsCost }

/-! ## Lemmas on intake, the ledger and the reports -/

/-- `AddTractor` over the in-memory repositories, once the validation has passed. -/
theorem AddTractor_valid (rclk clk : Clock) (w : World) (tractor : Tractor)
    (hv : tractor.Brand ≠ "" ∧ tractor.Model ≠ "") :
    (memTractorService rclk).AddTractor clk w tractor =
      (none,
        { w with
          tractors :=
            { items :=
                (mapSet w.tractors.items
                  { tractor with ID := w.tractors.nextID, Status := StatusInStock,
                                 PurchaseDate := clk.date })
              nextID := w.tractors.nextID + 1 }
          transactions :=
            { items :=
                (mapSet w.transactions.items
                  { ID := w.transactions.nextID
                    Type_ := TransactionPurchase
                    EntityType := "tractor"
                    EntityID := w.tractors.nextID
                    Amount := tractor.PurchasePrice
                    PartyName := tractor.SupplierName
                    Date := if clk.date = "" then rclk.date else clk.date
                    Description := tractor.Brand ++ " " ++ tractor.Model ++ " purchase" })
              nextID := w.transactions.nextID + 1 } }) := by
  have hv' : ¬ (tractor.Brand = "" ∨ tractor.Model = "") := by
    rintro (h | h)
    · exact hv.1 h
    · exact hv.2 h
  simp [TractorService.AddTractor, memTractorService, MemoryTractorRepository,
    MemoryTransactionRepository, hv']

theorem AddTractor_invalid (rclk clk : Clock) (w : World) (tractor : Tractor)
    (hv : tractor.Brand = "" ∨ tractor.Model = "") :
    (memTractorService rclk).AddTractor clk w tractor = (some .ErrInvalidData, w) := by
  simp [TractorService.AddTractor, hv]

theorem mapGet_append_left {α : Type} [Keyed α] (m added : List α) (k : Int) (x : α)
    (h : mapGet m k = some x) : mapGet (m ++ added) k = some x := by
  unfold mapGet at h ⊢
  rw [List.find?_append, h]
  rfl

/-- A ledger store after one `Create` of the in-memory transaction repository. -/
theorem ledger_after_create (s : Store Transaction) (v : Transaction) (h : s.WF)
    (hv : v.ID = s.nextID) :
    (∃ added, mapSet s.items v = s.items ++ added) ∧
    ({ items := mapSet s.items v, nextID := s.nextID + 1 } : Store Transaction).WF :=
  ⟨⟨[v], mapSet_of_WF s v h hv⟩, Store.WF_create s v h hv⟩

theorem GetExpenseSummary_ok (s : ExpenseService) (w : World) (startDate endDate : String)
    (summary : FloatMap) (h : s.GetExpenseSummary w startDate endDate = .ok summary) :
    ∃ salary rent bill misc : Money,
      s.expenseRepo.GetTotalByCategory w ExpenseSalary startDate endDate = .ok salary ∧
      s.expenseRepo.GetTotalByCategory w ExpenseRent startDate endDate = .ok rent ∧
      s.expenseRepo.GetTotalByCategory w ExpenseBill startDate endDate = .ok bill ∧
      s.expenseRepo.GetTotalByCategory w ExpenseMisc startDate endDate = .ok misc ∧
      summary = [("salary", salary), ("rent", rent), ("bill", bill), ("misc", misc)] := by
  unfold ExpenseService.GetExpenseSummary at h
  simp only [ExpenseService.summaryLoop] at h
  cases h1 : s.expenseRepo.GetTotalByCategory w ExpenseSalary startDate endDate with
  | error e => rw [h1] at h; simp at h
  | ok salary =>
    rw [h1] at h
    cases h2 : s.expenseRepo.GetTotalByCategory w ExpenseRent startDate endDate with
    | error e => rw [h2] at h; simp at h
    | ok rent =>
      rw [h2] at h
      cases h3 : s.expenseRepo.GetTotalByCategory w ExpenseBill startDate endDate with
      | error e => rw [h3] at h; simp at h
      | ok bill =>
        rw [h3] at h
        cases h4 : s.expenseRepo.GetTotalByCategory w ExpenseMisc startDate endDate with
        | error e => rw [h4] at h; simp at h
        | ok misc =>
          rw [h4] at h
          refine ⟨salary, rent, bill, misc, rfl, rfl, rfl, rfl, ?_⟩
          simp only [Except.ok.injEq] at h
          rw [← h]
          simp [FloatMap.set, ExpenseSalary, ExpenseRent, ExpenseBill, ExpenseMisc]

/-! ## The ledger -/

/-- C11 (ledger completeness, single entry): over a ledger whose keys are below its
counter, every successful `AddTractor`, `SellTractor` without exchange, `SellPart` and
`CreateServiceRecord` leaves the ledger as it was plus exactly one entry. Its entity id
is the identity of the tractor just stored, of the sold tractor, of the part, of the
service record just stored; its amount is the tractor's purchase price (type purchase),
the sale price, unit price times quantity, the stored record's total cost (type
sale). -/
theorem ledger_single_entry (rclk clk : Clock) (del : World → Int → Except Error World)
    (unmarshal : String → Option (List PartUsage)) (w : World)
    (hwf : w.transactions.WF) :
    (∀ tractor : Tractor,
      ((memTractorService rclk).AddTractor clk w tractor).1 = none →
      ∃ stored,
        mapGet ((memTractorService rclk).AddTractor clk w tractor).2.tractors.items
          w.tractors.nextID = some stored ∧
        stored.ID = w.tractors.nextID ∧ stored.PurchasePrice = tractor.PurchasePrice ∧
        ((memTractorService rclk).AddTractor clk w tractor).2.transactions.items =
          w.transactions.items ++
            [{ ID := w.transactions.nextID
               Type_ := TransactionPurchase
               EntityType := "tractor"
               EntityID := stored.ID
               Amount := stored.PurchasePrice
               PartyName := tractor.SupplierName
               Date := if clk.date = "" then rclk.date else clk.date
               Description := tractor.Brand ++ " " ++ tractor.Model ++ " purchase" }]) ∧
    (∀ (id : Int) (salePrice : Money) (customerName : String) (isExchange : Bool)
        (exchangeTractor : Option Tractor) (res : SellTractorResult) (t : Tractor),
      mapGet w.tractors.items id = some t →
      isExchange = false ∨ exchangeTractor = none →
      ((memTractorService rclk).SellTractor clk w id salePrice customerName isExchange
        exchangeTractor).1 = .ok res →
      ((memTractorService rclk).SellTractor clk w id salePrice customerName isExchange
        exchangeTractor).2.transactions.items =
        w.transactions.items ++
          [{ ID := w.transactions.nextID
             Type_ := TransactionSale
             EntityType := "tractor"
             EntityID := id
             Amount := salePrice
             PartyName := customerName
             Date := if clk.date = "" then rclk.date else clk.date
             Description := t.Brand ++ " " ++ t.Model ++ " sale" }]) ∧
    (∀ (partID quantity : Int) (customerName : String) (part : SparePart),
      mapGet w.parts.items partID = some part →
      ((memSparePartService rclk).SellPart clk w partID quantity customerName).1 = none →
      ((memSparePartService rclk).SellPart clk w partID quantity customerName).2.transactions.items
        = w.transactions.items ++
          [{ ID := w.transactions.nextID
             Type_ := TransactionSale
             EntityType := "part"
             EntityID := partID
             Amount := part.UnitPrice * (quantity : Money)
             PartyName := customerName
             Date := if clk.date = "" then rclk.date else clk.date
             Description := part.Name ++ " x" ++ Itoa quantity }]) ∧
    (∀ record : ServiceRecord,
      ((memServiceRecordService rclk del).CreateServiceRecord unmarshal clk w record).1 = none →
      ∃ stored,
        mapGet ((memServiceRecordService rclk del).CreateServiceRecord unmarshal clk w
          record).2.services.items w.services.nextID = some stored ∧
        stored.ID = w.services.nextID ∧
        ((memServiceRecordService rclk del).CreateServiceRecord unmarshal clk w
          record).2.transactions.items =
          w.transactions.items ++
            [{ ID := w.transactions.nextID
               Type_ := TransactionSale
               EntityType := "service"
               EntityID := stored.ID
               Amount := stored.TotalCost
               PartyName := record.CustomerName
               Date := if stored.ServiceDate = "" then rclk.date else stored.ServiceDate
               Description := "Service: " ++ record.Description }]) := by
  refine ⟨?_, ?_, ?_, ?_⟩
  · intro tractor hok
    by_cases hv : tractor.Brand = "" ∨ tractor.Model = ""
    · rw [AddTractor_invalid rclk clk w tractor hv] at hok
      simp at hok
    · have hv' : tractor.Brand ≠ "" ∧ tractor.Model ≠ "" :=
        ⟨fun h => hv (Or.inl h), fun h => hv (Or.inr h)⟩
      rw [AddTractor_valid rclk clk w tractor hv']
      refine ⟨{ tractor with ID := w.tractors.nextID, Status := StatusInStock,
                             PurchaseDate := clk.date }, ?_, rfl, rfl, ?_⟩
      · exact mapGet_mapSet_same w.tractors.items
          { tractor with ID := w.tractors.nextID, Status := StatusInStock,
                         PurchaseDate := clk.date }
      · exact mapSet_of_WF _ _ hwf rfl
  · intro id salePrice customerName isExchange exchangeTractor res t hget hx hok
    obtain ⟨t0, hget0, hns⟩ := SellTractor_ok_inv rclk clk w id salePrice customerName
      isExchange exchangeTractor res hok
    rw [hget] at hget0
    cases hget0
    have hid : t.ID = id := (mapGet_some hget).1
    rw [SellTractor_simple rclk clk w id salePrice customerName isExchange exchangeTractor t
      hget hns hx]
    simp only [hid]
    exact mapSet_of_WF _ _ hwf rfl
  · intro partID quantity customerName part hget hok
    rw [SellPart_found rclk clk w partID quantity customerName part hget] at hok ⊢
    by_cases hq : part.StockQuantity < quantity
    · rw [if_pos hq] at hok
      simp at hok
    · rw [if_neg hq]
      exact mapSet_of_WF _ _ hwf rfl
  · intro record hok
    obtain ⟨w1, partsCost, hrule, -, -, hw⟩ :=
      CreateServiceRecord_ok rclk clk del unmarshal w record hok
    have hframe : w1.services.nextID = w.services.nextID ∧ w1.transactions = w.transactions := by
      rcases hrule with ⟨-, h, -⟩ | ⟨l, -, -, hc, -⟩
      · rw [h]; exact ⟨rfl, rfl⟩
      · have := consumeParts_frame rclk del l w 0
        rw [hc] at this
        exact ⟨congrArg Store.nextID this.2.1, this.2.2.2.1⟩
    rw [hw, hframe.1, hframe.2]
    refine ⟨{ record with
                ID := w.services.nextID
                PartsCost := partsCost
                TotalCost := record.LaborCost + partsCost
                Status := "completed"
                ServiceDate := if record.ServiceDate = "" then clk.date
                               else record.ServiceDate }, ?_, rfl, ?_⟩
    · have := mapGet_mapSet_same w1.services.items
        { record with
            ID := w.services.nextID
            PartsCost := partsCost
            TotalCost := record.LaborCost + partsCost
            Status := "completed"
            ServiceDate := if record.ServiceDate = "" then clk.date else record.ServiceDate }
      simpa [Keyed.key] using this
    · exact mapSet_of_WF _ _ hwf rfl

theorem ledger_single_entry_witness :
    (∃ stored,
      mapGet ((memTractorService exClock).AddTractor exClock exReportWorld
        exTractor).2.tractors.items 1 = some stored ∧
      stored.ID = 1 ∧ stored.PurchasePrice = 10000 ∧
      ((memTractorService exClock).AddTractor exClock exReportWorld
        exTractor).2.transactions.items =
        exReportWorld.transactions.items ++
          [{ ID := 3, Type_ := "purchase", EntityType := "tractor", EntityID := stored.ID,
             Amount := stored.PurchasePrice, PartyName := "dealer", Date := "2024-03-01",
             Description := "Mahindra 575 purchase" }]) ∧
    ((memTractorService exClock).SellTractor exClock exTractorWorld 1 15000 "buyer" false
        none).2.transactions.items =
      [{ ID := 1, Type_ := "sale", EntityType := "tractor", EntityID := 1, Amount := 15000,
         PartyName := "buyer", Date := "2024-03-01", Description := "Mahindra 575 sale" }] ∧
    ((memSparePartService exClock).SellPart exClock exPartsWorld 1 3
        "walk-in").2.transactions.items =
      [{ ID := 1, Type_ := "sale", EntityType := "part", EntityID := 1, Amount := 30,
         PartyName := "walk-in", Date := "2024-03-01", Description := "bolt x3" }] ∧
    (∃ stored,
      mapGet ((memServiceRecordService exClock exDelete).CreateServiceRecord
        exUnmarshalTwoBolts exClock exPartsWorld exTwoBoltsRecord).2.services.items 1
        = some stored ∧
      stored.ID = 1 ∧
      ((memServiceRecordService exClock exDelete).CreateServiceRecord exUnmarshalTwoBolts
        exClock exPartsWorld exTwoBoltsRecord).2.transactions.items =
        [{ ID := 1, Type_ := "sale", EntityType := "service", EntityID := stored.ID,
           Amount := stored.TotalCost, PartyName := "farmer",
           Date := if stored.ServiceDate = "" then "2024-03-01" else stored.ServiceDate,
           Description := "Service: brake repair" }]) := by
  have hA := (ledger_single_entry exClock exClock exDelete exUnmarshal exReportWorld
    (by decide)).1 exTractor (by decide)
  have hT := (ledger_single_entry exClock exClock exDelete exUnmarshal exTractorWorld
    (by decide)).2.1 1 15000 "buyer" false none
    { Message := "tractor sold successfully", ProfitLoss := 15000 - exTractor.PurchasePrice,
      ExchangeID := none }
    exTractor (by decide) (Or.inl rfl)
    (congrArg Prod.fst (SellTractor_simple exClock exClock exTractorWorld 1 15000 "buyer" false
      none exTractor (by decide) (by decide) (Or.inl rfl)))
  have hP := (ledger_single_entry exClock exClock exDelete exUnmarshal exPartsWorld
    (by decide)).2.2.1 1 3 "walk-in" exBolt (by decide) (by decide)
  have hS := (ledger_single_entry exClock exClock exDelete exUnmarshalTwoBolts exPartsWorld
    (by decide)).2.2.2 exTwoBoltsRecord (by decide)
  refine ⟨?_, ?_, ?_, ?_⟩
  · obtain ⟨stored, h1, h2, h3, h4⟩ := hA
    exact ⟨stored, h1, h2, h3, h4⟩
  · rw [hT]
    decide
  · rw [hP]
    have : exBolt.UnitPrice * ((3 : Int) : Money) = 30 := by norm_num [exBolt]
    rw [this]
    decide
  · obtain ⟨stored, h1, h2, h3⟩ := hS
    exact ⟨stored, h1, h2, h3⟩

/-- C12 (append-only ledger): whatever the call among `AddTractor`, `SellTractor`,
`SellPart`, `UpdateStock`, `CreateServiceRecord`, `UpdateServiceRecord`, `AddExpense`,
`UpdateTractor`, `DeleteTractor` and `DeleteServiceRecord`, and whether it succeeds or
fails, the ledger after the call is the ledger before it followed by the entries
added: every entry found under a key before the call is found unchanged under that key
after it. The ledger store has its keys below its counter, and the `Delete` of the
service repository leaves the ledger alone. -/
theorem ledger_append_only (rclk clk : Clock) (unmarshal : String → Option (List PartUsage))
    (del : World → Int → Except Error World)
    (hdel : ∀ w id w', del w id = .ok w' → w'.transactions = w.transactions)
    (w : World) (hwf : w.transactions.WF) (call : Call) :
    let w' := call.run rclk clk unmarshal del w
    (∃ added, w'.transactions.items = w.transactions.items ++ added) ∧
    (∀ k t, mapGet w.transactions.items k = some t →
      mapGet w'.transactions.items k = some t) ∧
    w'.transactions.WF := by
  intro w'
  have key : (∃ added, w'.transactions.items = w.transactions.items ++ added) ∧
      w'.transactions.WF := by
    have hsame : ∀ v : World, v.transactions = w.transactions →
        (∃ added, v.transactions.items = w.transactions.items ++ added) ∧ v.transactions.WF :=
      fun v hv => ⟨⟨[], by rw [hv]; simp⟩, by rw [hv]; exact hwf⟩
    cases call with
    | AddTractor tractor =>
      simp only [w', Call.run]
      by_cases hv : tractor.Brand = "" ∨ tractor.Model = ""
      · rw [AddTractor_invalid rclk clk w tractor hv]
        exact hsame w rfl
      · rw [AddTractor_valid rclk clk w tractor
          ⟨fun h => hv (Or.inl h), fun h => hv (Or.inr h)⟩]
        exact ledger_after_create _ _ hwf rfl
    | SellTractor id salePrice customerName isExchange exchangeTractor =>
      simp only [w', Call.run]
      cases hget : mapGet w.tractors.items id with
      | none =>
        rw [SellTractor_missing rclk clk w id salePrice customerName isExchange
          exchangeTractor hget]
        exact hsame w rfl
      | some t =>
        by_cases hs : t.Status = StatusSold
        · rw [SellTractor_sold rclk clk w id salePrice customerName isExchange
            exchangeTractor t hget hs]
          exact hsame w rfl
        · by_cases hx : isExchange = false ∨ exchangeTractor = none
          · rw [SellTractor_simple rclk clk w id salePrice customerName isExchange
              exchangeTractor t hget hs hx]
            exact ledger_after_create _ _ hwf rfl
          · have hex : isExchange = true := by
              cases isExchange
              · exact absurd (Or.inl rfl) hx
              · rfl
            cases hp : exchangeTractor with
            | none => exact absurd (Or.inr hp) hx
            | some payload =>
              subst hex
              rw [SellTractor_exchange rclk clk w id salePrice customerName payload t hget hs]
              obtain ⟨⟨a1, h1⟩, hwf1⟩ := ledger_after_create w.transactions
                ({ ID := w.transactions.nextID
                   Type_ := TransactionSale
                   EntityType := "tractor"
                   EntityID := t.ID
                   Amount := salePrice
                   PartyName := customerName
                   Date := if clk.date = "" then rclk.date else clk.date
                   Description := t.Brand ++ " " ++ t.Model ++ " sale" } : Transaction) hwf rfl
              obtain ⟨⟨a2, h2⟩, hwf2⟩ := ledger_after_create _
                ({ ID := w.transactions.nextID + 1
                   Type_ := TransactionPurchase
                   EntityType := "tractor"
                   EntityID := w.tractors.nextID
                   Amount := payload.PurchasePrice
                   PartyName := customerName
                   Date := if clk.date = "" then rclk.date else clk.date
                   Description :=
                     payload.Brand ++ " " ++ payload.Model ++ " exchange purchase" }
                  : Transaction) hwf1 rfl
              refine ⟨⟨a1 ++ a2, ?_⟩, hwf2⟩
              simp only at h2 ⊢
              rw [h2, h1, List.append_assoc]
    | SellPart partID quantity customerName =>
      simp only [w', Call.run]
      cases hget : mapGet w.parts.items partID with
      | none =>
        rw [SellPart_missing rclk clk w partID quantity customerName hget]
        exact hsame w rfl
      | some part =>
        rw [SellPart_found rclk clk w partID quantity customerName part hget]
        split
        · exact hsame w rfl
        · exact ledger_after_create _ _ hwf rfl
    | UpdateStock partID quantityChange =>
      simp only [w', Call.run]
      cases hget : mapGet w.parts.items partID with
      | none =>
        apply hsame
        simp [SparePartService.UpdateStock, memSparePartService, MemorySparePartRepository, hget]
      | some part =>
        rw [UpdateStock_found rclk w partID quantityChange part hget]
        split <;> exact hsame _ rfl
    | CreateServiceRecord record =>
      simp only [w', Call.run]
      by_cases hok : ((memServiceRecordService rclk del).CreateServiceRecord unmarshal clk w
          record).1 = none
      · obtain ⟨w1, partsCost, hrule, -, -, hw⟩ :=
          CreateServiceRecord_ok rclk clk del unmarshal w record hok
        have hframe : w1.transactions = w.transactions := by
          rcases hrule with ⟨-, h, -⟩ | ⟨l, -, -, hc, -⟩
          · rw [h]
          · have := consumeParts_frame rclk del l w 0
            rw [hc] at this
            exact this.2.2.2.1
        rw [hw, hframe]
        exact ledger_after_create _ _ hwf rfl
      · rcases CreateServiceRecord_failed rclk clk del unmarshal w record hok with h | ⟨l, h⟩
        · rw [h]
          exact hsame w rfl
        · rw [h]
          exact hsame _ (consumeParts_frame rclk del l w 0).2.2.2.1
    | UpdateServiceRecord record =>
      simp only [w', Call.run]
      obtain ⟨partsCost, -, heq⟩ := UpdateServiceRecord_eq rclk del unmarshal w record
      rw [heq]
      cases mapGet w.services.items record.ID <;> exact hsame _ rfl
    | AddExpense expense userID =>
      simp only [w', Call.run]
      apply hsame
      unfold ExpenseService.AddExpense
      by_cases ha : expense.Amount ≤ 0
      · simp [ha]
      · simp only [if_neg ha]
        simp [memExpenseService, MemoryExpenseRepository]
    | UpdateTractor tractor =>
      simp only [w', Call.run]
      apply hsame
      unfold TractorService.UpdateTractor
      cases hg : mapGet w.tractors.items tractor.ID <;>
        simp [memTractorService, MemoryTractorRepository, hg]
    | DeleteTractor id =>
      simp only [w', Call.run]
      apply hsame
      unfold TractorService.DeleteTractor
      cases hg : mapGet w.tractors.items id <;>
        simp [memTractorService, MemoryTractorRepository, hg]
    | DeleteServiceRecord id =>
      simp only [w', Call.run]
      apply hsame
      unfold ServiceRecordService.DeleteServiceRecord
      simp only [memServiceRecordService, MemoryServiceRepository]
      cases hd : del w id with
      | error e => rfl
      | ok w1 => exact hdel w id w1 hd
  obtain ⟨⟨added, hadd⟩, hwf'⟩ := key
  refine ⟨⟨added, hadd⟩, ?_, hwf'⟩
  intro k t hk
  rw [hadd]
  exact mapGet_append_left _ _ _ _ hk

theorem ledger_append_only_witness :
    let w' := (Call.AddTractor exTractor).run exClock exClock exUnmarshal exDelete exReportWorld
    (∃ added, w'.transactions.items = exReportWorld.transactions.items ++ added) ∧
    (∀ k t, mapGet exReportWorld.transactions.items k = some t →
      mapGet w'.transactions.items k = some t) ∧
    w'.transactions.WF :=
  ledger_append_only exClock exClock exUnmarshal exDelete
    (fun w id w' h => by
      simp only [exDelete, Except.ok.injEq] at h
      rw [← h])
    exReportWorld (by decide) (Call.AddTractor exTractor)

/-! ## Validation -/

/-- C13 (validation before any write): over any repositories, `AddTractor` with an
empty brand or model, `AddPart` with an empty name or part number,
`CreateServiceRecord` with an empty customer name or description (whatever its
parts-used text) and `AddExpense` with an amount not above 0 return `ErrInvalidData`
and leave the whole state as it was. -/
theorem validation_before_any_write (ts : TractorService) (ps : SparePartService)
    (ss : ServiceRecordService) (es : ExpenseService)
    (unmarshal : String → Option (List PartUsage)) (clk : Clock) (w : World) :
    (∀ tractor : Tractor, tractor.Brand = "" ∨ tractor.Model = "" →
      ts.AddTractor clk w tractor = (some .ErrInvalidData, w)) ∧
    (∀ part : SparePart, part.Name = "" ∨ part.PartNumber = "" →
      ps.AddPart w part = (some .ErrInvalidData, w)) ∧
    (∀ record : ServiceRecord, record.CustomerName = "" ∨ record.Description = "" →
      ss.CreateServiceRecord unmarshal clk w record = (some .ErrInvalidData, w)) ∧
    (∀ (expense : Expense) (userID : Int), expense.Amount ≤ 0 →
      es.AddExpense clk w expense userID = (some .ErrInvalidData, w)) := by
  refine ⟨?_, ?_, ?_, ?_⟩
  · intro tractor h
    simp [TractorService.AddTractor, h]
  · intro part h
    simp [SparePartService.AddPart, h]
  · intro record h
    simp [ServiceRecordService.CreateServiceRecord, h]
  · intro expense userID h
    simp [ExpenseService.AddExpense, h]

theorem validation_before_any_write_witness :
    (memTractorService exClock).AddTractor exClock exPartsWorld { exTractor with Model := "" }
      = (some .ErrInvalidData, exPartsWorld) ∧
    (memSparePartService exClock).AddPart exPartsWorld { exBolt with PartNumber := "" }
      = (some .ErrInvalidData, exPartsWorld) ∧
    (memServiceRecordService exClock exDelete).CreateServiceRecord exUnmarshal exClock
      exPartsWorld { exRecord with CustomerName := "" } = (some .ErrInvalidData, exPartsWorld) ∧
    (memExpenseService exClock).AddExpense exClock exPartsWorld
      { ID := 0, Category := ExpenseRent, Amount := 0, Description := "rent", Recipient := "",
        Date := "", CreatedBy := 0, CreatedAt := "" } 7 = (some .ErrInvalidData, exPartsWorld) :=
  have h := validation_before_any_write (memTractorService exClock) (memSparePartService exClock)
    (memServiceRecordService exClock exDelete) (memExpenseService exClock) exUnmarshal exClock
    exPartsWorld
  ⟨h.1 _ (Or.inr rfl), h.2.1 _ (Or.inr rfl), h.2.2.1 _ (Or.inl rfl), h.2.2.2 _ 7 (le_refl _)⟩

/-! ## Costs of a service record -/

/-- C14 (parts-cost override): when the parts-used list decodes to entries whose
unit price times quantity sum to `C` and the supplied parts cost is 0, a successful
`CreateServiceRecord` stores the parts cost `C` and the total cost labor cost plus `C`
(for `C > 0` as for any other `C`). -/
theorem CreateServiceRecord_parts_cost_override (rclk clk : Clock)
    (del : World → Int → Except Error World)
    (unmarshal : String → Option (List PartUsage)) (w : World) (record : ServiceRecord)
    (l : List PartUsage)
    (hp : record.PartsUsed ≠ "") (hu : unmarshal record.PartsUsed = some l)
    (h0 : record.PartsCost = 0)
    (hok : ((memServiceRecordService rclk del).CreateServiceRecord unmarshal clk w record).1
      = none) :
    ∃ stored, mapGet ((memServiceRecordService rclk del).CreateServiceRecord unmarshal clk w
        record).2.services.items w.services.nextID = some stored ∧
      stored.PartsCost = (l.map (fun e => e.UnitPrice * (e.Quantity : Money))).sum ∧
      stored.TotalCost = record.LaborCost +
        (l.map (fun e => e.UnitPrice * (e.Quantity : Money))).sum := by
  obtain ⟨partsCost, hrule, hget⟩ :=
    CreateServiceRecord_persisted rclk clk del unmarshal w record hok
  have hpc : partsCost = (l.map (fun e => e.UnitPrice * (e.Quantity : Money))).sum := by
    rcases hrule with ⟨h1 | h1, -⟩ | ⟨l', -, h2, h4⟩
    · exact absurd h1 hp
    · rw [hu] at h1; simp at h1
    · rw [hu] at h2
      cases h2
      rw [h4, if_pos (Or.inl h0), calculatedPartsCost_eq_sum]
  refine ⟨_, hget, ?_, ?_⟩
  · exact hpc
  · simp only [hpc]

theorem CreateServiceRecord_parts_cost_override_witness :
    ∃ stored, mapGet ((memServiceRecordService exClock exDelete).CreateServiceRecord
        exUnmarshalTwoBolts exClock exPartsWorld exTwoBoltsRecord).2.services.items 1
        = some stored ∧
      stored.PartsCost = 20 ∧ stored.TotalCost = 120 := by
  obtain ⟨stored, h1, h2, h3⟩ := CreateServiceRecord_parts_cost_override exClock exClock
    exDelete exUnmarshalTwoBolts exPartsWorld exTwoBoltsRecord
    [{ PartID := 1, Name := "bolt", Quantity := 2, UnitPrice := 10 }]
    (by decide) (by decide) (by decide) (by decide)
  refine ⟨stored, h1, ?_, ?_⟩
  · rw [h2]; norm_num
  · rw [h3]; norm_num [exTwoBoltsRecord]

/-- C15 as stated fails: the parts-used list has one entry, of quantity 0, so the
calculated sum is 0; the supplied parts cost is 50. `CreateServiceRecord` succeeds and
stores the parts cost 50, not the calculated sum. -/
theorem CreateServiceRecord_keeps_supplied_parts_cost :
    exUnmarshalZero exZeroRecord.PartsUsed =
      some [{ PartID := 1, Name := "bolt", Quantity := 0, UnitPrice := 10 }] ∧
    (([{ PartID := 1, Name := "bolt", Quantity := 0, UnitPrice := 10 }] : List PartUsage).map
      (fun e => e.UnitPrice * (e.Quantity : Money))).sum = 0 ∧
    ((memServiceRecordService exClock exDelete).CreateServiceRecord exUnmarshalZero exClock
      exPartsWorld exZeroRecord).1 = none ∧
    (mapGet ((memServiceRecordService exClock exDelete).CreateServiceRecord exUnmarshalZero
      exClock exPartsWorld exZeroRecord).2.services.items 1).map ServiceRecord.PartsCost
      = some 50 := by
  have hu : exUnmarshalZero exZeroRecord.PartsUsed =
      some [{ PartID := 1, Name := "bolt", Quantity := 0, UnitPrice := 10 }] := by decide
  have hloop : (memServiceRecordService exClock exDelete).consumeParts exPartsWorld 0
      [{ PartID := 1, Name := "bolt", Quantity := 0, UnitPrice := 10 }] =
      (.ok ((0 : Money) + 10 * ((0 : Int) : Money)),
        { exPartsWorld with parts := { exPartsWorld.parts with items :=
          [{ exBolt with StockQuantity := 5, UpdatedAt := exClock.stamp }, exNut] } }) := by
    rfl
  have h := CreateServiceRecord_with_parts exClock exClock exDelete exUnmarshalZero exPartsWorld
    exZeroRecord _ _ _ (by decide) (by decide) hu hloop
  refine ⟨hu, by norm_num, by rw [h], ?_⟩
  rw [h]
  have hc : ¬ (exZeroRecord.PartsCost = 0 ∨ (0 : Money) + 10 * ((0 : Int) : Money) > 0) := by
    norm_num [exZeroRecord]
  simp only [if_neg hc]
  rfl

/-- C15, amended: for a parts-used text that decodes, a successful
`CreateServiceRecord` or `UpdateServiceRecord` stores as parts cost the calculated sum
of unit price times quantity when the supplied parts cost is 0 or that sum is above 0,
and keeps the supplied parts cost otherwise (a nonzero supplied cost with a sum that is
not positive). -/
theorem parts_cost_rule (rclk clk : Clock)
    (del : World → Int → Except Error World)
    (unmarshal : String → Option (List PartUsage)) (w : World) (record : ServiceRecord)
    (l : List PartUsage)
    (hp : record.PartsUsed ≠ "") (hu : unmarshal record.PartsUsed = some l) :
    (((memServiceRecordService rclk del).CreateServiceRecord unmarshal clk w record).1 = none →
      ∃ stored, mapGet ((memServiceRecordService rclk del).CreateServiceRecord unmarshal clk w
          record).2.services.items w.services.nextID = some stored ∧
        stored.PartsCost =
          if record.PartsCost = 0 ∨ 0 < (l.map (fun e => e.UnitPrice * (e.Quantity : Money))).sum
          then (l.map (fun e => e.UnitPrice * (e.Quantity : Money))).sum
          else record.PartsCost) ∧
    (((memServiceRecordService rclk del).UpdateServiceRecord unmarshal w record).1 = none →
      ∃ stored, mapGet ((memServiceRecordService rclk del).UpdateServiceRecord unmarshal w
          record).2.services.items record.ID = some stored ∧
        stored.PartsCost =
          if record.PartsCost = 0 ∨ 0 < (l.map (fun e => e.UnitPrice * (e.Quantity : Money))).sum
          then (l.map (fun e => e.UnitPrice * (e.Quantity : Money))).sum
          else record.PartsCost) := by
  constructor
  · intro hok
    obtain ⟨partsCost, hrule, hget⟩ :=
      CreateServiceRecord_persisted rclk clk del unmarshal w record hok
    refine ⟨_, hget, ?_⟩
    rcases hrule with ⟨h1 | h1, -⟩ | ⟨l', -, h2, h4⟩
    · exact absurd h1 hp
    · rw [hu] at h1; simp at h1
    · rw [hu] at h2
      cases h2
      simp only [h4, calculatedPartsCost_eq_sum, gt_iff_lt]
  · intro hok
    obtain ⟨partsCost, hrule, hget⟩ :=
      UpdateServiceRecord_persisted rclk del unmarshal w record hok
    refine ⟨_, hget, ?_⟩
    rcases hrule with ⟨h1 | h1, -⟩ | ⟨l', -, h2, h4⟩
    · exact absurd h1 hp
    · rw [hu] at h1; simp at h1
    · rw [hu] at h2
      cases h2
      simp only [h4, calculatedPartsCost_eq_sum, gt_iff_lt]

theorem parts_cost_rule_witness :
    (∃ stored, mapGet ((memServiceRecordService exClock exDelete).CreateServiceRecord
        exUnmarshalZero exClock exPartsWorld exZeroRecord).2.services.items 1 = some stored ∧
      stored.PartsCost = 50) ∧
    (∃ stored, mapGet ((memServiceRecordService exClock exDelete).UpdateServiceRecord
        exUnmarshalTwoBolts exServiceWorld exTwoBoltsRecord).2.services.items 1 = some stored ∧
      stored.PartsCost = 20) := by
  have hc := (parts_cost_rule exClock exClock exDelete exUnmarshalZero exPartsWorld exZeroRecord
    [{ PartID := 1, Name := "bolt", Quantity := 0, UnitPrice := 10 }]
    (by decide) (by decide)).1
    (by
      rw [CreateServiceRecord_with_parts exClock exClock exDelete exUnmarshalZero exPartsWorld
        exZeroRecord [{ PartID := 1, Name := "bolt", Quantity := 0, UnitPrice := 10 }]
        ((0 : Money) + 10 * ((0 : Int) : Money))
        { exPartsWorld with parts := { exPartsWorld.parts with items :=
            [{ exBolt with StockQuantity := 5, UpdatedAt := exClock.stamp }, exNut] } }
        (by decide) (by decide) (by decide) rfl])
  have hu := (parts_cost_rule exClock exClock exDelete exUnmarshalTwoBolts exServiceWorld
    exTwoBoltsRecord [{ PartID := 1, Name := "bolt", Quantity := 2, UnitPrice := 10 }]
    (by decide) (by decide)).2 (by decide)
  obtain ⟨s1, h1, h1'⟩ := hc
  obtain ⟨s2, h2, h2'⟩ := hu
  refine ⟨⟨s1, h1, ?_⟩, ⟨s2, h2, ?_⟩⟩
  · rw [h1']
    norm_num [exZeroRecord]
  · rw [h2']
    norm_num [exTwoBoltsRecord]

/-- C16 (total cost): the record stored by a successful `CreateServiceRecord` or
`UpdateServiceRecord` has total cost equal to its labor cost plus its parts cost (the
labor cost being the supplied one), whatever total cost was supplied, and
`CreateServiceRecord` stores the status "completed". -/
theorem service_total_cost_invariant (rclk clk : Clock)
    (del : World → Int → Except Error World)
    (unmarshal : String → Option (List PartUsage)) (w : World) (record : ServiceRecord) :
    (((memServiceRecordService rclk del).CreateServiceRecord unmarshal clk w record).1 = none →
      ∃ stored, mapGet ((memServiceRecordService rclk del).CreateServiceRecord unmarshal clk w
          record).2.services.items w.services.nextID = some stored ∧
        stored.TotalCost = stored.LaborCost + stored.PartsCost ∧
        stored.LaborCost = record.LaborCost ∧
        stored.Status = "completed") ∧
    (((memServiceRecordService rclk del).UpdateServiceRecord unmarshal w record).1 = none →
      ∃ stored, mapGet ((memServiceRecordService rclk del).UpdateServiceRecord unmarshal w
          record).2.services.items record.ID = some stored ∧
        stored.TotalCost = stored.LaborCost + stored.PartsCost ∧
        stored.LaborCost = record.LaborCost) := by
  constructor
  · intro hok
    obtain ⟨partsCost, -, hget⟩ :=
      CreateServiceRecord_persisted rclk clk del unmarshal w record hok
    exact ⟨_, hget, rfl, rfl, rfl⟩
  · intro hok
    obtain ⟨partsCost, -, hget⟩ :=
      UpdateServiceRecord_persisted rclk del unmarshal w record hok
    exact ⟨_, hget, rfl, rfl⟩

theorem service_total_cost_invariant_witness :
    (∃ stored, mapGet ((memServiceRecordService exClock exDelete).CreateServiceRecord
        exUnmarshalTwoBolts exClock exPartsWorld exTwoBoltsRecord).2.services.items 1
        = some stored ∧
      stored.TotalCost = stored.LaborCost + stored.PartsCost ∧
      stored.LaborCost = exTwoBoltsRecord.LaborCost ∧ stored.Status = "completed") ∧
    (∃ stored, mapGet ((memServiceRecordService exClock exDelete).UpdateServiceRecord
        exUnmarshalTwoBolts exServiceWorld exTwoBoltsRecord).2.services.items 1 = some stored ∧
      stored.TotalCost = stored.LaborCost + stored.PartsCost ∧
      stored.LaborCost = exTwoBoltsRecord.LaborCost) :=
  ⟨(service_total_cost_invariant exClock exClock exDelete exUnmarshalTwoBolts exPartsWorld
      exTwoBoltsRecord).1 (by decide),
   (service_total_cost_invariant exClock exClock exDelete exUnmarshalTwoBolts exServiceWorld
      exTwoBoltsRecord).2 (by decide)⟩

/-- C17 (no stock adjustment on update): `UpdateServiceRecord`, whatever the record
and its parts-used list, leaves the spare parts and the ledger as they were; it
succeeds exactly when a record is stored under the record's identity and fails
otherwise with the repository's `ErrNotFound`, never because of a part. -/
theorem UpdateServiceRecord_no_stock_adjustment (rclk : Clock)
    (del : World → Int → Except Error World)
    (unmarshal : String → Option (List PartUsage)) (w : World) (record : ServiceRecord) :
    let r := (memServiceRecordService rclk del).UpdateServiceRecord unmarshal w record
    r.2.parts = w.parts ∧ r.2.transactions = w.transactions ∧
    (r.1 = none ↔ (mapGet w.services.items record.ID).isSome) ∧
    (r.1 = none ∨ r = (some .ErrNotFound, w)) := by
  intro r
  obtain ⟨partsCost, -, heq⟩ := UpdateServiceRecord_eq rclk del unmarshal w record
  simp only [r, heq]
  cases hg : mapGet w.services.items record.ID <;> simp

theorem UpdateServiceRecord_no_stock_adjustment_witness :
    let r := (memServiceRecordService exClock exDelete).UpdateServiceRecord exUnmarshalUnknown
      exServiceWorld exUnknownPartRecord
    exUnmarshalUnknown exUnknownPartRecord.PartsUsed =
      some [{ PartID := 99, Name := "gasket", Quantity := 1000, UnitPrice := 3 }] ∧
    mapGet exServiceWorld.parts.items 99 = none ∧
    r.1 = none ∧ r.2.parts = exServiceWorld.parts ∧
    r.2.transactions = exServiceWorld.transactions := by
  have h := UpdateServiceRecord_no_stock_adjustment exClock exDelete exUnmarshalUnknown
    exServiceWorld exUnknownPartRecord
  exact ⟨rfl, by decide, h.2.2.1.2 (by decide), h.1, h.2.1⟩

/-- C18 (same cost rule): when `CreateServiceRecord` succeeds on a record and
`UpdateServiceRecord` succeeds on a record with the same labor cost, supplied parts
cost and parts-used text, the two stored records have the same parts cost and the same
total cost. -/
theorem create_update_same_cost_rule (rclk clk : Clock)
    (del : World → Int → Except Error World)
    (unmarshal : String → Option (List PartUsage)) (w v : World)
    (record record' : ServiceRecord)
    (hl : record'.LaborCost = record.LaborCost)
    (hc : record'.PartsCost = record.PartsCost)
    (hu : record'.PartsUsed = record.PartsUsed)
    (hcreate : ((memServiceRecordService rclk del).CreateServiceRecord unmarshal clk w
      record).1 = none)
    (hupdate : ((memServiceRecordService rclk del).UpdateServiceRecord unmarshal v
      record').1 = none) :
    ∃ created updated,
      mapGet ((memServiceRecordService rclk del).CreateServiceRecord unmarshal clk w
        record).2.services.items w.services.nextID = some created ∧
      mapGet ((memServiceRecordService rclk del).UpdateServiceRecord unmarshal v
        record').2.services.items record'.ID = some updated ∧
      created.PartsCost = updated.PartsCost ∧ created.TotalCost = updated.TotalCost := by
  obtain ⟨pc, hrule, hget⟩ :=
    CreateServiceRecord_persisted rclk clk del unmarshal w record hcreate
  obtain ⟨pc', hrule', hget'⟩ :=
    UpdateServiceRecord_persisted rclk del unmarshal v record' hupdate
  have hpc : pc = pc' := by
    rw [hu, hc] at hrule'
    rcases hrule with ⟨h1, h2⟩ | ⟨l, h1, h2, h3⟩
    · rcases hrule' with ⟨-, h2'⟩ | ⟨l', h1', h2', -⟩
      · rw [h2, h2']
      · rcases h1 with h1 | h1
        · exact absurd h1 h1'
        · rw [h1] at h2'; simp at h2'
    · rcases hrule' with ⟨h1', -⟩ | ⟨l', -, h2', h3'⟩
      · rcases h1' with h1' | h1'
        · exact absurd h1' h1
        · rw [h1'] at h2; simp at h2
      · rw [h2] at h2'
        cases h2'
        rw [h3, h3']
  refine ⟨_, _, hget, hget', ?_, ?_⟩
  · exact hpc
  · simp only [hpc, hl]

theorem create_update_same_cost_rule_witness :
    ∃ created updated,
      mapGet ((memServiceRecordService exClock exDelete).CreateServiceRecord exUnmarshalTwoBolts
        exClock exPartsWorld exTwoBoltsRecord).2.services.items 1 = some created ∧
      mapGet ((memServiceRecordService exClock exDelete).UpdateServiceRecord exUnmarshalTwoBolts
        exServiceWorld exTwoBoltsRecord).2.services.items 1 = some updated ∧
      created.PartsCost = updated.PartsCost ∧ created.TotalCost = updated.TotalCost :=
  create_update_same_cost_rule exClock exClock exDelete exUnmarshalTwoBolts exPartsWorld
    exServiceWorld exTwoBoltsRecord exTwoBoltsRecord rfl rfl rfl (by decide) (by decide)

/-! ## Part errors at service creation -/

/-- C19 as stated fails: three nuts are asked of a stock of one. `CreateServiceRecord`
fails with the error "insufficient stock for part: nut", which is not the
`ErrInsufficientStock` that `SellPart` and `UpdateStock` return for the same part. -/
theorem CreateServiceRecord_error_is_not_ErrInsufficientStock :
    exUnmarshal exRecord.PartsUsed =
      some [{ PartID := 1, Name := "bolt", Quantity := 2, UnitPrice := 10 },
            { PartID := 2, Name := "nut", Quantity := 3, UnitPrice := 2 }] ∧
    (mapGet exPartsWorld.parts.items 2).map SparePart.StockQuantity = some 1 ∧
    ((memServiceRecordService exClock exDelete).CreateServiceRecord exUnmarshal exClock
      exPartsWorld exRecord).1 = some (.new "insufficient stock for part: nut") ∧
    ((memServiceRecordService exClock exDelete).CreateServiceRecord exUnmarshal exClock
      exPartsWorld exRecord).1 ≠ some .ErrInsufficientStock ∧
    ((memSparePartService exClock).SellPart exClock exPartsWorld 2 3 "farmer").1
      = some .ErrInsufficientStock ∧
    ((memSparePartService exClock).UpdateStock exPartsWorld 2 (-3)).1
      = some .ErrInsufficientStock := by
  decide

/-- C19, amended: when the loop of `CreateServiceRecord` has consumed the entries
`pre` and reaches the entry `e`, the call fails with the error "part not found: "
followed by the entry's name if no part is stored under the entry's part id, and with
the error "insufficient stock for part: " followed by the entry's name if the part's
stock is below the entry's quantity; that error is a value of its own, not
`ErrInsufficientStock`. -/
theorem CreateServiceRecord_part_errors (rclk clk : Clock)
    (del : World → Int → Except Error World)
    (unmarshal : String → Option (List PartUsage)) (w : World) (record : ServiceRecord)
    (pre post : List PartUsage) (e : PartUsage) (c : Money) (w1 : World)
    (hv : record.CustomerName ≠ "" ∧ record.Description ≠ "")
    (hp : record.PartsUsed ≠ "")
    (hu : unmarshal record.PartsUsed = some (pre ++ e :: post))
    (hpre : (memServiceRecordService rclk del).consumeParts w 0 pre = (.ok c, w1)) :
    (mapGet w1.parts.items e.PartID = none →
      ((memServiceRecordService rclk del).CreateServiceRecord unmarshal clk w record).1
        = some (.new ("part not found: " ++ e.Name))) ∧
    (∀ part, mapGet w1.parts.items e.PartID = some part → part.StockQuantity < e.Quantity →
      ((memServiceRecordService rclk del).CreateServiceRecord unmarshal clk w record).1
        = some (.new ("insufficient stock for part: " ++ e.Name)) ∧
      ((memServiceRecordService rclk del).CreateServiceRecord unmarshal clk w record).1
        ≠ some .ErrInsufficientStock) := by
  constructor
  · intro hget
    have hloop : (memServiceRecordService rclk del).consumeParts w 0 (pre ++ e :: post) =
        (.error (.new ("part not found: " ++ e.Name)), w1) := by
      rw [consumeParts_append, hpre]
      simp [ServiceRecordService.consumeParts, memServiceRecordService,
        MemorySparePartRepository, hget]
    rw [CreateServiceRecord_loop_error rclk clk del unmarshal w record _ _ _ hv hp hu hloop]
  · intro part hget hq
    have hloop : (memServiceRecordService rclk del).consumeParts w 0 (pre ++ e :: post) =
        (.error (.new ("insufficient stock for part: " ++ e.Name)), w1) := by
      rw [consumeParts_append, hpre]
      simp [ServiceRecordService.consumeParts, memServiceRecordService,
        MemorySparePartRepository, hget, hq]
    rw [CreateServiceRecord_loop_error rclk clk del unmarshal w record _ _ _ hv hp hu hloop]
    exact ⟨rfl, by simp⟩

theorem CreateServiceRecord_part_errors_witness :
    ((memServiceRecordService exClock exDelete).CreateServiceRecord exUnmarshalUnknown exClock
      exPartsWorld exUnknownPartRecord).1 = some (.new "part not found: gasket") ∧
    ((memServiceRecordService exClock exDelete).CreateServiceRecord exUnmarshal exClock
      exPartsWorld exRecord).1 = some (.new "insufficient stock for part: nut") := by
  have h1 := (CreateServiceRecord_part_errors exClock exClock exDelete exUnmarshalUnknown
    exPartsWorld exUnknownPartRecord [] []
    { PartID := 99, Name := "gasket", Quantity := 1000, UnitPrice := 3 } 0 exPartsWorld
    (by decide) (by decide) rfl rfl).1 (by decide)
  have h2 := ((CreateServiceRecord_part_errors exClock exClock exDelete exUnmarshal
    exPartsWorld exRecord [{ PartID := 1, Name := "bolt", Quantity := 2, UnitPrice := 10 }] []
    { PartID := 2, Name := "nut", Quantity := 3, UnitPrice := 2 }
    ((0 : Money) + 10 * ((2 : Int) : Money))
    { exPartsWorld with parts := { exPartsWorld.parts with items :=
        [{ exBolt with StockQuantity := 3, UpdatedAt := exClock.stamp }, exNut] } }
    (by decide) (by decide) (by decide) (by rfl)).2 exNut (by decide) (by decide)).1
  exact ⟨h1, h2⟩

/-! ## Profit and loss -/

/-- C20 (profit/loss arithmetic): over any repositories, a result of `GetProfitLoss`
holds the totals the transaction repository returns for sales and purchases, gross
profit = total sales - total purchases, net profit = gross profit - total expenses =
total sales - total purchases - total expenses, and total expenses = the sum of the four
values of `GetExpenseSummary` for the same range. -/
theorem GetProfitLoss_arithmetic (s : ExpenseService) (w : World) (startDate endDate : String)
    (result : FloatMap) (h : s.GetProfitLoss w startDate endDate = .ok result) :
    ∃ totalSales totalPurchases totalExpenses grossProfit netProfit salary rent bill misc : Money,
      result.get "total_sales" = some totalSales ∧
      result.get "total_purchases" = some totalPurchases ∧
      result.get "total_expenses" = some totalExpenses ∧
      result.get "gross_profit" = some grossProfit ∧
      result.get "net_profit" = some netProfit ∧
      s.transactionRepo.GetTotalByType w TransactionSale startDate endDate = .ok totalSales ∧
      s.transactionRepo.GetTotalByType w TransactionPurchase startDate endDate
        = .ok totalPurchases ∧
      s.GetExpenseSummary w startDate endDate
        = .ok [("salary", salary), ("rent", rent), ("bill", bill), ("misc", misc)] ∧
      grossProfit = totalSales - totalPurchases ∧
      netProfit = grossProfit - totalExpenses ∧
      netProfit = totalSales - totalPurchases - totalExpenses ∧
      totalExpenses = salary + rent + bill + misc := by
  unfold ExpenseService.GetProfitLoss at h
  cases hs : s.transactionRepo.GetTotalByType w TransactionSale startDate endDate with
  | error e => rw [hs] at h; simp at h
  | ok totalSales =>
    rw [hs] at h
    cases hpu : s.transactionRepo.GetTotalByType w TransactionPurchase startDate endDate with
    | error e => rw [hpu] at h; simp at h
    | ok totalPurchases =>
      rw [hpu] at h
      cases he : s.GetExpenseSummary w startDate endDate with
      | error e => rw [he] at h; simp at h
      | ok expenses =>
        rw [he] at h
        obtain ⟨salary, rent, bill, misc, -, -, -, -, hsum⟩ :=
          GetExpenseSummary_ok s w startDate endDate expenses he
        subst hsum
        simp only [Except.ok.injEq] at h
        refine ⟨totalSales, totalPurchases, salary + rent + bill + misc,
          totalSales - totalPurchases,
          totalSales - totalPurchases - (salary + rent + bill + misc),
          salary, rent, bill, misc, ?_, ?_, ?_, ?_, ?_, rfl, rfl, rfl, rfl, rfl, rfl, rfl⟩
        all_goals
          rw [← h]
          simp [FloatMap.set, FloatMap.get, List.find?]

theorem GetProfitLoss_arithmetic_witness :
    ∃ result, (memExpenseService exClock).GetProfitLoss exReportWorld "" ""
        = .ok result ∧
      result.get "total_sales" = some 15000 ∧
      result.get "total_purchases" = some 10000 ∧
      result.get "total_expenses" = some 500 ∧
      result.get "gross_profit" = some 5000 ∧
      result.get "net_profit" = some 4500 := by
  have hS : (memExpenseService exClock).transactionRepo.GetTotalByType exReportWorld
      TransactionSale "" "" = .ok ((0 : Money) + 15000) := rfl
  have hP : (memExpenseService exClock).transactionRepo.GetTotalByType exReportWorld
      TransactionPurchase "" "" = .ok ((0 : Money) + 10000) := rfl
  have hE : (memExpenseService exClock).GetExpenseSummary exReportWorld ""
      "" = .ok [("salary", (0 : Money) + 300), ("rent", (0 : Money) + 200),
        ("bill", 0), ("misc", 0)] := rfl
  have hR : ∃ result, (memExpenseService exClock).GetProfitLoss exReportWorld ""
      "" = .ok result := by
    unfold ExpenseService.GetProfitLoss
    rw [hS, hP, hE]
    exact ⟨_, rfl⟩
  obtain ⟨result, hres⟩ := hR
  obtain ⟨ts, tp, te, g, n, sa, re, bi, mi, h1, h2, h3, h4, h5, h6, h7, h8, h9, h10, -, h12⟩ :=
    GetProfitLoss_arithmetic (memExpenseService exClock) exReportWorld ""
      "" result hres
  rw [hS] at h6
  rw [hP] at h7
  rw [hE] at h8
  simp only [Except.ok.injEq] at h6 h7 h8
  simp only [List.cons.injEq, Prod.mk.injEq, true_and, and_true] at h8
  obtain ⟨hsa, hre, hbi, hmi⟩ := h8
  subst h6 h7 hsa hre hbi hmi
  refine ⟨result, hres, ?_, ?_, ?_, ?_, ?_⟩
  · rw [h1]; norm_num
  · rw [h2]; norm_num
  · rw [h3, h12]; norm_num
  · rw [h4, h9]; norm_num
  · rw [h5, h10, h9, h12]; norm_num

/-! ## Lemmas on the reports, the expense calls and tractor deletion -/

theorem foldl_add_eq_sum {α : Type} (f : α → Money) (l : List α) (c : Money) :
    l.foldl (fun total x => total + f x) c = c + (l.map f).sum := by
  induction l generalizing c with
  | nil => simp
  | cons a t ih =>
    simp only [List.foldl_cons, List.map_cons, List.sum_cons]
    rw [ih]
    ring

/-- `GetExpenseSummary` over the in-memory expense repository. -/
theorem GetExpenseSummary_mem (clk : Clock) (w : World) (startDate endDate : String) :
    (memExpenseService clk).GetExpenseSummary w startDate endDate =
      .ok [("salary", ((w.expenses.items.filter (fun e =>
              e.Category == ExpenseSalary && inRange e.Date startDate endDate)).map
                Expense.Amount).sum),
           ("rent", ((w.expenses.items.filter (fun e =>
              e.Category == ExpenseRent && inRange e.Date startDate endDate)).map
                Expense.Amount).sum),
           ("bill", ((w.expenses.items.filter (fun e =>
              e.Category == ExpenseBill && inRange e.Date startDate endDate)).map
                Expense.Amount).sum),
           ("misc", ((w.expenses.items.filter (fun e =>
              e.Category == ExpenseMisc && inRange e.Date startDate endDate)).map
                Expense.Amount).sum)] := by
  simp only [ExpenseService.GetExpenseSummary, ExpenseService.summaryLoop, memExpenseService,
    MemoryExpenseRepository, foldl_add_eq_sum, zero_add]
  simp [FloatMap.set, ExpenseSalary, ExpenseRent, ExpenseBill, ExpenseMisc]

/-- The two ledger totals of `GetProfitLoss` over the in-memory repositories. -/
theorem GetProfitLoss_mem (clk : Clock) (w : World) (startDate endDate : String) :
    ∃ result,
      (memExpenseService clk).GetProfitLoss w startDate endDate = .ok result ∧
      result.get "total_sales" =
        some ((w.transactions.items.filter (fun t =>
          t.Type_ == TransactionSale && inRange t.Date startDate endDate)).map
            Transaction.Amount).sum ∧
      result.get "total_purchases" =
        some ((w.transactions.items.filter (fun t =>
          t.Type_ == TransactionPurchase && inRange t.Date startDate endDate)).map
            Transaction.Amount).sum := by
  unfold ExpenseService.GetProfitLoss
  rw [GetExpenseSummary_mem]
  simp only [memExpenseService, MemoryTransactionRepository, foldl_add_eq_sum, zero_add]
  refine ⟨_, rfl, ?_, ?_⟩
  · simp [FloatMap.set, FloatMap.get, List.find?]
  · simp [FloatMap.set, FloatMap.get, List.find?]

theorem inRange_iff (d startDate endDate : String) :
    inRange d startDate endDate = true ↔
      (startDate = "" ∨ startDate ≤ d) ∧ (endDate = "" ∨ d ≤ endDate) := by
  simp [inRange]

theorem mem_mapDelete {α : Type} [Keyed α] {m : List α} {k : Int} {y : α}
    (h : y ∈ mapDelete m k) : y ∈ m ∧ Keyed.key y ≠ k := by
  unfold mapDelete at h
  rw [List.mem_filter] at h
  exact ⟨h.1, by simpa using h.2⟩

/-- `AddExpense`, `DeleteExpense` and an `UpdateExpense` with a positive amount keep
every stored amount positive. -/
theorem ExpenseCall_run_keeps_amounts_positive (rclk clk : Clock) (w : World)
    (call : ExpenseCall)
    (hcall : ∀ expense, call = .UpdateExpense expense → 0 < expense.Amount)
    (hpos : ∀ x ∈ w.expenses.items, 0 < x.Amount) :
    ∀ x ∈ (call.run rclk clk w).2.expenses.items, 0 < x.Amount := by
  cases call with
  | AddExpense expense userID =>
    simp only [ExpenseCall.run, ExpenseService.AddExpense, memExpenseService,
      MemoryExpenseRepository]
    by_cases ha : expense.Amount ≤ 0
    · simpa [ha] using hpos
    · simp only [if_neg ha]
      intro x hx
      rcases mem_mapSet hx with h | h
      · rw [h]
        split <;> exact not_le.mp ha
      · exact hpos x h
  | UpdateExpense expense =>
    have ha := hcall expense rfl
    simp only [ExpenseCall.run, ExpenseService.UpdateExpense, memExpenseService,
      MemoryExpenseRepository]
    cases hg : mapGet w.expenses.items expense.ID with
    | none => simpa using hpos
    | some old =>
      intro x hx
      rcases mem_mapSet hx with h | h
      · rw [h]; exact ha
      · exact hpos x h
  | DeleteExpense id =>
    simp only [ExpenseCall.run, ExpenseService.DeleteExpense, memExpenseService,
      MemoryExpenseRepository]
    cases hg : mapGet w.expenses.items id with
    | none => simpa using hpos
    | some old =>
      intro x hx
      exact hpos x (mem_mapDelete hx).1

/-- A sequence of expense calls in which every `UpdateExpense` carries a positive amount
keeps every stored amount positive. -/
theorem ExpenseCall_runAll_keeps_amounts_positive (rclk clk : Clock)
    (calls : List ExpenseCall) (w : World)
    (hcalls : ∀ expense, ExpenseCall.UpdateExpense expense ∈ calls → 0 < expense.Amount)
    (hpos : ∀ x ∈ w.expenses.items, 0 < x.Amount) :
    ∀ x ∈ (ExpenseCall.runAll rclk clk w calls).expenses.items, 0 < x.Amount := by
  induction calls generalizing w with
  | nil => simpa [ExpenseCall.runAll] using hpos
  | cons call rest ih =>
    have hstep := ExpenseCall_run_keeps_amounts_positive rclk clk w call
      (fun expense h => hcalls expense (by rw [h]; exact List.mem_cons_self _ _)) hpos
    have := ih (call.run rclk clk w).2
      (fun expense h => hcalls expense (List.mem_cons_of_mem _ h)) hstep
    simpa [ExpenseCall.runAll] using this

/-- The three statements of `PostgresTractorRepository.Delete` do the referential
cleanup: the tractor is gone, no tractor and no service record refers to it, every
other tractor is kept, changed at most in the cleared reference, and no service record
is removed. -/
theorem PostgresTractorRepository_Delete_cleanup (w : World) (id : Int) :
    ∃ w1, PostgresTractorRepository_Delete w id = .ok w1 ∧
      mapGet w1.tractors.items id = none ∧
      (∀ t ∈ w1.tractors.items, t.ExchangeTractorID ≠ some id) ∧
      (∀ svc ∈ w1.services.items, svc.TractorID ≠ some id) ∧
      w1.tractors.items =
        (w.tractors.items.filter (fun t => t.ID != id)).map (fun t =>
          if t.ExchangeTractorID = some id then { t with ExchangeTractorID := none } else t) ∧
      w1.services.items.length = w.services.items.length := by
  refine ⟨_, rfl, ?_, ?_, ?_, ?_, ?_⟩
  · rw [mapGet_eq_none]
    intro t ht
    simp only [List.mem_filter, List.mem_map] at ht
    obtain ⟨_, hne⟩ := ht
    simpa using hne
  · intro t ht
    simp only [List.mem_filter, List.mem_map] at ht
    obtain ⟨⟨t0, _, rfl⟩, _⟩ := ht
    split
    · simp
    · assumption
  · intro svc hsvc
    simp only [List.mem_map] at hsvc
    obtain ⟨s0, _, rfl⟩ := hsvc
    split
    · simp
    · assumption
  · simp only [List.filter_map]
    congr 1
    apply List.filter_congr
    intro t _
    simp only [Function.comp]
    split <;> rfl
  · simp

/-- Among the expenses, only those of the four summary categories are read for a
category of the summary. -/
theorem filter_summary_category (l : List Expense) (category : ExpenseCategory)
    (p : Expense → Bool)
    (hc : category = "salary" ∨ category = "rent" ∨ category = "bill" ∨ category = "misc") :
    l.filter (fun e => e.Category == category && p e) =
      (l.filter (fun e => decide (e.Category = "salary" ∨ e.Category = "rent" ∨
          e.Category = "bill" ∨ e.Category = "misc"))).filter
        (fun e => e.Category == category && p e) := by
  rw [List.filter_filter]
  apply List.filter_congr
  intro e _
  by_cases h : e.Category = category
  · subst h
    simp [hc]
  · simp [h]

/-- Two expense stores with the same expenses of the four summary categories have the
same summary. -/
theorem GetExpenseSummary_other_categories (clk : Clock) (w w1 : World)
    (startDate endDate : String)
    (h : w1.expenses.items.filter (fun e => decide (e.Category = "salary" ∨
          e.Category = "rent" ∨ e.Category = "bill" ∨ e.Category = "misc")) =
        w.expenses.items.filter (fun e => decide (e.Category = "salary" ∨
          e.Category = "rent" ∨ e.Category = "bill" ∨ e.Category = "misc"))) :
    (memExpenseService clk).GetExpenseSummary w1 startDate endDate =
      (memExpenseService clk).GetExpenseSummary w startDate endDate := by
  rw [GetExpenseSummary_mem, GetExpenseSummary_mem]
  rw [filter_summary_category w1.expenses.items ExpenseSalary _ (Or.inl rfl),
    filter_summary_category w1.expenses.items ExpenseRent _ (Or.inr (Or.inl rfl)),
    filter_summary_category w1.expenses.items ExpenseBill _ (Or.inr (Or.inr (Or.inl rfl))),
    filter_summary_category w1.expenses.items ExpenseMisc _ (Or.inr (Or.inr (Or.inr rfl))),
    filter_summary_category w.expenses.items ExpenseSalary _ (Or.inl rfl),
    filter_summary_category w.expenses.items ExpenseRent _ (Or.inr (Or.inl rfl)),
    filter_summary_category w.expenses.items ExpenseBill _ (Or.inr (Or.inr (Or.inl rfl))),
    filter_summary_category w.expenses.items ExpenseMisc _ (Or.inr (Or.inr (Or.inr rfl))), h]

/-! ## Reports and listings -/

/-- C21 (report totals come from the ledger): over the in-memory repositories, for
every state and date range `GetProfitLoss` succeeds, its `total_sales` is the sum of
the amounts of the entries `GetTransactions` returns for type sale, no entity filter
and the same range, and its `total_purchases` is the same sum for type purchase. In
any other state with the same ledger, whatever its tractors, parts, service records
and expenses, both totals are the same. -/
theorem report_totals_from_ledger (clk : Clock) (w : World) (startDate endDate : String) :
    ∃ result sales purchases,
      (memExpenseService clk).GetProfitLoss w startDate endDate = .ok result ∧
      (memExpenseService clk).GetTransactions w (some TransactionSale) "" startDate endDate
        = .ok sales ∧
      (memExpenseService clk).GetTransactions w (some TransactionPurchase) "" startDate endDate
        = .ok purchases ∧
      result.get "total_sales" = some (sales.map Transaction.Amount).sum ∧
      result.get "total_purchases" = some (purchases.map Transaction.Amount).sum ∧
      ∀ w' : World, w'.transactions = w.transactions →
        ∃ result', (memExpenseService clk).GetProfitLoss w' startDate endDate = .ok result' ∧
          result'.get "total_sales" = result.get "total_sales" ∧
          result'.get "total_purchases" = result.get "total_purchases" := by
  obtain ⟨result, hres, hs, hp⟩ := GetProfitLoss_mem clk w startDate endDate
  refine ⟨result,
    w.transactions.items.filter (fun t =>
      t.Type_ == TransactionSale && inRange t.Date startDate endDate),
    w.transactions.items.filter (fun t =>
      t.Type_ == TransactionPurchase && inRange t.Date startDate endDate),
    hres, ?_, ?_, hs, hp, ?_⟩
  · simp [ExpenseService.GetTransactions, memExpenseService, MemoryTransactionRepository]
  · simp [ExpenseService.GetTransactions, memExpenseService, MemoryTransactionRepository]
  · intro w' hw'
    obtain ⟨result', hres', hs', hp'⟩ := GetProfitLoss_mem clk w' startDate endDate
    refine ⟨result', hres', ?_, ?_⟩
    · rw [hs', hs, hw']
    · rw [hp', hp, hw']

theorem report_totals_from_ledger_witness :
    ∃ result sales purchases,
      (memExpenseService exClock).GetProfitLoss exReportWorld "" "" = .ok result ∧
      (memExpenseService exClock).GetTransactions exReportWorld (some TransactionSale) ""
        "" "" = .ok sales ∧
      (memExpenseService exClock).GetTransactions exReportWorld (some TransactionPurchase) ""
        "" "" = .ok purchases ∧
      result.get "total_sales" = some (sales.map Transaction.Amount).sum ∧
      result.get "total_purchases" = some (purchases.map Transaction.Amount).sum ∧
      ∃ result1,
        (memExpenseService exClock).GetProfitLoss
          { exReportWorld with parts := exPartsWorld.parts,
                               tractors := exTractorWorld.tractors } "" "" = .ok result1 ∧
        result1.get "total_sales" = result.get "total_sales" ∧
        result1.get "total_purchases" = result.get "total_purchases" := by
  obtain ⟨result, sales, purchases, h1, h2, h3, h4, h5, h6⟩ :=
    report_totals_from_ledger exClock exReportWorld "" ""
  exact ⟨result, sales, purchases, h1, h2, h3, h4, h5,
    h6 { exReportWorld with parts := exPartsWorld.parts,
                            tractors := exTractorWorld.tractors } rfl⟩

/-- C22: over the in-memory repositories, `GetExpenseSummary` returns the map with
exactly the four keys salary, rent, bill and misc; the value of a key is the sum of
the amounts of the expenses of that category whose date `d` has `start ≤ d ≤ end` in
the order of strings, an empty bound not bounding; the value is 0 when no expense of
the category is in the range; and two expense stores that hold the same expenses of
the four categories have the same summary, so that an expense of another category
adds to no key. -/
theorem GetExpenseSummary_spec (clk : Clock) (w : World) (startDate endDate : String) :
    let total : ExpenseCategory → Money := fun category =>
      ((w.expenses.items.filter (fun e => decide
          (e.Category = category ∧ (startDate = "" ∨ startDate ≤ e.Date) ∧
            (endDate = "" ∨ e.Date ≤ endDate)))).map Expense.Amount).sum
    (memExpenseService clk).GetExpenseSummary w startDate endDate =
      .ok [("salary", total "salary"), ("rent", total "rent"), ("bill", total "bill"),
           ("misc", total "misc")] ∧
    (∀ category : ExpenseCategory,
      (∀ e ∈ w.expenses.items, e.Category = category →
        ¬ ((startDate = "" ∨ startDate ≤ e.Date) ∧ (endDate = "" ∨ e.Date ≤ endDate))) →
      total category = 0) ∧
    (∀ w1 : World,
      w1.expenses.items.filter (fun e => decide (e.Category = "salary" ∨
          e.Category = "rent" ∨ e.Category = "bill" ∨ e.Category = "misc")) =
        w.expenses.items.filter (fun e => decide (e.Category = "salary" ∨
          e.Category = "rent" ∨ e.Category = "bill" ∨ e.Category = "misc")) →
      (memExpenseService clk).GetExpenseSummary w1 startDate endDate =
        (memExpenseService clk).GetExpenseSummary w startDate endDate) := by
  intro total
  have hfilter : ∀ category : ExpenseCategory,
      w.expenses.items.filter (fun e => e.Category == category &&
          inRange e.Date startDate endDate) =
        w.expenses.items.filter (fun e => decide
          (e.Category = category ∧ (startDate = "" ∨ startDate ≤ e.Date) ∧
            (endDate = "" ∨ e.Date ≤ endDate))) := by
    intro category
    apply List.filter_congr
    intro e _
    rw [Bool.eq_iff_iff]
    simp [inRange_iff]
  refine ⟨?_, ?_, fun w1 h => GetExpenseSummary_other_categories clk w w1 startDate endDate h⟩
  · rw [GetExpenseSummary_mem]
    simp only [hfilter, total, ExpenseSalary, ExpenseRent, ExpenseBill, ExpenseMisc]
  · intro category hnone
    have : w.expenses.items.filter (fun e => decide
        (e.Category = category ∧ (startDate = "" ∨ startDate ≤ e.Date) ∧
          (endDate = "" ∨ e.Date ≤ endDate))) = [] := by
      rw [List.filter_eq_nil_iff]
      intro e he
      simp only [decide_eq_true_eq, not_and]
      intro hc
      exact fun h1 h2 => hnone e he hc ⟨h1, h2⟩
    simp only [total, this, List.map_nil, List.sum_nil]

theorem GetExpenseSummary_spec_witness :
    (memExpenseService exClock).GetExpenseSummary exReportWorld "" "" =
      .ok [("salary", 300), ("rent", 200), ("bill", 0), ("misc", 0)] ∧
    (memExpenseService exClock).GetExpenseSummary
        { exReportWorld with expenses :=
            { exReportWorld.expenses with items := exReportWorld.expenses.items ++
                [{ exRentExpense with ID := 3, Category := "fuel" }] } } "" "" =
      (memExpenseService exClock).GetExpenseSummary exReportWorld "" "" := by
  obtain ⟨hsum, hzero, hother⟩ := GetExpenseSummary_spec exClock exReportWorld "" ""
  have hbill := hzero "bill" (by simp [exReportWorld, ExpenseSalary, ExpenseRent])
  have hmisc := hzero "misc" (by simp [exReportWorld, ExpenseSalary, ExpenseRent])
  refine ⟨?_, hother _ (by simp [exReportWorld, ExpenseSalary, ExpenseRent])⟩
  rw [hsum, hbill, hmisc]
  simp [exReportWorld, ExpenseSalary, ExpenseRent, List.filter]

/-- C23: whatever the repositories, when the listing of the transaction repository
(for the type and the date range) succeeds, `GetTransactions` returns that listing
unchanged for an empty entity type, and otherwise its entries whose entity type is the
supplied one, in the order of the listing; when the listing fails, `GetTransactions`
fails with the same error. -/
theorem GetTransactions_spec (s : ExpenseService) (w : World)
    (txType : Option TransactionType) (entityType startDate endDate : String) :
    (∀ listing, s.transactionRepo.List w txType startDate endDate = .ok listing →
      s.GetTransactions w txType entityType startDate endDate =
        .ok (if entityType = "" then listing
             else listing.filter (fun tx => decide (tx.EntityType = entityType)))) ∧
    (∀ e, s.transactionRepo.List w txType startDate endDate = .error e →
      s.GetTransactions w txType entityType startDate endDate = .error e) := by
  constructor
  · intro listing h
    unfold ExpenseService.GetTransactions
    rw [h]
    by_cases he : entityType = ""
    · simp [he]
    · simp only [ne_eq, he, not_false_eq_true, if_true, if_false]
      rfl
  · intro e h
    unfold ExpenseService.GetTransactions
    rw [h]

theorem GetTransactions_spec_witness :
    (memExpenseService exClock).GetTransactions exReportWorld (some TransactionSale)
        "tractor" "" "" =
      .ok (if "tractor" = "" then
             exReportWorld.transactions.items.filter (fun t =>
               t.Type_ == TransactionSale && inRange t.Date "" "")
           else (exReportWorld.transactions.items.filter (fun t =>
               t.Type_ == TransactionSale && inRange t.Date "" "")).filter
                 (fun tx => decide (tx.EntityType = "tractor"))) ∧
    ({ memExpenseService exClock with
        transactionRepo := { MemoryTransactionRepository exClock with
          List := fun _ _ _ _ => .error .ErrNotFound } } : ExpenseService).GetTransactions
        exReportWorld none "" "" "" = .error .ErrNotFound :=
  ⟨(GetTransactions_spec (memExpenseService exClock) exReportWorld (some TransactionSale)
      "tractor" "" "").1 _ rfl,
   (GetTransactions_spec _ exReportWorld none "" "" "").2 _ rfl⟩

/-- C24: over the in-memory repositories `GetLowStockParts` succeeds, and a spare part
is in its result exactly when it is stored and its stock quantity is at most its
minimum stock (equality included). When no two stored parts share an id, as in a Go
map, each listed part is listed exactly once and no two listed parts share an id. -/
theorem GetLowStockParts_spec (clk : Clock) (w : World)
    (hnd : (w.parts.items.map SparePart.ID).Nodup) :
    ∃ listed, (memSparePartService clk).GetLowStockParts w = .ok listed ∧
      (∀ p, p ∈ listed ↔ p ∈ w.parts.items ∧ p.StockQuantity ≤ p.MinStock) ∧
      (∀ p ∈ listed, listed.count p = 1) ∧
      (listed.map SparePart.ID).Nodup := by
  refine ⟨w.parts.items.filter (fun p => decide (p.StockQuantity ≤ p.MinStock)), rfl, ?_, ?_, ?_⟩
  · intro p
    simp [List.mem_filter]
  · intro p hp
    have hnd' : w.parts.items.Nodup := List.Nodup.of_map _ hnd
    exact List.count_eq_one_of_mem (hnd'.filter _) hp
  · exact List.Nodup.sublist (List.Sublist.map _ (List.filter_sublist _)) hnd

theorem GetLowStockParts_spec_witness :
    ∃ listed, (memSparePartService exClock).GetLowStockParts exPartsWorld = .ok listed ∧
      exBolt ∈ listed ∧ exNut ∉ listed ∧ listed.count exBolt = 1 := by
  obtain ⟨listed, h, hiff, hcount, _⟩ :=
    GetLowStockParts_spec exClock exPartsWorld (by decide)
  have hbolt : exBolt ∈ listed := (hiff exBolt).2 ⟨List.mem_cons_self _ _, by decide⟩
  exact ⟨listed, h, hbolt, fun hnut => absurd ((hiff exNut).1 hnut).2 (by decide),
    hcount exBolt hbolt⟩

/-! ## Expense amounts and tractor deletion -/

/-- C25 (expense amounts stay positive), evaluated on a failing sequence: from the
empty stores, `AddExpense` of an expense of 100 succeeds, the following
`UpdateExpense` of expense 1 with the amount -5 succeeds as well, since
`UpdateExpense` does not look at the amount, and the only stored expense then has the
amount -5. -/
theorem UpdateExpense_stores_nonpositive_amount :
    (ExpenseCall.run exClock exClock exEmptyWorld (.AddExpense exRentExpense 1)).1 = none ∧
    (ExpenseCall.run exClock exClock
      (ExpenseCall.runAll exClock exClock exEmptyWorld [.AddExpense exRentExpense 1])
      (.UpdateExpense { exRentExpense with ID := 1, Amount := -5 })).1 = none ∧
    (ExpenseCall.runAll exClock exClock exEmptyWorld
      [.AddExpense exRentExpense 1,
       .UpdateExpense { exRentExpense with ID := 1, Amount := -5 }]).expenses.items =
      [{ exRentExpense with ID := 1, Amount := -5, Date := exClock.date }] ∧
    ¬ ∀ x ∈ (ExpenseCall.runAll exClock exClock exEmptyWorld
      [.AddExpense exRentExpense 1,
       .UpdateExpense { exRentExpense with ID := 1, Amount := -5 }]).expenses.items,
        0 < x.Amount := by
  have hadd : (memExpenseService exClock).AddExpense exClock exEmptyWorld exRentExpense 1 =
      (none, { exEmptyWorld with expenses :=
        { items := [{ exRentExpense with ID := 1, CreatedBy := 1,
                                         CreatedAt := exClock.stamp }],
          nextID := 2 } }) := by
    unfold ExpenseService.AddExpense
    rw [if_neg (by norm_num [exRentExpense])]
    rfl
  have hrun : ExpenseCall.runAll exClock exClock exEmptyWorld
      [.AddExpense exRentExpense 1,
       .UpdateExpense { exRentExpense with ID := 1, Amount := -5 }] =
      { exEmptyWorld with expenses :=
        { items := [{ exRentExpense with ID := 1, Amount := -5, Date := exClock.date }],
          nextID := 2 } } := by
    simp only [ExpenseCall.runAll, List.foldl_cons, List.foldl_nil, ExpenseCall.run, hadd]
    rfl
  refine ⟨?_, ?_, ?_, ?_⟩
  · simp only [ExpenseCall.run, hadd]
  · simp only [ExpenseCall.runAll, List.foldl_cons, List.foldl_nil, ExpenseCall.run, hadd]
    rfl
  · rw [hrun]
  · rw [hrun]
    intro h
    have := h _ (List.mem_singleton.mpr rfl)
    norm_num at this

/-- C26 (referential cleanup on delete), evaluated on a failing call: in a state where
the sold tractor 1 has the exchange reference 2 and a service record refers to tractor
2, `DeleteTractor` of 2 over the in-memory repositories succeeds and removes tractor
2, but tractor 1 still has the exchange reference 2 and the service record still
refers to tractor 2. The statements of `PostgresTractorRepository.Delete` leave no
such reference in the same state. -/
theorem DeleteTractor_leaves_dangling_references :
    mapGet exExchangeWorld.tractors.items 2 = some exTakenIn ∧
    ((memTractorService exClock).DeleteTractor exExchangeWorld 2).1 = none ∧
    mapGet ((memTractorService exClock).DeleteTractor exExchangeWorld 2).2.tractors.items 2
      = none ∧
    (∃ t ∈ ((memTractorService exClock).DeleteTractor exExchangeWorld 2).2.tractors.items,
      t.ExchangeTractorID = some 2) ∧
    (∃ svc ∈ ((memTractorService exClock).DeleteTractor exExchangeWorld 2).2.services.items,
      svc.TractorID = some 2) ∧
    (∃ w1, PostgresTractorRepository_Delete exExchangeWorld 2 = .ok w1 ∧
      (∀ t ∈ w1.tractors.items, t.ExchangeTractorID ≠ some 2) ∧
      (∀ svc ∈ w1.services.items, svc.TractorID ≠ some 2)) := by
  have hdel : (memTractorService exClock).DeleteTractor exExchangeWorld 2 =
      (none, { exExchangeWorld with
        tractors := { items := [exSoldTractor], nextID := 3 } }) := rfl
  rw [hdel]
  refine ⟨rfl, rfl, rfl, ⟨exSoldTractor, List.mem_singleton.mpr rfl, rfl⟩,
    ⟨_, List.mem_singleton.mpr rfl, rfl⟩, ?_⟩
  obtain ⟨w1, h1, _, h2, h3, _⟩ := PostgresTractorRepository_Delete_cleanup exExchangeWorld 2
  exact ⟨w1, h1, h2, h3⟩

/-! ## Sales without rollback and without a lower bound -/

/-- C28 (no rollback): over the in-memory repositories with a `Create` of the tractor
repository that fails on the trade-in, `SellTractor` with the exchange flag and a
trade-in payload on a stored tractor that is not sold returns that failure; the
original tractor stays stored as sold with the sale price, customer and sale date, no
tractor is added and every other tractor is as before, and the ledger has exactly one
more entry, the sale of that tractor. -/
theorem SellTractor_no_rollback (rclk clk : Clock)
    (create : World → Tractor → Except Error (World × Tractor))
    (w : World) (id : Int) (salePrice : Money) (customerName : String)
    (payload t : Tractor) (e : Error)
    (hwf : w.transactions.WF)
    (hget : mapGet w.tractors.items id = some t) (hs : t.Status ≠ StatusSold)
    (hfail : ∀ w1 : World, create w1
      { payload with
          Status := StatusInStock
          PurchaseDate := clk.date
          SupplierName := if payload.SupplierName = "" then customerName
                          else payload.SupplierName } = .error e) :
    let r := (memTractorServiceWith rclk create).SellTractor clk w id salePrice customerName
      true (some payload)
    r.1 = .error e ∧
    mapGet r.2.tractors.items id =
      some { t with Status := StatusSold, SalePrice := salePrice,
                    CustomerName := customerName, SaleDate := clk.date } ∧
    (∀ j, j ≠ id → mapGet r.2.tractors.items j = mapGet w.tractors.items j) ∧
    r.2.tractors.items.length = w.tractors.items.length ∧
    r.2.tractors.nextID = w.tractors.nextID ∧
    r.2.transactions.items = w.transactions.items ++
      [{ ID := w.transactions.nextID
         Type_ := TransactionSale
         EntityType := "tractor"
         EntityID := id
         Amount := salePrice
         PartyName := customerName
         Date := if clk.date = "" then rclk.date else clk.date
         Description := t.Brand ++ " " ++ t.Model ++ " sale" }] := by
  intro r
  have hid : t.ID = id := (mapGet_some hget).1
  have hr : r = (.error e,
      { w with
        tractors := { w.tractors with items :=
          (mapSet w.tractors.items
            { t with Status := StatusSold, SalePrice := salePrice,
                     CustomerName := customerName, SaleDate := clk.date }) }
        transactions :=
          { items :=
              (mapSet w.transactions.items
                { ID := w.transactions.nextID
                  Type_ := TransactionSale
                  EntityType := "tractor"
                  EntityID := t.ID
                  Amount := salePrice
                  PartyName := customerName
                  Date := if clk.date = "" then rclk.date else clk.date
                  Description := t.Brand ++ " " ++ t.Model ++ " sale" })
            nextID := w.transactions.nextID + 1 } }) := by
    have hg : MemoryTractorRepository.GetByID w id = .ok t := by
      simp [MemoryTractorRepository, hget]
    have hu : MemoryTractorRepository.Update w
        { t with Status := StatusSold, SalePrice := salePrice,
                 CustomerName := customerName, SaleDate := clk.date } = _ :=
      MemoryTractorRepository_Update_ok w _ (by simp [hid, hget])
    simp only [r]
    unfold TractorService.SellTractor
    simp only [memTractorServiceWith]
    rw [hg]
    simp only [if_neg hs]
    rw [hu]
    simp [MemoryTransactionRepository, hfail]
  rw [hr]
  refine ⟨rfl, ?_, ?_, ?_, rfl, ?_⟩
  · have := mapGet_mapSet_same w.tractors.items
      { t with Status := StatusSold, SalePrice := salePrice,
               CustomerName := customerName, SaleDate := clk.date }
    simpa [hid] using this
  · intro j hj
    exact mapGet_mapSet_ne w.tractors.items _ j (by simpa [hid] using hj)
  · refine mapSet_length _ _ ?_
    show (mapGet w.tractors.items t.ID).isSome = true
    rw [hid, hget]; rfl
  · rw [← hid]
    exact mapSet_of_WF _ _ hwf rfl

theorem SellTractor_no_rollback_witness :
    let r := (memTractorServiceWith exClock exFailingCreate).SellTractor exClock
      exTractorWorld 1 15000 "buyer" true (some exTradeIn)
    r.1 = .error (.new "connection refused") ∧
    mapGet r.2.tractors.items 1 =
      some { exTractor with Status := StatusSold, SalePrice := 15000,
                            CustomerName := "buyer", SaleDate := exClock.date } ∧
    (∀ j, j ≠ 1 → mapGet r.2.tractors.items j = mapGet exTractorWorld.tractors.items j) ∧
    r.2.tractors.items.length = exTractorWorld.tractors.items.length ∧
    r.2.tractors.nextID = exTractorWorld.tractors.nextID ∧
    r.2.transactions.items = exTractorWorld.transactions.items ++
      [{ ID := exTractorWorld.transactions.nextID
         Type_ := TransactionSale
         EntityType := "tractor"
         EntityID := 1
         Amount := 15000
         PartyName := "buyer"
         Date := if exClock.date = "" then exClock.date else exClock.date
         Description := exTractor.Brand ++ " " ++ exTractor.Model ++ " sale" }] :=
  SellTractor_no_rollback exClock exClock exFailingCreate exTractorWorld 1 15000 "buyer"
    exTradeIn exTractor (.new "connection refused") Store.new_WF rfl (by decide)
    (fun _ => rfl)

/-- C29 as stated fails on two inputs. With stock 5 and the negative `int` quantity
`-9223372036854775808` (at most the stock), `SellPart` succeeds but the subtraction
overflows: the new stock is below the old one and is not the difference. With a part
stored at the unit price -2 and the quantity -1, `SellPart` succeeds and the amount
of the ledger entry is 2, which is neither zero nor negative. -/
theorem SellPart_negative_quantity_counterexample :
    ((-9223372036854775808 : Int) < 0 ∧
      (-9223372036854775808 : Int) ≤ exBolt.StockQuantity ∧
      mapGet exPartsWorld.parts.items 1 = some exBolt ∧
      ((memSparePartService exClock).SellPart exClock exPartsWorld 1
          (-9223372036854775808) "walk-in").1 = none ∧
      ∃ p, mapGet ((memSparePartService exClock).SellPart exClock exPartsWorld 1
          (-9223372036854775808) "walk-in").2.parts.items 1 = some p ∧
        p.StockQuantity < exBolt.StockQuantity ∧
        p.StockQuantity ≠ exBolt.StockQuantity - (-9223372036854775808)) ∧
    ((-1 : Int) ≤ exRebate.StockQuantity ∧
      mapGet exRebateWorld.parts.items 1 = some exRebate ∧
      ((memSparePartService exClock).SellPart exClock exRebateWorld 1 (-1) "walk-in").1 = none ∧
      ∃ tx, ((memSparePartService exClock).SellPart exClock exRebateWorld 1 (-1)
          "walk-in").2.transactions.items = [tx] ∧ tx.Amount = 2 ∧ ¬ tx.Amount ≤ 0) := by
  refine ⟨⟨by decide, by decide, rfl, by decide, ?_⟩, by decide, rfl, ?_, ?_⟩
  · refine ⟨{ exBolt with StockQuantity := -9223372036854775803,
                           UpdatedAt := exClock.stamp }, by decide, by decide, by decide⟩
  · rw [SellPart_found exClock exClock exRebateWorld 1 (-1) "walk-in" exRebate rfl]
    decide
  · rw [SellPart_found exClock exClock exRebateWorld 1 (-1) "walk-in" exRebate rfl]
    refine ⟨_, rfl, ?_, ?_⟩ <;> norm_num [exRebate]

/-- C29, amended: for every stored part and every quantity at most its stock, zero and
negative quantities included, for which the difference of stock and quantity is an
`int`, `SellPart` succeeds and stores the stock old minus quantity, which is above the
old stock for a negative quantity and the old stock for quantity zero; the ledger has
exactly one more entry, a sale of entity type "part" with the amount unit price times
quantity, which is zero for quantity zero and, when the unit price is not negative,
at most zero for a quantity that is not positive. -/
theorem SellPart_no_lower_bound (rclk clk : Clock) (w : World) (partID quantity : Int)
    (customerName : String) (part : SparePart)
    (hwf : w.transactions.WF)
    (hget : mapGet w.parts.items partID = some part)
    (hq : quantity ≤ part.StockQuantity)
    (hrep : isInt (part.StockQuantity - quantity)) :
    let r := (memSparePartService rclk).SellPart clk w partID quantity customerName
    r.1 = none ∧
    (∃ p, mapGet r.2.parts.items partID = some p ∧
      p = { part with StockQuantity := part.StockQuantity - quantity,
                      UpdatedAt := rclk.stamp } ∧
      (quantity < 0 → part.StockQuantity < p.StockQuantity) ∧
      (quantity = 0 → p.StockQuantity = part.StockQuantity)) ∧
    (∃ tx, r.2.transactions.items = w.transactions.items ++ [tx] ∧
      tx = { ID := w.transactions.nextID
             Type_ := TransactionSale
             EntityType := "part"
             EntityID := partID
             Amount := part.UnitPrice * (quantity : Money)
             PartyName := customerName
             Date := if clk.date = "" then rclk.date else clk.date
             Description := part.Name ++ " x" ++ Itoa quantity } ∧
      (quantity = 0 → tx.Amount = 0) ∧
      (0 ≤ part.UnitPrice → quantity ≤ 0 → tx.Amount ≤ 0)) := by
  intro r
  have hfound := SellPart_found rclk clk w partID quantity customerName part hget
  rw [if_neg (not_lt.mpr hq)] at hfound
  have hsub : intSub part.StockQuantity quantity = part.StockQuantity - quantity :=
    wrap64_of_isInt hrep
  rw [hsub] at hfound
  refine ⟨?_, ⟨_, ?_, rfl, ?_, ?_⟩, ⟨_, ?_, rfl, ?_, ?_⟩⟩
  · simp only [r, hfound]
  · simp only [r, hfound]
    exact mapGet_mapModify_same w.parts.items partID
      (fun p : SparePart => { p with StockQuantity := part.StockQuantity - quantity,
                                     UpdatedAt := rclk.stamp })
      (fun _ => rfl) part hget
  · intro hneg
    show part.StockQuantity < part.StockQuantity - quantity
    omega
  · intro hz
    show part.StockQuantity - quantity = part.StockQuantity
    omega
  · simp only [r, hfound]
    exact mapSet_of_WF _ _ hwf rfl
  · intro hz
    show part.UnitPrice * (quantity : Money) = 0
    rw [hz]; simp
  · intro hprice hle
    show part.UnitPrice * (quantity : Money) ≤ 0
    exact mul_nonpos_of_nonneg_of_nonpos hprice (by exact_mod_cast hle)

theorem SellPart_no_lower_bound_witness :
    let r := (memSparePartService exClock).SellPart exClock exPartsWorld 1 (-3) "walk-in"
    r.1 = none ∧
    (∃ p, mapGet r.2.parts.items 1 = some p ∧
      p = { exBolt with StockQuantity := exBolt.StockQuantity - (-3),
                        UpdatedAt := exClock.stamp } ∧
      ((-3 : Int) < 0 → exBolt.StockQuantity < p.StockQuantity) ∧
      ((-3 : Int) = 0 → p.StockQuantity = exBolt.StockQuantity)) ∧
    (∃ tx, r.2.transactions.items = exPartsWorld.transactions.items ++ [tx] ∧
      tx = { ID := exPartsWorld.transactions.nextID
             Type_ := TransactionSale
             EntityType := "part"
             EntityID := 1
             Amount := exBolt.UnitPrice * (((-3 : Int)) : Money)
             PartyName := "walk-in"
             Date := if exClock.date = "" then exClock.date else exClock.date
             Description := exBolt.Name ++ " x" ++ Itoa (-3) } ∧
      ((-3 : Int) = 0 → tx.Amount = 0) ∧
      (0 ≤ exBolt.UnitPrice → (-3 : Int) ≤ 0 → tx.Amount ≤ 0)) :=
  SellPart_no_lower_bound exClock exClock exPartsWorld 1 (-3) "walk-in" exBolt
    Store.new_WF rfl (by decide) (by decide)

/-- C30 (parts-used text that does not decode): for a record with a customer name and
a description whose parts-used text is not empty and is not decoded by
`json.Unmarshal`, `CreateServiceRecord` succeeds, leaves the spare parts as they are,
stores one more service record with the supplied parts cost and the total cost labor
cost plus supplied parts cost, and appends one sale entry of entity type "service"
with that total as its amount. -/
theorem CreateServiceRecord_unparseable_parts (rclk clk : Clock)
    (del : World → Int → Except Error World)
    (unmarshal : String → Option (List PartUsage)) (w : World) (record : ServiceRecord)
    (hswf : w.services.WF) (hwf : w.transactions.WF)
    (hc : record.CustomerName ≠ "") (hd : record.Description ≠ "")
    (hp : record.PartsUsed ≠ "") (hu : unmarshal record.PartsUsed = none) :
    let r := (memServiceRecordService rclk del).CreateServiceRecord unmarshal clk w record
    r.1 = none ∧
    r.2.parts = w.parts ∧
    r.2.services.items = w.services.items ++
      [{ record with
           ID := w.services.nextID
           TotalCost := record.LaborCost + record.PartsCost
           Status := "completed"
           ServiceDate := if record.ServiceDate = "" then clk.date else record.ServiceDate }] ∧
    r.2.transactions.items = w.transactions.items ++
      [{ ID := w.transactions.nextID
         Type_ := TransactionSale
         EntityType := "service"
         EntityID := w.services.nextID
         Amount := record.LaborCost + record.PartsCost
         PartyName := record.CustomerName
         Date := if (if record.ServiceDate = "" then clk.date
                     else record.ServiceDate) = "" then rclk.date
                 else (if record.ServiceDate = "" then clk.date else record.ServiceDate)
         Description := "Service: " ++ record.Description }] := by
  intro r
  have hv : ¬ (record.CustomerName = "" ∨ record.Description = "") := by
    rintro (h | h)
    · exact hc h
    · exact hd h
  have hr : r = (none,
      { w with
        services :=
          { items :=
              (mapSet w.services.items
                { record with
                    ID := w.services.nextID
                    TotalCost := record.LaborCost + record.PartsCost
                    Status := "completed"
                    ServiceDate := if record.ServiceDate = "" then clk.date
                                   else record.ServiceDate })
            nextID := w.services.nextID + 1 }
        transactions :=
          { items :=
              (mapSet w.transactions.items
                { ID := w.transactions.nextID
                  Type_ := TransactionSale
                  EntityType := "service"
                  EntityID := w.services.nextID
                  Amount := record.LaborCost + record.PartsCost
                  PartyName := record.CustomerName
                  Date := if (if record.ServiceDate = "" then clk.date
                              else record.ServiceDate) = "" then rclk.date
                          else (if record.ServiceDate = "" then clk.date
                                else record.ServiceDate)
                  Description := "Service: " ++ record.Description })
            nextID := w.transactions.nextID + 1 } }) := by
    simp only [r]
    unfold ServiceRecordService.CreateServiceRecord
    simp only [if_neg hv, ne_eq, hp, not_false_eq_true, if_true, hu]
    by_cases hsd : record.ServiceDate = "" <;>
      simp [memServiceRecordService, MemoryServiceRepository, MemoryTransactionRepository, hsd]
  rw [hr]
  refine ⟨rfl, rfl, ?_, ?_⟩
  · exact mapSet_of_WF _ _ hswf rfl
  · exact mapSet_of_WF _ _ hwf rfl

theorem CreateServiceRecord_unparseable_parts_witness :
    let r := (memServiceRecordService exClock exDelete).CreateServiceRecord exUnmarshal
      exClock exPartsWorld exGarbledRecord
    r.1 = none ∧
    r.2.parts = exPartsWorld.parts ∧
    r.2.services.items = exPartsWorld.services.items ++
      [{ exGarbledRecord with
           ID := exPartsWorld.services.nextID
           TotalCost := exGarbledRecord.LaborCost + exGarbledRecord.PartsCost
           Status := "completed"
           ServiceDate := if exGarbledRecord.ServiceDate = "" then exClock.date
                          else exGarbledRecord.ServiceDate }] ∧
    r.2.transactions.items = exPartsWorld.transactions.items ++
      [{ ID := exPartsWorld.transactions.nextID
         Type_ := TransactionSale
         EntityType := "service"
         EntityID := exPartsWorld.services.nextID
         Amount := exGarbledRecord.LaborCost + exGarbledRecord.PartsCost
         PartyName := exGarbledRecord.CustomerName
         Date := if (if exGarbledRecord.ServiceDate = "" then exClock.date
                     else exGarbledRecord.ServiceDate) = "" then exClock.date
                 else (if exGarbledRecord.ServiceDate = "" then exClock.date
                       else exGarbledRecord.ServiceDate)
         Description := "Service: " ++ exGarbledRecord.Description }] :=
  CreateServiceRecord_unparseable_parts exClock exClock exDelete exUnmarshal exPartsWorld
    exGarbledRecord Store.new_WF Store.new_WF (by decide) (by decide) (by decide) rfl

end POS
